import Mathlib

/-!
# Volumio ALSA fifo plug-in: the streaming and position-tracking engine

A shallow embedding of `src/pcm_volumiofifo.c`.

Conventions of the embedding

* C `int`, `long` and `snd_pcm_sframes_t` values are `Int`; `snd_pcm_uframes_t`, byte counts
  handed to `write`/`read` and descriptor event masks are `Nat`.  The plug-in declares buffers of
  at most 524288 bytes, so the byte and frame arithmetic of the transfer path stays far inside
  the machine ranges and is done in `Int`/`Nat` directly: the `int` variables `size_bytes`,
  `chunk_size`, `to_write` and `written_bytes` of the chunking writer hold the values of
  `transfer_loop` as long as `size * frame_bytes < 2^31`, `PIPE_BUF < 2^31` and `write` reports
  no more than it was asked for, and the theorems on the values the chunking writer computes
  (its result contract and its write counts) are stated for that range.
* In `snd_pcm_volumiofifo_poll_revents` the local `int err` receives the frame counts
  `snd_pcm_ioplug_avail(...)` and `io->period_size` (conversion `to_int`, 32 bits) and is
  compared with the unsigned `io->period_size` (conversion `to_ulong`, LP64).
* Everything outside the file is an explicit input: the fifo is a state machine `Fifo σ`
  answering `write`, `read` and the zero-timeout `poll`; the results of the ALSA and timer calls
  are the fields of `Env`; `snd_pcm_ioplug_avail` is the field `avail` of the ioplug record.
* `snd_pcm_frames_to_bytes` and `snd_pcm_bytes_to_frames` are multiplication and (floor) division
  by the frame size in bytes `frame_bytes`.
* The `do ... while` loop of the chunking writer and the `for(;;)` loop of `clear_pipe` take a
  fuel argument and return `none` when it runs out.
* `World.calls` is a ghost record of the chunking-writer calls and of every `write` they issued;
  no function reads it.
* The constructor `SND_PCM_PLUGIN_DEFINE_FUNC(volumiofifo)` is `_snd_pcm_volumiofifo_open`: the
  configuration is the list of its entries, the system and library calls it makes are the fields
  of `open_env`, and its outcome carries the ghost lists of the descriptors it opened and closed.
  `parse_state.stores` is the ghost list of the indices of `formats[64]` assigned so far; each
  of the two assignment sites of the source extends it.
* An output location such as `*revents` is an argument holding its content before the call and
  a component of the result holding its content afterwards.
* Diagnostics (`SNDERR`) are not modelled; the `debug` level is stored but has no other effect.
-/

namespace VolumioFifo

/-! ## Constants of the platform headers (Linux values) -/

def EAGAIN : Int := 11
def ENOMEM : Int := 12
def EINVAL : Int := 22
def EPIPE : Int := 32
def EBADFD : Int := 77
def POLLIN : Nat := 1
def POLLOUT : Nat := 4

/-- Conversion of a C `int`/`long` value to `unsigned long` on LP64. -/
def to_ulong (x : Int) : Nat :=
  if x < 0 then (x + 2 ^ 64).toNat else x.toNat

/-- Conversion of a wider integer value to C `int` (32 bits, two's complement): the value
modulo `2^32` taken in `-2^31 .. 2^31 - 1`. -/
def to_int (x : Int) : Int :=
  (x + 2 ^ 31) % 2 ^ 32 - 2 ^ 31

/-! ## Data model -/

inductive snd_pcm_state_t
  | OPEN | SETUP | PREPARED | RUNNING | XRUN | DRAINING | PAUSED | SUSPENDED | DISCONNECTED
  deriving DecidableEq, Repr

/-- Outcome of one `write(2)`/`read(2)`: the byte count returned, or `-1` with `errno`. -/
inductive io_result
  | done (n : Nat)
  | failed (errno : Int)
  deriving DecidableEq, Repr

/-- The named pipe as seen through the two descriptors of the session. -/
structure Fifo (σ : Type) where
  /-- `PIPE_BUF` of `<limits.h>`. -/
  PIPE_BUF : Nat
  /-- `write(fifo_out_fd, _, count)`. -/
  write : σ → Nat → io_result × σ
  /-- `read(fifo_in_fd, _, count)`. -/
  read : σ → Nat → io_result × σ
  /-- `poll(&pfd, 1, 0)` with `pfd = {fifo_in_fd, POLLIN, 0}`: return value and `pfd.revents`. -/
  poll : σ → Int × Nat

/-- Results of the ALSA library and timer calls made by the plug-in. -/
structure Env where
  /-- `timerfd_settime(fd, 0, &timer, NULL)`, by descriptor and programmed nanoseconds. -/
  timerfd_settime : Int → Nat → Int
  /-- Value of `errno` read after `timerfd_settime`. -/
  errno : Int
  /-- `snd_pcm_ioplug_set_state(io, SND_PCM_STATE_RUNNING)`. -/
  set_state : Int
  /-- `snd_pcm_format_set_silence`. -/
  set_silence : Int
  /-- Whether `malloc` returns a buffer. -/
  malloc_ok : Bool
  /-- `snd_pcm_sw_params_current`. -/
  sw_params_current : Int
  /-- `snd_pcm_sw_params_get_boundary`: return value and the boundary it stores. -/
  get_boundary : Int × Nat
  /-- `snd_pcm_hwsync`: return value and `io->hw_ptr` afterwards. -/
  hwsync : Int × Nat

/-- The fields of `snd_pcm_ioplug_t` (and of its pcm) that the plug-in reads. -/
structure snd_pcm_ioplug_t where
  state : snd_pcm_state_t
  hw_ptr : Nat
  appl_ptr : Nat
  buffer_size : Nat
  period_size : Nat
  channels : Nat
  /-- `snd_pcm_frames_to_bytes(io->pcm, 1)`. -/
  frame_bytes : Nat
  /-- `first` of `snd_pcm_ioplug_mmap_areas(io)`, in bits. -/
  area_first : Nat
  /-- `step` of `snd_pcm_ioplug_mmap_areas(io)`, in bits. -/
  area_step : Nat
  /-- `snd_pcm_ioplug_avail(io, hw_ptr, appl_ptr)`. -/
  avail : Nat → Nat → Nat

structure snd_pcm_volumiofifo_t where
  debug : Int
  clear_on_drop : Int
  lead_in_frames : Nat
  fifo_out_fd : Int
  fifo_in_fd : Int
  timer_fd : Int
  ptr : Int
  boundary : Nat
  drained : Int
  deriving DecidableEq, Repr

structure pollfd where
  fd : Int
  events : Nat
  revents : Nat
  deriving DecidableEq, Repr

/-- A source buffer of the chunking writer. -/
inductive buf_ptr
  /-- `areas->addr + byte`: a byte of the ring buffer. -/
  | area (byte : Nat)
  /-- The local `char buf[alloc]` of `start`, of which `silenced` samples were set to silence. -/
  | local_buf (alloc : Nat) (silenced : Nat)
  deriving DecidableEq, Repr

/-- Ghost: one `write` issued by the chunking writer, `write(fd, buf + off, count)`. -/
structure write_event where
  off : Int
  count : Nat
  res : io_result
  deriving DecidableEq, Repr

/-- Ghost: one call of the chunking writer. -/
structure transfer_call where
  buf : buf_ptr
  size : Nat
  writes : List write_event
  ret : Int
  deriving DecidableEq, Repr

structure World (σ : Type) where
  fifo : σ
  calls : List transfer_call
  deriving DecidableEq, Repr

/-! ## Ghost observations -/

/-- Bytes the sink accepted in a list of writes. -/
def accepted_bytes : List write_event → Nat
  | [] => 0
  | ⟨_, _, io_result.done n⟩ :: evs => n + accepted_bytes evs
  | ⟨_, _, io_result.failed _⟩ :: evs => accepted_bytes evs

/-- Offsets (relative to the buffer of the call) of the bytes the sink accepted, in order. -/
def accepted_offsets : List write_event → List Nat
  | [] => []
  | ⟨off, _, io_result.done n⟩ :: evs => List.range' off.toNat n ++ accepted_offsets evs
  | ⟨_, _, io_result.failed _⟩ :: evs => accepted_offsets evs

/-- Ring-buffer bytes delivered to the sink by a list of chunking-writer calls, in order. -/
def delivered : List transfer_call → List Nat
  | [] => []
  | ⟨buf_ptr.area b, _, evs, _⟩ :: cs => (accepted_offsets evs).map (fun i => b + i) ++ delivered cs
  | ⟨buf_ptr.local_buf _ _, _, _, _⟩ :: cs => delivered cs

/-- Bytes accepted by the sink over a list of chunking-writer calls. -/
def calls_bytes : List transfer_call → Nat
  | [] => 0
  | c :: cs => accepted_bytes c.writes + calls_bytes cs

/-- Frames requested from the chunking writer over a list of calls. -/
def calls_frames : List transfer_call → Nat
  | [] => 0
  | c :: cs => c.size + calls_frames cs

/-- The `errno` of the first failed write of a list, if any. -/
def first_failure : List write_event → Option Int
  | [] => none
  | ⟨_, _, io_result.done _⟩ :: evs => first_failure evs
  | ⟨_, _, io_result.failed e⟩ :: _ => some e

/-- What a finished run of the chunking loop guarantees about its result `ret` and the writes
`evs` it issued, for a request of `sb` bytes. -/
def transfer_post (io : snd_pcm_ioplug_t) (sb ret : Int) (evs : List write_event) : Prop :=
  (accepted_bytes evs : Int) ≤ sb ∧
  accepted_offsets evs = List.range' 0 (accepted_bytes evs) ∧
  (∀ ev ∈ evs, 0 ≤ ev.off ∧ ev.off + ev.count ≤ sb) ∧
  (first_failure evs = none → (accepted_bytes evs : Int) = sb ∧ ret = sb / io.frame_bytes) ∧
  (∀ e, first_failure evs = some e →
    (e ≠ EAGAIN ∧ accepted_bytes evs = 0 → ret = -EPIPE) ∧
    (e = EAGAIN ∨ 0 < accepted_bytes evs → ret = (accepted_bytes evs : Int) / io.frame_bytes))

/-! ## The plug-in -/

def _snd_pcm_volumiofifo_set_timer (E : Env) (volumio : snd_pcm_volumiofifo_t) (on_ : Int) : Int :=
  E.timerfd_settime volumio.timer_fd (if on_ = 1 then 25 * 1000000 else 0)

def snd_pcm_frames_to_bytes (io : snd_pcm_ioplug_t) (frames : Int) : Int :=
  frames * io.frame_bytes

def snd_pcm_bytes_to_frames (io : snd_pcm_ioplug_t) (bytes : Int) : Int :=
  bytes / io.frame_bytes

def _snd_pcm_volumiofifo_chunk_size {σ : Type} (F : Fifo σ) (io : snd_pcm_ioplug_t) : Int :=
  (F.PIPE_BUF : Int) - (F.PIPE_BUF : Int) % snd_pcm_frames_to_bytes io 1

/-- The `do ... while (written_bytes < size_bytes)` loop of `_snd_pcm_volumiofifo_transfer`,
one iteration per unit of fuel; `evs` is the ghost list of writes issued so far.  The byte
counts are not reduced to the 32 bits of the `int` variables of the source; they stay below
`2^31` when `size_bytes` and `chunk_size` do and `write` reports no more than it was asked for. -/
def transfer_loop {σ : Type} (F : Fifo σ) (io : snd_pcm_ioplug_t) (size_bytes chunk_size : Int) :
    Nat → σ → Int → Int → List write_event → Option (Int × σ × List write_event)
  | 0, _, _, _, _ => none
  | fuel + 1, s, written_bytes, written, evs =>
    let to_write := size_bytes - written_bytes
    let count := (if to_write > chunk_size then chunk_size else to_write).toNat
    match F.write s count with
    | (io_result.failed errno, s1) =>
      let evs1 := evs ++ [⟨written_bytes, count, io_result.failed errno⟩]
      if errno = EAGAIN then some (written, s1, evs1)
      else if written_bytes = 0 then some (-EPIPE, s1, evs1)
      else some (written, s1, evs1)
    | (io_result.done n, s1) =>
      let evs1 := evs ++ [⟨written_bytes, count, io_result.done n⟩]
      let written_bytes1 := written_bytes + n
      let written1 := snd_pcm_bytes_to_frames io written_bytes1
      if written_bytes1 < size_bytes then transfer_loop F io size_bytes chunk_size fuel s1 written_bytes1 written1 evs1
      else some (written1, s1, evs1)

/-- Chunking writer. -/
def _snd_pcm_volumiofifo_transfer {σ : Type} (F : Fifo σ) (fuel : Nat) (io : snd_pcm_ioplug_t)
    (buf : buf_ptr) (size : Nat) (w : World σ) : Option (Int × World σ) :=
  let size_bytes := snd_pcm_frames_to_bytes io size
  let chunk_size := _snd_pcm_volumiofifo_chunk_size F io
  match transfer_loop F io size_bytes chunk_size fuel w.fifo 0 0 [] with
  | none => none
  | some (written, s1, evs) => some (written, ⟨s1, w.calls ++ [⟨buf, size, evs, written⟩]⟩)

/-- Wraparound transfer. -/
def _snd_pcm_volumiofifo_transfer_wrap {σ : Type} (F : Fifo σ) (fuel : Nat) (io : snd_pcm_ioplug_t)
    (volumio : snd_pcm_volumiofifo_t) (size : Nat) (w : World σ) : Option (Int × World σ) :=
  let offset := to_ulong volumio.ptr % io.buffer_size
  let remaining := io.buffer_size - offset
  let buf := buf_ptr.area ((io.area_first + io.area_step * offset) / 8)
  if offset + size > io.buffer_size then
    match _snd_pcm_volumiofifo_transfer F fuel io buf remaining w with
    | none => none
    | some (written, w1) =>
      if written = remaining then
        match _snd_pcm_volumiofifo_transfer F fuel io (buf_ptr.area (io.area_first / 8)) (size - remaining) w1 with
        | none => none
        | some (written2, w2) =>
          if written2 ≥ 0 then some (written2 + remaining, w2) else some (remaining, w2)
      else some (written, w1)
  else _snd_pcm_volumiofifo_transfer F fuel io buf size w

/-- The part of `_snd_pcm_volumiofifo_advance` after the `switch`. -/
def advance_body {σ : Type} (F : Fifo σ) (fuel : Nat) (io : snd_pcm_ioplug_t)
    (volumio : snd_pcm_volumiofifo_t) (w : World σ) :
    Option (Int × snd_pcm_volumiofifo_t × World σ) :=
  if volumio.ptr < 0 then some (0, volumio, w)
  else
    let available := io.avail (to_ulong volumio.ptr) io.appl_ptr
    let buffered : Int := (io.buffer_size : Int) - (available : Int)
    if buffered > 0 then
      let r : Option (Int × snd_pcm_volumiofifo_t × World σ) :=
        if io.state = snd_pcm_state_t.RUNNING then
          match _snd_pcm_volumiofifo_transfer_wrap F fuel io volumio buffered.toNat w with
          | none => none
          | some (written, w1) => some (written, volumio, w1)
        else if io.state = snd_pcm_state_t.DRAINING ∧ volumio.drained = 0 then
          match _snd_pcm_volumiofifo_transfer_wrap F fuel io volumio buffered.toNat w with
          | none => none
          | some (written, w1) =>
            if written = buffered then some (written - 1, { volumio with drained := 1 }, w1)
            else some (written, volumio, w1)
        else some (0, volumio, w)
      match r with
      | none => none
      | some (written, v, w1) =>
        if written < 0 then some (written, { v with ptr := -EPIPE }, w1)
        else
          let p := v.ptr + written
          if p ≥ (v.boundary : Int) then some (0, { v with ptr := p - v.boundary }, w1)
          else some (0, { v with ptr := p }, w1)
    else some (0, volumio, w)

def _snd_pcm_volumiofifo_advance {σ : Type} (F : Fifo σ) (fuel : Nat) (io : snd_pcm_ioplug_t)
    (volumio : snd_pcm_volumiofifo_t) (w : World σ) :
    Option (Int × snd_pcm_volumiofifo_t × World σ) :=
  match io.state with
  | snd_pcm_state_t.RUNNING => advance_body F fuel io volumio w
  | snd_pcm_state_t.DRAINING => advance_body F fuel io volumio w
  | snd_pcm_state_t.XRUN => advance_body F fuel io { volumio with ptr := -EPIPE } w
  | _ => some (0, volumio, w)

/-- Called in lock. -/
def snd_pcm_volumiofifo_start {σ : Type} (F : Fifo σ) (E : Env) (fuel : Nat) (io : snd_pcm_ioplug_t)
    (volumio : snd_pcm_volumiofifo_t) (w : World σ) :
    Option (Int × snd_pcm_ioplug_t × snd_pcm_volumiofifo_t × World σ) :=
  let err := E.set_state
  if err = 0 then
    let io1 := { io with state := snd_pcm_state_t.RUNNING }
    if volumio.lead_in_frames > 0 then
      let buf := buf_ptr.local_buf (snd_pcm_frames_to_bytes io1 volumio.lead_in_frames).toNat
        (io1.period_size * io1.channels)
      let err1 := E.set_silence
      if err1 = 0 then
        match _snd_pcm_volumiofifo_transfer F fuel io1 buf io1.period_size w with
        | none => none
        | some (_, w1) =>
          match _snd_pcm_volumiofifo_advance F fuel io1 volumio w1 with
          | none => none
          | some (err2, v, w2) => some (err2, io1, v, w2)
      else some (err1, io1, volumio, w)
    else
      match _snd_pcm_volumiofifo_advance F fuel io1 volumio w with
      | none => none
      | some (err2, v, w2) => some (err2, io1, v, w2)
  else some (err, io, volumio, w)

/-- Called in lock: the transfer callback. -/
def snd_pcm_volumiofifo_transfer {σ : Type} (F : Fifo σ) (fuel : Nat) (io : snd_pcm_ioplug_t)
    (volumio : snd_pcm_volumiofifo_t) (size : Nat) (w : World σ) :
    Option (Int × snd_pcm_volumiofifo_t × World σ) :=
  match _snd_pcm_volumiofifo_advance F fuel io volumio w with
  | none => none
  | some (err, v, w1) => some (if err = 0 then (size : Int) else err, v, w1)

/-- The `for(;;)` loop of `snd_pcm_volumiofifo_clear_pipe`, one `read` per unit of fuel. -/
def clear_pipe_loop {σ : Type} (F : Fifo σ) (chunk_size : Nat) : Nat → σ → Option (Int × σ)
  | 0, _ => none
  | fuel + 1, s =>
    match F.read s chunk_size with
    | (io_result.failed errno, s1) => if errno = EAGAIN then some (0, s1) else some (-errno, s1)
    | (io_result.done 0, s1) => some (0, s1)
    | (io_result.done (_ + 1), s1) => clear_pipe_loop F chunk_size fuel s1

def snd_pcm_volumiofifo_clear_pipe {σ : Type} (F : Fifo σ) (E : Env) (fuel : Nat)
    (io : snd_pcm_ioplug_t) (w : World σ) : Option (Int × World σ) :=
  let chunk_size := _snd_pcm_volumiofifo_chunk_size F io
  if E.malloc_ok = false then some (-ENOMEM, w)
  else
    match clear_pipe_loop F chunk_size.toNat fuel w.fifo with
    | none => none
    | some (err, s1) => some (err, ⟨s1, w.calls⟩)

/-- Called in lock. -/
def snd_pcm_volumiofifo_stop {σ : Type} (F : Fifo σ) (E : Env) (fuel : Nat) (io : snd_pcm_ioplug_t)
    (volumio : snd_pcm_volumiofifo_t) (w : World σ) :
    Option (Int × snd_pcm_volumiofifo_t × World σ) :=
  let r : Option (Int × World σ) :=
    if volumio.fifo_in_fd = -1 then some (-EPIPE, w)
    else if volumio.clear_on_drop = 1 then snd_pcm_volumiofifo_clear_pipe F E fuel io w
    else some (0, w)
  match r with
  | none => none
  | some (err, w1) =>
    if err = 0 then some (_snd_pcm_volumiofifo_set_timer E volumio 0, volumio, w1)
    else some (err, volumio, w1)

/-- Position query; called in lock. -/
def snd_pcm_volumiofifo_pointer {σ : Type} (F : Fifo σ) (fuel : Nat) (io : snd_pcm_ioplug_t)
    (volumio : snd_pcm_volumiofifo_t) (w : World σ) :
    Option (Int × snd_pcm_volumiofifo_t × World σ) :=
  if volumio.fifo_out_fd = -1 ∨ volumio.fifo_in_fd = -1 then
    some (-EBADFD, { volumio with ptr := -EBADFD }, w)
  else if io.state = snd_pcm_state_t.XRUN then
    some (-EPIPE, { volumio with ptr := -EPIPE }, w)
  else if io.state = snd_pcm_state_t.DRAINING ∧ volumio.drained = 1 then
    let err := (F.poll w.fifo).1
    let revents := (F.poll w.fifo).2
    if err < 0 then some (-EPIPE, { volumio with ptr := -EPIPE }, w)
    else if revents &&& POLLIN = 0 then some (-EPIPE, { volumio with ptr := -EPIPE }, w)
    else some (volumio.ptr, volumio, w)
  else if io.state = snd_pcm_state_t.RUNNING ∨ io.state = snd_pcm_state_t.DRAINING then
    match _snd_pcm_volumiofifo_advance F fuel io volumio w with
    | none => none
    | some (err, v, w1) =>
      if err < 0 then some (-EPIPE, { v with ptr := -EPIPE }, w1)
      else some (v.ptr, v, w1)
  else some (volumio.ptr, volumio, w)

/-- Called outside lock. -/
def snd_pcm_volumiofifo_poll_descriptors_count (_io : snd_pcm_ioplug_t)
    (_volumio : snd_pcm_volumiofifo_t) : Int :=
  1

/-- Called outside lock; `pfds` is the caller's array, returned with the entries written. -/
def snd_pcm_volumiofifo_poll_descriptors (E : Env) (io : snd_pcm_ioplug_t)
    (volumio : snd_pcm_volumiofifo_t) (pfds : Nat → pollfd) (nfds : Nat) : Int × (Nat → pollfd) :=
  if nfds = 1 then
    if io.state = snd_pcm_state_t.DRAINING ∧ volumio.drained = 1 then
      let err := _snd_pcm_volumiofifo_set_timer E volumio 1
      let pfds1 := Function.update pfds 0 ⟨volumio.timer_fd, POLLIN, 0⟩
      if err = 0 then (1, pfds1) else (-E.errno, pfds1)
    else
      (1, Function.update pfds 0 ⟨volumio.fifo_out_fd, POLLOUT, 0⟩)
  else (-EINVAL, pfds)

/-- Called outside lock; `revents` is the prior content of the output location, returned with
the content after the call.  The local `int err` receives the result of
`snd_pcm_ioplug_avail` and the value of `io->period_size` through `to_int`, and is converted by
`to_ulong` in the comparison with `io->period_size`. -/
def snd_pcm_volumiofifo_poll_revents (E : Env) (io : snd_pcm_ioplug_t)
    (volumio : snd_pcm_volumiofifo_t) (pfds : Nat → pollfd) (nfds : Nat) (revents : Nat) :
    Int × Nat :=
  if nfds ≠ 1 ∨ ((pfds 0).fd ≠ volumio.fifo_out_fd ∧ (pfds 0).fd ≠ volumio.timer_fd) then
    (-EINVAL, revents)
  else
    let err : Int :=
      match io.state with
      | snd_pcm_state_t.RUNNING =>
        if E.hwsync.1 = 0 then to_int (io.avail E.hwsync.2 io.appl_ptr : Int) else E.hwsync.1
      | snd_pcm_state_t.DRAINING =>
        if E.hwsync.1 = 0 then to_int (io.avail E.hwsync.2 io.appl_ptr : Int) else E.hwsync.1
      | _ => to_int (io.period_size : Int)
    if to_ulong err ≥ io.period_size then (0, POLLOUT)
    else if err > 0 then (0, 0)
    else (err, revents)

/-- Called outside lock. -/
def snd_pcm_volumiofifo_prepare (E : Env) (io : snd_pcm_ioplug_t)
    (volumio : snd_pcm_volumiofifo_t) : Int × snd_pcm_volumiofifo_t :=
  let _err : Int := if volumio.fifo_out_fd = -1 ∨ volumio.fifo_in_fd = -1 then -EBADFD else 0
  let v := { volumio with drained := 0, ptr := (io.hw_ptr : Int) }
  let err := E.sw_params_current
  if err = 0 then
    let err1 := E.get_boundary.1
    let v1 := { v with boundary := E.get_boundary.2 }
    if err1 = 0 then (_snd_pcm_volumiofifo_set_timer E v1 0, v1) else (err1, v1)
  else (err, v)

/-- The callbacks the host issues on a prepared session (every one but `prepare` and
`close`), with the arguments that are not part of the session, the ioplug record or the world. -/
inductive callback
  | advance
  | transfer (size : Nat)
  | start
  | stop
  | pointer
  | poll_descriptors (pfds : Nat → pollfd) (nfds : Nat)
  | poll_revents (pfds : Nat → pollfd) (nfds : Nat) (revents : Nat)

/-- The session record after a callback returns.  `poll_descriptors` and `poll_revents` only
read the record. -/
def session_after {σ : Type} (F : Fifo σ) (E : Env) (fuel : Nat) (op : callback)
    (io : snd_pcm_ioplug_t) (volumio : snd_pcm_volumiofifo_t) (w : World σ) :
    Option snd_pcm_volumiofifo_t :=
  match op with
  | callback.advance => (_snd_pcm_volumiofifo_advance F fuel io volumio w).map (fun x => x.2.1)
  | callback.transfer size =>
    (snd_pcm_volumiofifo_transfer F fuel io volumio size w).map (fun x => x.2.1)
  | callback.start => (snd_pcm_volumiofifo_start F E fuel io volumio w).map (fun x => x.2.2.1)
  | callback.stop => (snd_pcm_volumiofifo_stop F E fuel io volumio w).map (fun x => x.2.1)
  | callback.pointer => (snd_pcm_volumiofifo_pointer F fuel io volumio w).map (fun x => x.2.1)
  | callback.poll_descriptors _ _ => some volumio
  | callback.poll_revents _ _ _ => some volumio

/-! ## Release of the handles -/

/-- `snd_pcm_volumiofifo_close_fd(&slot)`: the slot afterwards, and the ghost list `closed` of
descriptors handed to `close(2)` so far. -/
def snd_pcm_volumiofifo_close_fd (fd : Int) (closed : List Int) : Int × List Int :=
  (-1, if fd ≠ -1 then closed ++ [fd] else closed)

/-- Called outside lock.  The record is freed at the end; it is returned as it was then. -/
def snd_pcm_volumiofifo_close (volumio : snd_pcm_volumiofifo_t) (closed : List Int) :
    Int × snd_pcm_volumiofifo_t × List Int :=
  let r1 := snd_pcm_volumiofifo_close_fd volumio.fifo_out_fd closed
  let r2 := snd_pcm_volumiofifo_close_fd volumio.fifo_in_fd r1.2
  let r3 := snd_pcm_volumiofifo_close_fd volumio.timer_fd r2.2
  (0, { volumio with fifo_out_fd := r1.1, fifo_in_fd := r2.1, timer_fd := r3.1 }, r3.2)

/-! ## Construction of the session: `SND_PCM_PLUGIN_DEFINE_FUNC(volumiofifo)` -/

inductive snd_pcm_stream_t
  | PLAYBACK | CAPTURE
  deriving DecidableEq, Repr

/-- The value of a configuration node as `snd_config_get_integer` and `snd_config_get_string`
see it. -/
inductive conf_value
  | integer (n : Int)
  | string (s : String)
  | other
  deriving DecidableEq, Repr

/-- One entry of the configuration; `id = none` when `snd_config_get_id` fails. -/
structure conf_entry where
  id : Option String
  value : conf_value
  deriving DecidableEq, Repr

def snd_config_get_integer : conf_value → Option Int
  | conf_value.integer n => some n
  | _ => none

def snd_config_get_string : conf_value → Option String
  | conf_value.string t => some t
  | _ => none

def SND_PCM_FORMAT_UNKNOWN : Int := -1

/-- The formats added when no format is given or `format_append` is set, in the order of the
source: S8, U8, S16_LE, S16_BE, U16_LE, U16_BE, S24_LE, S24_BE, U24_LE, U24_BE, S24_3LE, S24_3BE,
U24_3LE, U24_3BE, S32_LE, S32_BE, U32_LE, U32_BE, FLOAT_LE, FLOAT_BE, FLOAT64_LE, FLOAT64_BE,
S20_LE, S20_BE, U20_LE, U20_BE, S20_3LE, S20_3BE, U20_3LE, U20_3BE, S18_3LE, S18_3BE, U18_3LE,
U18_3BE (values of `<alsa/pcm.h>`). -/
def default_formats : List Int :=
  [0, 1, 2, 3, 4, 5, 6, 7, 8, 9, 32, 33, 34, 35, 10, 11, 12, 13, 14, 15, 16, 17,
   25, 26, 27, 28, 36, 37, 38, 39, 40, 41, 42, 43]

/-- The local variables of the constructor that the configuration loop sets; `stores` is the
ghost list of the indices of `formats[]` written so far. -/
structure parse_state where
  debug : Int
  fifo_name : Option String
  formats : Int → Int
  format_count : Int
  format_append : Int
  clear_on_drop : Int
  lead_in_frames : Int
  stores : List Int

/-- One iteration of `snd_config_for_each`: the locals afterwards, and `some err` when the
iteration ends in `goto error`.  `format_value` is `snd_pcm_format_value`. -/
def parse_entry (format_value : String → Int) (st : parse_state) (n : conf_entry) :
    parse_state × Option Int :=
  match n.id with
  | none => (st, none)
  | some id =>
    if id = "comment" ∨ id = "type" ∨ id = "hint" then (st, none)
    else if id = "debug" then
      match snd_config_get_integer n.value with
      | none => (st, some (-EINVAL))
      | some d => ({ st with debug := d }, none)
    else if id = "fifo" then
      match snd_config_get_string n.value with
      | none => (st, some (-EINVAL))
      | some t => ({ st with fifo_name := some t }, none)
    else if id = "format_append" then
      match snd_config_get_string n.value with
      | none => (st, some (-EINVAL))
      | some tmp => (if tmp = "true" then { st with format_append := 1 } else st, none)
    else if "format_".data.isPrefixOf id.data then
      let st1 := { st with format_count := st.format_count + 1 }
      if st1.format_count > 63 then (st1, some (-EINVAL))
      else
        match snd_config_get_string n.value with
        | none => (st1, some (-EINVAL))
        | some tmp =>
          let st2 := { st1 with
            formats := Function.update st1.formats (st1.format_count - 1) (format_value tmp)
            stores := st1.stores ++ [st1.format_count - 1] }
          if st2.formats (st2.format_count - 1) = SND_PCM_FORMAT_UNKNOWN then
            (st2, some (-EINVAL))
          else (st2, none)
    else if id = "clear_on_drop" then
      match snd_config_get_string n.value with
      | none => (st, some (-EINVAL))
      | some tmp => ({ st with clear_on_drop := if tmp = "true" then 1 else 0 }, none)
    else if id = "lead_in_frames" then
      match snd_config_get_integer n.value with
      | none => (st, some (-EINVAL))
      -- the range test `lead_in_frames < 0 || lead_in_frames > 16384` only prints a message
      | some l => ({ st with lead_in_frames := l }, none)
    else (st, some (-EINVAL))

/-- The loop `snd_config_for_each (i, next, conf)`. -/
def parse_conf (format_value : String → Int) : parse_state → List conf_entry →
    parse_state × Option Int
  | st, [] => (st, none)
  | st, n :: ns =>
    match parse_entry format_value st n with
    | (st1, some e) => (st1, some e)
    | (st1, none) => parse_conf format_value st1 ns

/-- `formats[format_count++] = f`. -/
def store_format (st : parse_state) (f : Int) : parse_state :=
  { st with
    formats := Function.update st.formats st.format_count f
    format_count := st.format_count + 1
    stores := st.stores ++ [st.format_count] }

/-- The block `if(format_count == 0 || format_append)`. -/
def union_default_formats (st : parse_state) : parse_state × Option Int :=
  if st.format_count = 0 ∨ st.format_append ≠ 0 then
    if st.format_count > 25 then (st, some (-EINVAL))
    else (default_formats.foldl store_format st, none)
  else (st, none)

/-- Outcome of `open(2)` and `timerfd_create(2)`. -/
inductive fd_result
  | fd (n : Nat)
  | failed (errno : Int)
  deriving DecidableEq, Repr

/-- Everything outside the file that the constructor consults. -/
structure open_env where
  /-- `snd_pcm_format_value`. -/
  format_value : String → Int
  /-- Content of the uninitialised local array `formats[64]`. -/
  stack_formats : Int → Int
  calloc_ok : Bool
  strdup_ok : Bool
  /-- `open(fifo_name, O_NONBLOCK | O_RDONLY)`. -/
  open_in : fd_result
  /-- `open(fifo_name, O_NONBLOCK | O_WRONLY)`. -/
  open_out : fd_result
  timerfd_create : fd_result
  /-- `snd_pcm_ioplug_create`; `io.pcm` is set exactly when it succeeds. -/
  ioplug_create : Int
  /-- The six `snd_pcm_ioplug_set_param_minmax`/`_list` calls, in order. -/
  set_param : Nat → Int

/-- What a run of the constructor leaves behind.  `volumio` is the record, when it was
allocated (as it was when freed, if the run failed); `pcm` tells whether `*pcmp` was set;
`opened` and `closed` are the ghost lists of descriptors obtained and closed. -/
structure open_outcome where
  err : Int
  volumio : Option snd_pcm_volumiofifo_t
  pcm : Bool
  parsed : parse_state
  opened : List Int
  closed : List Int

/-- The code after the label `error:` for an allocated record.  `snd_pcm_ioplug_delete` closes
the pcm, which runs the close callback. -/
def open_error_path (err : Int) (volumio : snd_pcm_volumiofifo_t) (io_pcm : Bool)
    (st : parse_state) (opened : List Int) : open_outcome :=
  let r1 := snd_pcm_volumiofifo_close_fd volumio.fifo_out_fd []
  let r2 := snd_pcm_volumiofifo_close_fd volumio.fifo_in_fd r1.2
  let r3 := snd_pcm_volumiofifo_close_fd volumio.timer_fd r2.2
  let v := { volumio with fifo_out_fd := r1.1, fifo_in_fd := r2.1, timer_fd := r3.1 }
  if io_pcm then
    let c := snd_pcm_volumiofifo_close v r3.2
    ⟨err, some c.2.1, false, st, opened, c.2.2⟩
  else ⟨err, some v, false, st, opened, r3.2⟩

/-- The slot value an `open`/`timerfd_create` result leaves. -/
def fd_result.slot : fd_result → Int
  | fd_result.fd n => (n : Int)
  | fd_result.failed _ => -1

/-- The part of the constructor from `snd_pcm_ioplug_create` on, for the record `volumio`
holding the three descriptors `opened`. -/
def open_register (E : open_env) (st : parse_state) (volumio : snd_pcm_volumiofifo_t)
    (opened : List Int) : open_outcome :=
  if E.ioplug_create < 0 then open_error_path E.ioplug_create volumio false st opened
  else if E.set_param 0 < 0 then open_error_path (E.set_param 0) volumio true st opened
  else if E.set_param 1 < 0 then open_error_path (E.set_param 1) volumio true st opened
  else if E.set_param 2 < 0 then open_error_path (E.set_param 2) volumio true st opened
  else if E.set_param 3 < 0 then open_error_path (E.set_param 3) volumio true st opened
  else if E.set_param 4 < 0 then open_error_path (E.set_param 4) volumio true st opened
  else if E.set_param 5 < 0 then open_error_path (E.set_param 5) volumio true st opened
  else ⟨0, some volumio, true, st, opened, []⟩

/-- The part of the constructor from `calloc` on. -/
def open_acquire (E : open_env) (st : parse_state) (_fifo_name : String) : open_outcome :=
  if E.calloc_ok = false then ⟨-ENOMEM, none, false, st, [], []⟩
  else
    let v0 : snd_pcm_volumiofifo_t :=
      { debug := if st.debug ≤ 0 then 0 else if st.debug ≥ 127 then 127 else st.debug
        clear_on_drop := st.clear_on_drop
        lead_in_frames := to_ulong st.lead_in_frames
        fifo_out_fd := -1
        fifo_in_fd := -1
        timer_fd := -1
        ptr := 0
        boundary := 0
        drained := 0 }
    if E.strdup_ok = false then open_error_path (-ENOMEM) v0 false st []
    else
      match E.open_in with
      | fd_result.failed e => open_error_path (-e) { v0 with fifo_in_fd := -1 } false st []
      | fd_result.fd fin =>
        let v1 := { v0 with fifo_in_fd := (fin : Int) }
        match E.open_out with
        | fd_result.failed e =>
          open_error_path (-e) { v1 with fifo_out_fd := -1 } false st [(fin : Int)]
        | fd_result.fd fout =>
          let v2 := { v1 with fifo_out_fd := (fout : Int) }
          match E.timerfd_create with
          | fd_result.failed e =>
            open_error_path (-e) { v2 with timer_fd := -1 } false st [(fin : Int), (fout : Int)]
          | fd_result.fd ft =>
            open_register E st { v2 with timer_fd := (ft : Int) }
              [(fin : Int), (fout : Int), (ft : Int)]

/-- `SND_PCM_PLUGIN_DEFINE_FUNC(volumiofifo)`. -/
def _snd_pcm_volumiofifo_open (E : open_env) (stream : snd_pcm_stream_t)
    (conf : List conf_entry) : open_outcome :=
  let st0 : parse_state :=
    { debug := 0, fifo_name := none, formats := E.stack_formats, format_count := 0,
      format_append := 0, clear_on_drop := 1, lead_in_frames := 0, stores := [] }
  if stream = snd_pcm_stream_t.CAPTURE then ⟨-EINVAL, none, false, st0, [], []⟩
  else
    match parse_conf E.format_value st0 conf with
    | (st1, some e) => ⟨e, none, false, st1, [], []⟩
    | (st1, none) =>
      match st1.fifo_name with
      | none => ⟨-EINVAL, none, false, st1, [], []⟩
      | some fifo_name =>
        match union_default_formats st1 with
        | (st2, some e) => ⟨e, none, false, st2, [], []⟩
        | (st2, none) => open_acquire E st2 fifo_name

/-! ## Assumptions on the sink -/

/-- A `write` never reports more bytes than it was asked to take. -/
def Fifo.bounded {σ : Type} (F : Fifo σ) : Prop :=
  ∀ s count n s1, F.write s count = (io_result.done n, s1) → n ≤ count

/-- A successful `write` of a non-empty range takes at least one byte. -/
def Fifo.progress {σ : Type} (F : Fifo σ) : Prop :=
  ∀ s count n s1, F.write s count = (io_result.done n, s1) → 0 < count → 0 < n

/-- A sink that takes `s` more bytes, as much of each request as still fits, and answers every
later `write` with `errno = e`; `e = EAGAIN` is a pipe with `s` free bytes.  Its read side always
has data. -/
def limited_fifo (e : Int) : Fifo Nat where
  PIPE_BUF := 4096
  write := fun s count =>
    if s = 0 then (io_result.failed e, s)
    else if count ≤ s then (io_result.done count, s - count)
    else (io_result.done s, 0)
  read := fun s _ => (io_result.failed EAGAIN, s)
  poll := fun _ => (1, POLLIN)

/-- Host environment in which every library call succeeds. -/
def ok_env : Env where
  timerfd_settime := fun _ _ => 0
  errno := 0
  set_state := 0
  set_silence := 0
  malloc_ok := true
  sw_params_current := 0
  get_boundary := (0, 2 ^ 30)
  hwsync := (0, 0)

/-- ALSA's playback `avail` for a buffer of `bs` frames and the given boundary. -/
def playback_avail (bs boundary : Nat) (hw appl : Nat) : Nat :=
  let a : Int := (hw : Int) + bs - appl
  (if a < 0 then a + boundary else if a ≥ boundary then a - boundary else a).toNat

/-- A stereo 16-bit stream with a 4096-frame ring buffer and 1024-frame periods. -/
def demo_io (st : snd_pcm_state_t) (appl : Nat) : snd_pcm_ioplug_t where
  state := st
  hw_ptr := 0
  appl_ptr := appl
  buffer_size := 4096
  period_size := 1024
  channels := 2
  frame_bytes := 4
  area_first := 0
  area_step := 32
  avail := playback_avail 4096 (2 ^ 30)

def demo_session (p : Int) (d : Int) : snd_pcm_volumiofifo_t where
  debug := 0
  clear_on_drop := 1
  lead_in_frames := 0
  fifo_out_fd := 5
  fifo_in_fd := 6
  timer_fd := 7
  ptr := p
  boundary := 2 ^ 30
  drained := d

/-- A host in which every call of the constructor succeeds: descriptors 5, 6 and 7. -/
def ok_open_env : open_env where
  format_value := fun t => if t = "S16_LE" then 2 else if t = "S32_LE" then 10 else -1
  stack_formats := fun _ => 0
  calloc_ok := true
  strdup_ok := true
  open_in := fd_result.fd 5
  open_out := fd_result.fd 6
  timerfd_create := fd_result.fd 7
  ioplug_create := 0
  set_param := fun _ => 0

/-- The configuration entries `format_0`, …, `format_(k-1)`, each naming `S16_LE`. -/
def format_entries (k : Nat) : List conf_entry :=
  (List.range k).map (fun j => ⟨some ("format_" ++ toString j), conf_value.string "S16_LE"⟩)

/-! ## Theorems: the chunking writer -/

theorem accepted_bytes_append (xs ys : List write_event) :
    accepted_bytes (xs ++ ys) = accepted_bytes xs + accepted_bytes ys := by
  induction xs with
  | nil => simp [accepted_bytes]
  | cons x xs ih =>
    obtain ⟨o, c, r⟩ := x
    cases r <;> simp [accepted_bytes, ih, Nat.add_assoc]

theorem accepted_offsets_append (xs ys : List write_event) :
    accepted_offsets (xs ++ ys) = accepted_offsets xs ++ accepted_offsets ys := by
  induction xs with
  | nil => simp [accepted_offsets]
  | cons x xs ih =>
    obtain ⟨o, c, r⟩ := x
    cases r <;> simp [accepted_offsets, ih]

theorem first_failure_append (xs ys : List write_event) (h : first_failure xs = none) :
    first_failure (xs ++ ys) = first_failure ys := by
  induction xs with
  | nil => simp
  | cons x xs ih =>
    obtain ⟨o, c, r⟩ := x
    cases r with
    | done n => simpa [first_failure] using ih (by simpa [first_failure] using h)
    | failed e => simp [first_failure] at h


theorem range_zero_append (a b : Nat) :
    List.range' 0 a ++ List.range' a b = List.range' 0 (a + b) := by
  have h := List.range'_append_1 0 a b
  rw [Nat.zero_add, Nat.add_comm b a] at h
  exact h

theorem transfer_loop_spec {σ : Type} (F : Fifo σ) (io : snd_pcm_ioplug_t) (hb : F.bounded)
    (sb chunk : Int) :
    ∀ (fuel : Nat) (s : σ) (wb written : Int) (evs : List write_event) (ret : Int) (s1 : σ)
      (evs1 : List write_event),
      0 ≤ wb → wb ≤ sb → (accepted_bytes evs : Int) = wb → written = wb / io.frame_bytes →
      first_failure evs = none → accepted_offsets evs = List.range' 0 (accepted_bytes evs) →
      (∀ ev ∈ evs, 0 ≤ ev.off ∧ ev.off + ev.count ≤ sb) →
      transfer_loop F io sb chunk fuel s wb written evs = some (ret, s1, evs1) →
      transfer_post io sb ret evs1 := by
  intro fuel
  induction fuel with
  | zero => intro s wb written evs ret s1 evs1 _ _ _ _ _ _ _ h; simp [transfer_loop] at h
  | succ fuel ih =>
    intro s wb written evs ret s1 evs1 h0 hle hacc hwr hff hoff hin h
    have hcount : ((if sb - wb > chunk then chunk else sb - wb).toNat : Int) ≤ sb - wb := by
      split <;> omega
    unfold transfer_loop at h
    simp only [] at h
    generalize hcnt : (if sb - wb > chunk then chunk else sb - wb).toNat = count at h hcount
    rcases hw : F.write s count with ⟨r, s2⟩
    rw [hw] at h
    have hin1 : ∀ r0, ∀ ev ∈ evs ++ [(⟨wb, count, r0⟩ : write_event)],
        0 ≤ ev.off ∧ ev.off + ev.count ≤ sb := by
      intro r0 ev hev
      rcases List.mem_append.1 hev with h1 | h1
      · exact hin ev h1
      · simp at h1; subst h1; simp; omega
    cases r with
    | failed e =>
      simp only [] at h
      have hacc1 : accepted_bytes (evs ++ [(⟨wb, count, io_result.failed e⟩ : write_event)])
          = accepted_bytes evs := by
        simp [accepted_bytes_append, accepted_bytes]
      have hoff1 : accepted_offsets (evs ++ [(⟨wb, count, io_result.failed e⟩ : write_event)])
          = accepted_offsets evs := by
        simp [accepted_offsets_append, accepted_offsets]
      have hff1 : first_failure (evs ++ [(⟨wb, count, io_result.failed e⟩ : write_event)])
          = some e := by
        rw [first_failure_append _ _ hff]; rfl
      have key : ∀ r1, (e = EAGAIN → r1 = written) → (e ≠ EAGAIN → wb = 0 → r1 = -EPIPE) →
          (e ≠ EAGAIN → wb ≠ 0 → r1 = written) →
          some (r1, s2, evs ++ [(⟨wb, count, io_result.failed e⟩ : write_event)])
            = some (ret, s1, evs1) → transfer_post io sb ret evs1 := by
        intro r1 k1 k2 k3 hh
        unfold transfer_post
        simp only [Option.some.injEq, Prod.mk.injEq] at hh
        obtain ⟨hr, _, he⟩ := hh
        subst hr; subst he
        rw [hacc1, hoff1, hff1]
        refine ⟨by omega, hoff, hin1 _, by simp, ?_⟩
        intro e1 he1
        simp only [Option.some.injEq] at he1
        subst he1
        constructor
        · rintro ⟨hne, hz⟩
          exact k2 hne (by omega)
        · intro hor
          by_cases hE : e = EAGAIN
          · rw [k1 hE, hwr, hacc]
          · rcases hor with h1 | h1
            · exact absurd h1 hE
            · rw [k3 hE (by omega), hwr, hacc]
      by_cases hE : e = EAGAIN
      · rw [if_pos hE] at h
        exact key _ (fun _ => rfl) (fun h1 => absurd hE h1) (fun h1 => absurd hE h1) h
      · rw [if_neg hE] at h
        by_cases hz : wb = 0
        · rw [if_pos hz] at h
          exact key _ (fun h1 => absurd h1 hE) (fun _ _ => rfl) (fun _ h1 => absurd hz h1) h
        · rw [if_neg hz] at h
          exact key _ (fun _ => rfl) (fun _ h1 => absurd h1 hz) (fun _ _ => rfl) h
    | done n =>
      simp only [] at h
      have hn : n ≤ count := hb s count n s2 hw
      have hacc1 : accepted_bytes (evs ++ [(⟨wb, count, io_result.done n⟩ : write_event)])
          = accepted_bytes evs + n := by
        simp [accepted_bytes_append, accepted_bytes]
      have hoff1 : accepted_offsets (evs ++ [(⟨wb, count, io_result.done n⟩ : write_event)])
          = List.range' 0 (accepted_bytes evs + n) := by
        have hwn : wb.toNat = accepted_bytes evs := by omega
        simp [accepted_offsets_append, accepted_offsets, hoff, hwn, range_zero_append]
      have hff1 : first_failure (evs ++ [(⟨wb, count, io_result.done n⟩ : write_event)])
          = none := by
        rw [first_failure_append _ _ hff]; rfl
      by_cases hlt : wb + (n : Int) < sb
      · rw [if_pos hlt] at h
        refine ih s2 (wb + n) _ _ ret s1 evs1 (by omega) (by omega) ?_ rfl hff1 ?_ (hin1 _) h
        · rw [hacc1]; push_cast; omega
        · rw [hoff1, hacc1]
      · rw [if_neg hlt] at h
        simp only [Option.some.injEq, Prod.mk.injEq] at h
        obtain ⟨hr, _, he⟩ := h
        subst hr; subst he
        unfold transfer_post
        rw [hacc1, hoff1, hff1]
        have hsb : wb + (n : Int) = sb := by omega
        refine ⟨by push_cast; omega, rfl, hin1 _, ?_, by simp⟩
        intro _
        refine ⟨by push_cast; omega, ?_⟩
        simp [snd_pcm_bytes_to_frames, hsb]

theorem transfer_loop_terminates {σ : Type} (F : Fifo σ) (io : snd_pcm_ioplug_t)
    (hp : F.progress) (sb chunk : Int) (hchunk : 0 < chunk) :
    ∀ (fuel : Nat) (s : σ) (wb written : Int) (evs : List write_event),
      (sb - wb).toNat < fuel → ∃ r, transfer_loop F io sb chunk fuel s wb written evs = some r := by
  intro fuel
  induction fuel with
  | zero => intro s wb written evs h; omega
  | succ fuel ih =>
    intro s wb written evs h
    unfold transfer_loop
    simp only []
    generalize hcnt : (if sb - wb > chunk then chunk else sb - wb).toNat = count
    rcases hw : F.write s count with ⟨r, s2⟩
    cases r with
    | failed e =>
      simp only []
      split
      · exact ⟨_, rfl⟩
      · split <;> exact ⟨_, rfl⟩
    | done n =>
      simp only []
      by_cases hlt : wb + (n : Int) < sb
      · rw [if_pos hlt]
        apply ih
        have hc : 0 < count := by
          rw [← hcnt]; split <;> omega
        have hn : 0 < n := hp s count n s2 hw hc
        omega
      · rw [if_neg hlt]; exact ⟨_, rfl⟩

theorem chunk_size_pos {σ : Type} (F : Fifo σ) (io : snd_pcm_ioplug_t)
    (hfb : 0 < io.frame_bytes) (hpipe : io.frame_bytes ≤ F.PIPE_BUF) :
    0 < _snd_pcm_volumiofifo_chunk_size F io := by
  unfold _snd_pcm_volumiofifo_chunk_size snd_pcm_frames_to_bytes
  have h1 : (F.PIPE_BUF : Int) % (1 * (io.frame_bytes : Int)) < (io.frame_bytes : Int) := by
    rw [one_mul]
    exact Int.emod_lt_of_pos _ (by exact_mod_cast hfb)
  have h2 : (io.frame_bytes : Int) ≤ F.PIPE_BUF := by exact_mod_cast hpipe
  omega

theorem transfer_terminates {σ : Type} (F : Fifo σ) (io : snd_pcm_ioplug_t) (hp : F.progress)
    (hfb : 0 < io.frame_bytes) (hpipe : io.frame_bytes ≤ F.PIPE_BUF) (fuel : Nat) (buf : buf_ptr)
    (size : Nat) (w : World σ) (hfuel : size * io.frame_bytes < fuel) :
    ∃ r, _snd_pcm_volumiofifo_transfer F fuel io buf size w = some r := by
  unfold _snd_pcm_volumiofifo_transfer
  simp only []
  obtain ⟨r, hr⟩ := transfer_loop_terminates F io hp (snd_pcm_frames_to_bytes io size)
    (_snd_pcm_volumiofifo_chunk_size F io) (chunk_size_pos F io hfb hpipe) fuel w.fifo 0 0 []
    (by
      have h0 : (0 : Int) ≤ (size : Int) * (io.frame_bytes : Int) := by positivity
      simp only [snd_pcm_frames_to_bytes]
      zify at hfuel
      omega)
  rw [hr]
  exact ⟨_, rfl⟩

theorem transfer_spec {σ : Type} (F : Fifo σ) (io : snd_pcm_ioplug_t) (hb : F.bounded)
    (fuel : Nat) (buf : buf_ptr) (size : Nat) (w : World σ) (ret : Int) (w1 : World σ)
    (h : _snd_pcm_volumiofifo_transfer F fuel io buf size w = some (ret, w1)) :
    ∃ evs, w1.calls = w.calls ++ [⟨buf, size, evs, ret⟩] ∧
      transfer_post io ((size : Int) * io.frame_bytes) ret evs := by
  unfold _snd_pcm_volumiofifo_transfer at h
  simp only [] at h
  cases hl : transfer_loop F io (snd_pcm_frames_to_bytes io size)
      (_snd_pcm_volumiofifo_chunk_size F io) fuel w.fifo 0 0 [] with
  | none => rw [hl] at h; simp at h
  | some r =>
    obtain ⟨r0, s1, evs⟩ := r
    rw [hl] at h
    simp only [Option.some.injEq, Prod.mk.injEq] at h
    obtain ⟨hr, hw⟩ := h
    subst hr; subst hw
    refine ⟨evs, rfl, ?_⟩
    have := transfer_loop_spec F io hb (snd_pcm_frames_to_bytes io size)
      (_snd_pcm_volumiofifo_chunk_size F io) fuel w.fifo 0 0 [] r0 s1 evs (le_refl _)
      (by simp only [snd_pcm_frames_to_bytes]; positivity) (by simp [accepted_bytes]) (by simp)
      rfl (by simp [accepted_offsets, accepted_bytes]) (by simp) hl
    simpa [snd_pcm_frames_to_bytes] using this

theorem transfer_post_cases (io : snd_pcm_ioplug_t) (sb ret : Int) (evs : List write_event)
    (h : transfer_post io sb ret evs) :
    (ret = -EPIPE ∧ accepted_bytes evs = 0 ∧ ∃ e, first_failure evs = some e ∧ e ≠ EAGAIN) ∨
    (ret = (accepted_bytes evs : Int) / io.frame_bytes ∧
      ¬ ∃ e, first_failure evs = some e ∧ e ≠ EAGAIN ∧ accepted_bytes evs = 0) := by
  obtain ⟨h1, h2, h3, h4, h5⟩ := h
  cases hf : first_failure evs with
  | none =>
    right
    obtain ⟨ha, hr⟩ := h4 hf
    exact ⟨by rw [hr, ha], by simp⟩
  | some e =>
    obtain ⟨k1, k2⟩ := h5 e hf
    by_cases hE : e = EAGAIN
    · right; exact ⟨k2 (Or.inl hE), by simp [hE]⟩
    · by_cases hz : accepted_bytes evs = 0
      · left; exact ⟨k1 ⟨hE, hz⟩, hz, e, rfl, hE⟩
      · right; exact ⟨k2 (Or.inr (by omega)), by simp [hz]⟩

theorem frames_le_of_bytes_le (a fb size : Nat) (h : (a : Int) ≤ (size : Int) * fb) :
    (a : Int) / (fb : Int) ≤ size := by
  rcases Nat.eq_zero_or_pos fb with h0 | h0
  · subst h0; simp
  · have : (a : Int) / (fb : Int) ≤ ((size : Int) * fb) / (fb : Int) :=
      Int.ediv_le_ediv (by exact_mod_cast h0) h
    rwa [Int.mul_ediv_cancel _ (by exact_mod_cast (Nat.pos_iff_ne_zero.1 h0))] at this

theorem transfer_post_le (io : snd_pcm_ioplug_t) (size : Nat) (ret : Int)
    (evs : List write_event) (h : transfer_post io ((size : Int) * io.frame_bytes) ret evs) :
    ret ≤ size := by
  rcases transfer_post_cases io _ ret evs h with ⟨hr, _, _⟩ | ⟨hr, _⟩
  · rw [hr]; simp [EPIPE]; omega
  · rw [hr]; exact frames_le_of_bytes_le _ _ _ h.1

theorem limited_fifo_bounded (e : Int) : (limited_fifo e).bounded := by
  intro s count n s1 h
  simp only [limited_fifo] at h
  split at h
  · simp at h
  · split at h <;> simp at h <;> omega

/-- C7. Result contract of the chunking writer `_snd_pcm_volumiofifo_transfer`, for every
sink whose `write` never reports more than it was asked for and every request whose byte count
fits the `int` variables of the source (`size * frame_bytes < 2^31`, with `PIPE_BUF < 2^31`).
If the sink makes progress, the call returns (enough fuel gives a result).  Whenever it returns
`ret`, with `evs` the writes it issued: `ret = -EPIPE` exactly when a write failed with an errno
other than `EAGAIN` while no byte had been accepted; after a would-block, or after a hard failure
with at least one byte accepted, `ret` is the non-negative number of whole frames accepted; when
no write failed `ret` is the requested frame count; `ret` never exceeds the request; and the
byte counts the source keeps in `int` (bytes accepted, offset and end of every write, the chunk
size) stay in `0 .. 2^31 - 1`. -/
theorem chunking_writer_result_contract {σ : Type} (F : Fifo σ) (io : snd_pcm_ioplug_t)
    (hb : F.bounded) (hfb : 0 < io.frame_bytes) (hpipe : F.PIPE_BUF < 2 ^ 31) (buf : buf_ptr)
    (size : Nat) (hsize : size * io.frame_bytes < 2 ^ 31) (w : World σ) :
    (F.progress → io.frame_bytes ≤ F.PIPE_BUF → ∀ fuel, size * io.frame_bytes < fuel →
      ∃ r, _snd_pcm_volumiofifo_transfer F fuel io buf size w = some r) ∧
    (∀ fuel ret w1, _snd_pcm_volumiofifo_transfer F fuel io buf size w = some (ret, w1) →
      ∃ evs, w1.calls = w.calls ++ [⟨buf, size, evs, ret⟩] ∧
        (ret = -EPIPE ↔
          ∃ e, first_failure evs = some e ∧ e ≠ EAGAIN ∧ accepted_bytes evs = 0) ∧
        ((first_failure evs = some EAGAIN ∨
            ∃ e, first_failure evs = some e ∧ e ≠ EAGAIN ∧ 0 < accepted_bytes evs) →
          0 ≤ ret ∧ ret = (accepted_bytes evs : Int) / io.frame_bytes) ∧
        (first_failure evs = none → ret = size) ∧
        ret ≤ size ∧
        accepted_bytes evs < 2 ^ 31 ∧
        ∀ ev ∈ evs, 0 ≤ ev.off ∧ ev.off + ev.count < 2 ^ 31) ∧
    (0 ≤ _snd_pcm_volumiofifo_chunk_size F io ∧
      _snd_pcm_volumiofifo_chunk_size F io < 2 ^ 31) := by
  have hsz : ((size : Int) * io.frame_bytes) < 2 ^ 31 := by exact_mod_cast hsize
  refine ⟨fun hp hpipe2 fuel hfuel =>
    transfer_terminates F io hp hfb hpipe2 fuel buf size w hfuel, ?_, ?_⟩
  · intro fuel ret w1 h
    obtain ⟨evs, hc, hpost⟩ := transfer_spec F io hb fuel buf size w ret w1 h
    refine ⟨evs, hc, ?_, ?_, ?_, transfer_post_le io size ret evs hpost, ?_, ?_⟩
    · constructor
      · intro hr
        rcases transfer_post_cases io _ ret evs hpost with ⟨_, hz, e, he, hne⟩ | ⟨hr2, _⟩
        · exact ⟨e, he, hne, hz⟩
        · exfalso
          have h0 : (0 : Int) ≤ (accepted_bytes evs : Int) / (io.frame_bytes : Int) :=
            Int.ediv_nonneg (by positivity) (by positivity)
          rw [← hr2, hr] at h0
          simp [EPIPE] at h0
      · rintro ⟨e, he, hne, hz⟩
        exact (hpost.2.2.2.2 e he).1 ⟨hne, hz⟩
    · intro hcase
      have hr : ret = (accepted_bytes evs : Int) / (io.frame_bytes : Int) := by
        rcases hcase with he | ⟨e, he, _, hpos⟩
        · exact (hpost.2.2.2.2 _ he).2 (Or.inl rfl)
        · exact (hpost.2.2.2.2 _ he).2 (Or.inr hpos)
      refine ⟨?_, hr⟩
      rw [hr]
      exact Int.ediv_nonneg (by positivity) (by positivity)
    · intro hn
      obtain ⟨_, hr⟩ := hpost.2.2.2.1 hn
      rw [hr]
      exact Int.mul_ediv_cancel _ (by exact_mod_cast (Nat.pos_iff_ne_zero.1 hfb))
    · have hacc : (accepted_bytes evs : Int) ≤ (size : Int) * io.frame_bytes := hpost.1
      have hlt : (accepted_bytes evs : Int) < 2 ^ 31 := lt_of_le_of_lt hacc hsz
      exact_mod_cast hlt
    · intro ev hev
      obtain ⟨h0, h1⟩ := hpost.2.2.1 ev hev
      exact ⟨h0, lt_of_le_of_lt h1 hsz⟩
  · have hfb2 : (0 : Int) < io.frame_bytes := by exact_mod_cast hfb
    have hmod0 : 0 ≤ (F.PIPE_BUF : Int) % (io.frame_bytes : Int) :=
      Int.emod_nonneg _ (by omega)
    have hmodle : (F.PIPE_BUF : Int) % (io.frame_bytes : Int) ≤ F.PIPE_BUF := by
      have h1 := Int.emod_add_ediv (F.PIPE_BUF : Int) (io.frame_bytes : Int)
      have h2 : (0 : Int) ≤ (io.frame_bytes : Int) * ((F.PIPE_BUF : Int) / (io.frame_bytes : Int)) :=
        mul_nonneg (by omega) (Int.ediv_nonneg (by positivity) (by omega))
      omega
    have hp : (F.PIPE_BUF : Int) < 2 ^ 31 := by exact_mod_cast hpipe
    have hc : _snd_pcm_volumiofifo_chunk_size F io
        = (F.PIPE_BUF : Int) - (F.PIPE_BUF : Int) % (io.frame_bytes : Int) := by
      simp [_snd_pcm_volumiofifo_chunk_size, snd_pcm_frames_to_bytes]
    rw [hc]
    constructor
    · omega
    · have : (F.PIPE_BUF : Int) - (F.PIPE_BUF : Int) % (io.frame_bytes : Int) ≤ F.PIPE_BUF := by
        omega
      exact lt_of_le_of_lt this hp

/-- Witness of C7: a sink that takes 10 bytes and then fails with `EPIPE`, 4-byte frames, a
request of 96 frames; the call returns 2 frames. -/
theorem chunking_writer_result_contract_witness :
    (limited_fifo EPIPE).bounded ∧ 0 < (demo_io snd_pcm_state_t.RUNNING 0).frame_bytes ∧
    (limited_fifo EPIPE).PIPE_BUF < 2 ^ 31 ∧
    96 * (demo_io snd_pcm_state_t.RUNNING 0).frame_bytes < 2 ^ 31 ∧
    ∃ evs, [(⟨buf_ptr.area 0, 96,
          [⟨0, 384, io_result.done 10⟩, ⟨10, 374, io_result.failed 32⟩], 2⟩ : transfer_call)]
        = [] ++ [⟨buf_ptr.area 0, 96, evs, 2⟩] ∧
      ((2 : Int) = -EPIPE ↔
        ∃ e, first_failure evs = some e ∧ e ≠ EAGAIN ∧ accepted_bytes evs = 0) ∧
      ((first_failure evs = some EAGAIN ∨
          ∃ e, first_failure evs = some e ∧ e ≠ EAGAIN ∧ 0 < accepted_bytes evs) →
        0 ≤ (2 : Int) ∧ (2 : Int) = (accepted_bytes evs : Int) /
          (demo_io snd_pcm_state_t.RUNNING 0).frame_bytes) ∧
      (first_failure evs = none → (2 : Int) = (96 : Nat)) ∧
      (2 : Int) ≤ (96 : Nat) ∧
      accepted_bytes evs < 2 ^ 31 ∧
      ∀ ev ∈ evs, 0 ≤ ev.off ∧ ev.off + ev.count < 2 ^ 31 :=
  ⟨limited_fifo_bounded EPIPE, by decide, by decide, by decide,
    (chunking_writer_result_contract (limited_fifo EPIPE) (demo_io snd_pcm_state_t.RUNNING 0)
      (limited_fifo_bounded EPIPE) (by decide) (by decide) (buf_ptr.area 0) 96 (by decide)
      ⟨10, []⟩).2.1 1000 2
      ⟨0, [⟨buf_ptr.area 0, 96,
        [⟨0, 384, io_result.done 10⟩, ⟨10, 374, io_result.failed 32⟩], 2⟩]⟩ (by decide)⟩

/-- The two shapes of a finished wraparound transfer: one chunking-writer call, or the tail call
followed (only when it returned the whole tail) by the head call. -/
theorem transfer_wrap_spec {σ : Type} (F : Fifo σ) (io : snd_pcm_ioplug_t) (hb : F.bounded)
    (fuel : Nat) (volumio : snd_pcm_volumiofifo_t) (size : Nat) (w : World σ) (ret : Int)
    (w1 : World σ)
    (h : _snd_pcm_volumiofifo_transfer_wrap F fuel io volumio size w = some (ret, w1)) :
    (¬ to_ulong volumio.ptr % io.buffer_size + size > io.buffer_size ∧
      ∃ evs, w1.calls = w.calls ++ [⟨buf_ptr.area ((io.area_first + io.area_step *
          (to_ulong volumio.ptr % io.buffer_size)) / 8), size, evs, ret⟩] ∧
        transfer_post io ((size : Int) * io.frame_bytes) ret evs) ∨
    (to_ulong volumio.ptr % io.buffer_size + size > io.buffer_size ∧
      ∃ evs r1, transfer_post io
          (((io.buffer_size - to_ulong volumio.ptr % io.buffer_size : Nat) : Int) * io.frame_bytes)
          r1 evs ∧
        ((r1 ≠ ((io.buffer_size - to_ulong volumio.ptr % io.buffer_size : Nat) : Int) ∧ ret = r1 ∧
          w1.calls = w.calls ++ [⟨buf_ptr.area ((io.area_first + io.area_step *
            (to_ulong volumio.ptr % io.buffer_size)) / 8),
            io.buffer_size - to_ulong volumio.ptr % io.buffer_size, evs, r1⟩]) ∨
        (r1 = ((io.buffer_size - to_ulong volumio.ptr % io.buffer_size : Nat) : Int) ∧
          ∃ evs2 r2, transfer_post io
              (((size - (io.buffer_size - to_ulong volumio.ptr % io.buffer_size) : Nat) : Int)
                * io.frame_bytes) r2 evs2 ∧
            ret = (if r2 ≥ 0 then r2 + r1 else r1) ∧
            w1.calls = w.calls ++ [⟨buf_ptr.area ((io.area_first + io.area_step *
              (to_ulong volumio.ptr % io.buffer_size)) / 8),
              io.buffer_size - to_ulong volumio.ptr % io.buffer_size, evs, r1⟩,
              ⟨buf_ptr.area (io.area_first / 8),
                size - (io.buffer_size - to_ulong volumio.ptr % io.buffer_size), evs2, r2⟩]))) := by
  unfold _snd_pcm_volumiofifo_transfer_wrap at h
  simp only [] at h
  by_cases hc : to_ulong volumio.ptr % io.buffer_size + size > io.buffer_size
  · right
    refine ⟨hc, ?_⟩
    rw [if_pos hc] at h
    cases h1 : _snd_pcm_volumiofifo_transfer F fuel io (buf_ptr.area ((io.area_first +
        io.area_step * (to_ulong volumio.ptr % io.buffer_size)) / 8))
        (io.buffer_size - to_ulong volumio.ptr % io.buffer_size) w with
    | none => rw [h1] at h; simp at h
    | some p =>
      obtain ⟨r1, wa⟩ := p
      rw [h1] at h
      simp only [] at h
      obtain ⟨evs, hca, hpa⟩ := transfer_spec F io hb fuel _ _ w r1 wa h1
      refine ⟨evs, r1, hpa, ?_⟩
      by_cases heq : r1 = ((io.buffer_size - to_ulong volumio.ptr % io.buffer_size : Nat) : Int)
      · right
        rw [if_pos heq] at h
        cases h2 : _snd_pcm_volumiofifo_transfer F fuel io (buf_ptr.area (io.area_first / 8))
            (size - (io.buffer_size - to_ulong volumio.ptr % io.buffer_size)) wa with
        | none => rw [h2] at h; simp at h
        | some q =>
          obtain ⟨r2, wb⟩ := q
          rw [h2] at h
          simp only [] at h
          obtain ⟨evs2, hcb, hpb⟩ := transfer_spec F io hb fuel _ _ wa r2 wb h2
          refine ⟨heq, evs2, r2, hpb, ?_, ?_⟩
          · by_cases hr : r2 ≥ 0
            · rw [if_pos hr] at h
              simp only [Option.some.injEq, Prod.mk.injEq] at h
              rw [if_pos hr, heq]; exact h.1.symm
            · rw [if_neg hr] at h
              simp only [Option.some.injEq, Prod.mk.injEq] at h
              rw [if_neg hr, heq]; exact h.1.symm
          · have hw : wb = w1 := by
              by_cases hr : r2 ≥ 0
              · rw [if_pos hr] at h
                simp only [Option.some.injEq, Prod.mk.injEq] at h
                exact h.2
              · rw [if_neg hr] at h
                simp only [Option.some.injEq, Prod.mk.injEq] at h
                exact h.2
            rw [← hw, hcb, hca]; simp
      · left
        rw [if_neg heq] at h
        simp only [Option.some.injEq, Prod.mk.injEq] at h
        obtain ⟨hr, hw⟩ := h
        exact ⟨heq, hr.symm, by rw [← hw, hca]⟩
  · left
    refine ⟨hc, ?_⟩
    rw [if_neg hc] at h
    exact transfer_spec F io hb fuel _ _ w ret w1 h

theorem transfer_wrap_terminates {σ : Type} (F : Fifo σ) (io : snd_pcm_ioplug_t)
    (hp : F.progress) (hfb : 0 < io.frame_bytes) (hpipe : io.frame_bytes ≤ F.PIPE_BUF)
    (fuel : Nat) (volumio : snd_pcm_volumiofifo_t) (size : Nat) (w : World σ)
    (hsize : size ≤ io.buffer_size) (hfuel : io.buffer_size * io.frame_bytes < fuel) :
    ∃ r, _snd_pcm_volumiofifo_transfer_wrap F fuel io volumio size w = some r := by
  have hmono : ∀ n, n ≤ io.buffer_size → n * io.frame_bytes < fuel := fun n hn =>
    lt_of_le_of_lt (Nat.mul_le_mul_right _ hn) hfuel
  unfold _snd_pcm_volumiofifo_transfer_wrap
  simp only []
  split
  · obtain ⟨⟨r1, wa⟩, h1⟩ := transfer_terminates F io hp hfb hpipe fuel
      (buf_ptr.area ((io.area_first + io.area_step * (to_ulong volumio.ptr % io.buffer_size)) / 8))
      (io.buffer_size - to_ulong volumio.ptr % io.buffer_size) w (hmono _ (Nat.sub_le _ _))
    rw [h1]
    simp only []
    split
    · obtain ⟨⟨r2, wb⟩, h2⟩ := transfer_terminates F io hp hfb hpipe fuel
        (buf_ptr.area (io.area_first / 8))
        (size - (io.buffer_size - to_ulong volumio.ptr % io.buffer_size)) wa
        (hmono _ (le_trans (Nat.sub_le _ _) hsize))
      rw [h2]
      simp only []
      split <;> exact ⟨_, rfl⟩
    · exact ⟨_, rfl⟩
  · exact transfer_terminates F io hp hfb hpipe fuel _ size w (hmono _ hsize)

theorem to_ulong_of_nonneg (p : Int) (hp : 0 ≤ p) : (to_ulong p : Int) = p := by
  unfold to_ulong
  rw [if_neg (by omega)]
  exact Int.toNat_of_nonneg hp

theorem to_ulong_mod (p : Int) (hp : 0 ≤ p) (bs off : Nat) (hoff : (off : Int) = p % (bs : Int)) :
    to_ulong p % bs = off := by
  have h := to_ulong_of_nonneg p hp
  have h2 : ((to_ulong p % bs : Nat) : Int) = (off : Int) := by
    rw [Int.natCast_mod, h, hoff]
  exact_mod_cast h2

theorem range_initial_segment (s a n : Nat) (h : a ≤ n) : List.range' s a <+: List.range' s n := by
  have h1 := List.range'_append_1 s a (n - a)
  rw [show n - a + a = n by omega] at h1
  rw [← h1]
  exact List.prefix_append _ _

theorem map_add_range_zero (b a : Nat) :
    List.map (fun i => b + i) (List.range' 0 a) = List.range' b a := by
  simp

theorem accepted_full (a fb n : Nat) (hfb : 0 < fb) (hle : (a : Int) ≤ (n : Int) * fb)
    (hdiv : (n : Int) = (a : Int) / (fb : Int)) : a = n * fb := by
  have h1 := Int.ediv_mul_le (a : Int) (show (fb : Int) ≠ 0 by exact_mod_cast (Nat.pos_iff_ne_zero.1 hfb))
  rw [← hdiv] at h1
  have : (a : Int) = (n : Int) * fb := le_antisymm hle h1
  exact_mod_cast this


/-- C2. Wraparound transfer `_snd_pcm_volumiofifo_transfer_wrap` for a request of `b` frames,
`b ≤ buffer_size`, that crosses the end of the ring buffer (`off + b > buffer_size` with
`off = hw_pointer mod buffer_size`).  With a sink that makes progress the call returns.  When it
returns, the chunking-writer calls it made are: first one for `buffer_size - off` frames at frame
`off` of the area, and a second one exactly when the first returned `buffer_size - off`, for
`off + b - buffer_size` frames at the start of the area.  For an interleaved area (`first = 0`,
`step` of one frame) the ring-buffer bytes delivered are a duplicate-free initial segment of the
bytes of `[off, buffer_size)` followed by the bytes of `[0, off + b - buffer_size)`. -/
theorem wraparound_transfer_segments {σ : Type} (F : Fifo σ) (io : snd_pcm_ioplug_t)
    (volumio : snd_pcm_volumiofifo_t) (hb : F.bounded) (hfb : 0 < io.frame_bytes)
    (hbs : 0 < io.buffer_size) (hp : 0 ≤ volumio.ptr) (off : Nat)
    (hoff : (off : Int) = volumio.ptr % (io.buffer_size : Int)) (b : Nat)
    (hble : b ≤ io.buffer_size) (hcross : off + b > io.buffer_size) (w : World σ) :
    (F.progress → io.frame_bytes ≤ F.PIPE_BUF → ∀ fuel, io.buffer_size * io.frame_bytes < fuel →
      ∃ r, _snd_pcm_volumiofifo_transfer_wrap F fuel io volumio b w = some r) ∧
    (∀ fuel ret w1, _snd_pcm_volumiofifo_transfer_wrap F fuel io volumio b w = some (ret, w1) →
      ∃ c1 rest, w1.calls = w.calls ++ c1 :: rest ∧
        c1.buf = buf_ptr.area ((io.area_first + io.area_step * off) / 8) ∧
        c1.size = io.buffer_size - off ∧
        ((rest = [] ∧ c1.ret ≠ ((io.buffer_size - off : Nat) : Int)) ∨
          (∃ c2, rest = [c2] ∧ c1.ret = ((io.buffer_size - off : Nat) : Int) ∧
            c2.buf = buf_ptr.area (io.area_first / 8) ∧ c2.size = off + b - io.buffer_size)) ∧
        (io.area_first = 0 → io.area_step = 8 * io.frame_bytes →
          delivered (c1 :: rest) <+:
            List.range' (off * io.frame_bytes) ((io.buffer_size - off) * io.frame_bytes) ++
              List.range' 0 ((off + b - io.buffer_size) * io.frame_bytes) ∧
          (delivered (c1 :: rest)).Nodup)) := by
  have hmod := to_ulong_mod volumio.ptr hp io.buffer_size off hoff
  have hofflt : off < io.buffer_size := by
    rw [← hmod]; exact Nat.mod_lt _ hbs
  refine ⟨fun hpr hpipe fuel hfuel =>
    transfer_wrap_terminates F io hpr hfb hpipe fuel volumio b w hble hfuel, ?_⟩
  intro fuel ret w1 h
  have hnodup : (List.range' (off * io.frame_bytes) ((io.buffer_size - off) * io.frame_bytes) ++
      List.range' 0 ((off + b - io.buffer_size) * io.frame_bytes)).Nodup := by
    rw [List.nodup_append]
    refine ⟨List.nodup_range' _ _, List.nodup_range' _ _, ?_⟩
    intro x hx1 hx2
    simp only [List.mem_range'_1] at hx1 hx2
    have : (off + b - io.buffer_size) * io.frame_bytes ≤ off * io.frame_bytes :=
      Nat.mul_le_mul_right _ (by omega)
    omega
  have hbuf : ∀ (hf : io.area_first = 0) (hs : io.area_step = 8 * io.frame_bytes),
      (io.area_first + io.area_step * off) / 8 = off * io.frame_bytes := by
    intro hf hs
    rw [hf, hs, Nat.zero_add, Nat.mul_assoc, Nat.mul_div_cancel_left _ (by decide : 0 < 8),
      Nat.mul_comm]
  rcases transfer_wrap_spec F io hb fuel volumio b w ret w1 h with ⟨hn, _⟩ | ⟨_, evs, r1, hpa, hcase⟩
  · rw [hmod] at hn; exact absurd hcross hn
  · rw [hmod] at hpa hcase
    rcases hcase with ⟨hne, _, hcalls⟩ | ⟨heq, evs2, r2, hpb, _, hcalls⟩
    · refine ⟨_, [], hcalls, rfl, rfl, Or.inl ⟨rfl, hne⟩, ?_⟩
      intro hf hs
      have hd : delivered [(⟨buf_ptr.area ((io.area_first + io.area_step * off) / 8),
          io.buffer_size - off, evs, r1⟩ : transfer_call)]
          = List.range' (off * io.frame_bytes) (accepted_bytes evs) := by
        simp only [delivered, List.append_nil]
        rw [hpa.2.1, map_add_range_zero, hbuf hf hs]
      rw [hd]
      have hpre : List.range' (off * io.frame_bytes) (accepted_bytes evs) <+:
          List.range' (off * io.frame_bytes) ((io.buffer_size - off) * io.frame_bytes) ++
            List.range' 0 ((off + b - io.buffer_size) * io.frame_bytes) :=
        (range_initial_segment _ _ _ (by exact_mod_cast hpa.1)).trans (List.prefix_append _ _)
      exact ⟨hpre, hnodup.sublist hpre.sublist⟩
    · refine ⟨_, [_], hcalls, rfl, rfl, Or.inr ⟨_, rfl, heq, rfl,
        show b - (io.buffer_size - off) = off + b - io.buffer_size by omega⟩, ?_⟩
      intro hf hs
      have hr1 : r1 = (accepted_bytes evs : Int) / (io.frame_bytes : Int) := by
        rcases transfer_post_cases io _ r1 evs hpa with ⟨hr, _, _⟩ | ⟨hr, _⟩
        · rw [hr] at heq; simp [EPIPE] at heq
        · exact hr
      have hfull : accepted_bytes evs = (io.buffer_size - off) * io.frame_bytes :=
        accepted_full _ _ _ hfb hpa.1 (by rw [← heq, hr1])
      have hd : delivered [(⟨buf_ptr.area ((io.area_first + io.area_step * off) / 8),
          io.buffer_size - off, evs, r1⟩ : transfer_call),
          ⟨buf_ptr.area (io.area_first / 8), b - (io.buffer_size - off), evs2, r2⟩]
          = List.range' (off * io.frame_bytes) ((io.buffer_size - off) * io.frame_bytes) ++
            List.range' 0 (accepted_bytes evs2) := by
        simp only [delivered, List.append_nil]
        rw [hpa.2.1, hpb.2.1, map_add_range_zero, map_add_range_zero, hbuf hf hs, hfull, hf]
      rw [hd]
      have hle2 : accepted_bytes evs2 ≤ (off + b - io.buffer_size) * io.frame_bytes := by
        have := hpb.1
        rw [show b - (io.buffer_size - off) = off + b - io.buffer_size by omega] at this
        exact_mod_cast this
      have hpre : List.range' (off * io.frame_bytes) ((io.buffer_size - off) * io.frame_bytes) ++
          List.range' 0 (accepted_bytes evs2) <+:
          List.range' (off * io.frame_bytes) ((io.buffer_size - off) * io.frame_bytes) ++
            List.range' 0 ((off + b - io.buffer_size) * io.frame_bytes) :=
        (List.prefix_append_right_inj _).2 (range_initial_segment _ _ _ hle2)
      exact ⟨hpre, hnodup.sublist hpre.sublist⟩

/-- Witness of C2: `buffer_size = 4096`, `hw_pointer = 4000`, a request of 200 frames of 4 bytes
on a pipe with room: a tail call for 96 frames at byte 16000, then a head call for 104 frames
at byte 0. -/
theorem wraparound_transfer_segments_witness :
    (limited_fifo EAGAIN).bounded ∧
    ((4000 : Nat) : Int) = (demo_session 4000 0).ptr %
      ((demo_io snd_pcm_state_t.RUNNING 4200).buffer_size : Int) ∧
    4000 + 200 > (demo_io snd_pcm_state_t.RUNNING 4200).buffer_size ∧
    (_snd_pcm_volumiofifo_transfer_wrap (limited_fifo EAGAIN) 1000
        (demo_io snd_pcm_state_t.RUNNING 4200) (demo_session 4000 0) 200 ⟨100000, []⟩).map
      (fun r => r.2.calls.map (fun c => (c.buf, c.size)))
      = some [(buf_ptr.area 16000, 96), (buf_ptr.area 0, 104)] ∧
    ∃ c1 rest,
      [(⟨buf_ptr.area 16000, 96, [⟨0, 384, io_result.done 384⟩], 96⟩ : transfer_call),
        ⟨buf_ptr.area 0, 104, [⟨0, 416, io_result.done 416⟩], 104⟩] = [] ++ c1 :: rest ∧
      c1.buf = buf_ptr.area (((demo_io snd_pcm_state_t.RUNNING 4200).area_first +
        (demo_io snd_pcm_state_t.RUNNING 4200).area_step * 4000) / 8) ∧
      c1.size = (demo_io snd_pcm_state_t.RUNNING 4200).buffer_size - 4000 ∧
      ((rest = [] ∧
          c1.ret ≠ (((demo_io snd_pcm_state_t.RUNNING 4200).buffer_size - 4000 : Nat) : Int)) ∨
        (∃ c2, rest = [c2] ∧
          c1.ret = (((demo_io snd_pcm_state_t.RUNNING 4200).buffer_size - 4000 : Nat) : Int) ∧
          c2.buf = buf_ptr.area ((demo_io snd_pcm_state_t.RUNNING 4200).area_first / 8) ∧
          c2.size = 4000 + 200 - (demo_io snd_pcm_state_t.RUNNING 4200).buffer_size)) ∧
      ((demo_io snd_pcm_state_t.RUNNING 4200).area_first = 0 →
        (demo_io snd_pcm_state_t.RUNNING 4200).area_step
          = 8 * (demo_io snd_pcm_state_t.RUNNING 4200).frame_bytes →
        delivered (c1 :: rest) <+:
          List.range' (4000 * (demo_io snd_pcm_state_t.RUNNING 4200).frame_bytes)
            (((demo_io snd_pcm_state_t.RUNNING 4200).buffer_size - 4000) *
              (demo_io snd_pcm_state_t.RUNNING 4200).frame_bytes) ++
            List.range' 0 ((4000 + 200 - (demo_io snd_pcm_state_t.RUNNING 4200).buffer_size) *
              (demo_io snd_pcm_state_t.RUNNING 4200).frame_bytes) ∧
        (delivered (c1 :: rest)).Nodup) :=
  ⟨limited_fifo_bounded EAGAIN, by decide, by decide, by decide,
    (wraparound_transfer_segments (limited_fifo EAGAIN) (demo_io snd_pcm_state_t.RUNNING 4200)
      (demo_session 4000 0) (limited_fifo_bounded EAGAIN) (by decide) (by decide) (by decide)
      4000 (by decide) 200 (by decide) (by decide) ⟨100000, []⟩).2 1000 200
      ⟨99200, [⟨buf_ptr.area 16000, 96, [⟨0, 384, io_result.done 384⟩], 96⟩,
        ⟨buf_ptr.area 0, 104, [⟨0, 416, io_result.done 416⟩], 104⟩]⟩ (by decide)⟩

/-- What a finished wraparound transfer did, in terms of the chunking-writer calls `cs` it
made: it asked for at most `size` frames, every write stayed inside the range of its call, and
the result is either `-EPIPE` (a hard failure with nothing accepted) or the whole frames
accepted. -/
theorem transfer_wrap_summary {σ : Type} (F : Fifo σ) (io : snd_pcm_ioplug_t) (hb : F.bounded)
    (hfb : 0 < io.frame_bytes) (fuel : Nat) (volumio : snd_pcm_volumiofifo_t) (size : Nat)
    (w : World σ) (ret : Int) (w1 : World σ)
    (h : _snd_pcm_volumiofifo_transfer_wrap F fuel io volumio size w = some (ret, w1)) :
    ∃ cs, w1.calls = w.calls ++ cs ∧ calls_frames cs ≤ size ∧
      (∀ c ∈ cs, ∀ ev ∈ c.writes,
        0 ≤ ev.off ∧ ev.off + ev.count ≤ (c.size : Int) * io.frame_bytes) ∧
      calls_bytes cs ≤ size * io.frame_bytes ∧ ret ≤ size ∧
      ((ret = -EPIPE ∧ calls_bytes cs = 0 ∧
          ∃ c ∈ cs, ∃ e, first_failure c.writes = some e ∧ e ≠ EAGAIN) ∨
        ret = ((calls_bytes cs / io.frame_bytes : Nat) : Int)) := by
  have hfb0 : (io.frame_bytes : Int) ≠ 0 := by exact_mod_cast (Nat.pos_iff_ne_zero.1 hfb)
  have single : ∀ (buf : buf_ptr) (n : Nat) (evs : List write_event) (r : Int),
      transfer_post io ((n : Int) * io.frame_bytes) r evs →
      calls_bytes [(⟨buf, n, evs, r⟩ : transfer_call)] ≤ n * io.frame_bytes ∧
      ((r = -EPIPE ∧ calls_bytes [(⟨buf, n, evs, r⟩ : transfer_call)] = 0 ∧
          ∃ c ∈ [(⟨buf, n, evs, r⟩ : transfer_call)], ∃ e,
            first_failure c.writes = some e ∧ e ≠ EAGAIN) ∨
        r = ((calls_bytes [(⟨buf, n, evs, r⟩ : transfer_call)] / io.frame_bytes : Nat) : Int)) := by
    intro buf n evs r hpost
    have hle : accepted_bytes evs ≤ n * io.frame_bytes := by exact_mod_cast hpost.1
    refine ⟨by simpa [calls_bytes] using hle, ?_⟩
    rcases transfer_post_cases io _ r evs hpost with ⟨hr, hz, e, he, hne⟩ | ⟨hr, _⟩
    · left; exact ⟨hr, by simp [calls_bytes, hz], _, List.mem_singleton.2 rfl, e, he, hne⟩
    · right; simp [calls_bytes, hr]
  rcases transfer_wrap_spec F io hb fuel volumio size w ret w1 h with
    ⟨_, evs, hcalls, hpost⟩ | ⟨hcross, evs, r1, hpa, hcase⟩
  · refine ⟨_, hcalls, by simp [calls_frames], ?_, (single _ _ _ _ hpost).1,
      transfer_post_le io size ret evs hpost, (single _ _ _ _ hpost).2⟩
    intro c hc ev hev
    rw [List.mem_singleton.1 hc] at hev ⊢
    exact hpost.2.2.1 ev hev
  · have hrem : io.buffer_size - to_ulong volumio.ptr % io.buffer_size ≤ size := by omega
    rcases hcase with ⟨_, hret, hcalls⟩ | ⟨heq, evs2, r2, hpb, hret, hcalls⟩
    · subst hret
      have hle := transfer_post_le io _ ret evs hpa
      refine ⟨_, hcalls, by simpa [calls_frames] using hrem, ?_,
        le_trans (single _ _ _ _ hpa).1 (Nat.mul_le_mul_right _ hrem),
        le_trans hle (by exact_mod_cast hrem), (single _ _ _ _ hpa).2⟩
      intro c hc ev hev
      rw [List.mem_singleton.1 hc] at hev ⊢
      exact hpa.2.2.1 ev hev
    · have hr1 : r1 = (accepted_bytes evs : Int) / (io.frame_bytes : Int) := by
        rcases transfer_post_cases io _ r1 evs hpa with ⟨hr, _, _⟩ | ⟨hr, _⟩
        · rw [hr] at heq; simp [EPIPE] at heq
        · exact hr
      have hfull : accepted_bytes evs
          = (io.buffer_size - to_ulong volumio.ptr % io.buffer_size) * io.frame_bytes :=
        accepted_full _ _ _ hfb hpa.1 (by rw [← heq, hr1])
      have hle2 : accepted_bytes evs2
          ≤ (size - (io.buffer_size - to_ulong volumio.ptr % io.buffer_size)) * io.frame_bytes := by
        exact_mod_cast hpb.1
      have hr2le := transfer_post_le io _ r2 evs2 hpb
      have hsum : (io.buffer_size - to_ulong volumio.ptr % io.buffer_size) * io.frame_bytes +
          (size - (io.buffer_size - to_ulong volumio.ptr % io.buffer_size)) * io.frame_bytes
          = size * io.frame_bytes := by
        rw [← Nat.add_mul]; congr 1; omega
      refine ⟨_, hcalls, by simp only [calls_frames]; omega, ?_, ?_, ?_, Or.inr ?_⟩
      · intro c hc ev hev
        simp only [List.mem_cons, List.mem_singleton, List.not_mem_nil, or_false] at hc
        rcases hc with hc | hc
        · rw [hc] at hev ⊢; exact hpa.2.2.1 ev hev
        · rw [hc] at hev ⊢; exact hpb.2.2.1 ev hev
      · simp only [calls_bytes]; omega
      · rw [hret]
        split
        · have : (r2 : Int) ≤ ((size - (io.buffer_size - to_ulong volumio.ptr % io.buffer_size) : Nat) : Int) := hr2le
          rw [heq]; omega
        · rw [heq]; exact_mod_cast hrem
      · rw [hret]
        simp only [calls_bytes, Nat.add_zero]
        rw [hfull, Nat.add_comm, Nat.add_mul_div_right _ _ hfb]
        rcases transfer_post_cases io _ r2 evs2 hpb with ⟨hr, hz, _⟩ | ⟨hr, _⟩
        · rw [hr, hz, heq]; simp [EPIPE]
        · have h0 : (0 : Int) ≤ r2 := by
            rw [hr]; exact Int.ediv_nonneg (by positivity) (by positivity)
          rw [if_pos h0, hr, heq]
          push_cast
          ring

theorem wrap_once_eq_mod (p r B : Int) (hp0 : 0 ≤ p) (hpB : p < B) (hr0 : 0 ≤ r) (hrB : r ≤ B) :
    (if p + r ≥ B then p + r - B else p + r) = (p + r) % B := by
  split
  · rw [Int.emod_eq_sub_self_emod, Int.emod_eq_of_lt (by omega) (by omega)]
  · rw [Int.emod_eq_of_lt (by omega) (by omega)]

/-- Every way `advance_body` can finish. -/
theorem advance_body_cases {σ : Type} (F : Fifo σ) (fuel : Nat) (io : snd_pcm_ioplug_t)
    (volumio : snd_pcm_volumiofifo_t) (w : World σ) (r : Int) (v : snd_pcm_volumiofifo_t)
    (w1 : World σ) (h : advance_body F fuel io volumio w = some (r, v, w1)) :
    (r = 0 ∧ v = volumio ∧ w1 = w ∧
      (volumio.ptr < 0 ∨ ¬ (io.buffer_size : Int) -
        (io.avail (to_ulong volumio.ptr) io.appl_ptr : Int) > 0)) ∨
    (0 ≤ volumio.ptr ∧
      (io.buffer_size : Int) - (io.avail (to_ulong volumio.ptr) io.appl_ptr : Int) > 0 ∧
      ∃ written v0,
        ((io.state = snd_pcm_state_t.RUNNING ∧ v0 = volumio ∧
            _snd_pcm_volumiofifo_transfer_wrap F fuel io volumio ((io.buffer_size : Int) -
              (io.avail (to_ulong volumio.ptr) io.appl_ptr : Int)).toNat w = some (written, w1)) ∨
          (io.state = snd_pcm_state_t.DRAINING ∧ volumio.drained = 0 ∧
            ∃ k, _snd_pcm_volumiofifo_transfer_wrap F fuel io volumio ((io.buffer_size : Int) -
                (io.avail (to_ulong volumio.ptr) io.appl_ptr : Int)).toNat w = some (k, w1) ∧
              ((k = (io.buffer_size : Int) - (io.avail (to_ulong volumio.ptr) io.appl_ptr : Int) ∧
                  written = k - 1 ∧ v0 = { volumio with drained := 1 }) ∨
                (k ≠ (io.buffer_size : Int) - (io.avail (to_ulong volumio.ptr) io.appl_ptr : Int) ∧
                  written = k ∧ v0 = volumio))) ∨
          (io.state ≠ snd_pcm_state_t.RUNNING ∧
            ¬ (io.state = snd_pcm_state_t.DRAINING ∧ volumio.drained = 0) ∧
            written = 0 ∧ v0 = volumio ∧ w1 = w)) ∧
        ((written < 0 ∧ r = written ∧ v = { v0 with ptr := -EPIPE }) ∨
          (0 ≤ written ∧ r = 0 ∧
            v = { v0 with ptr := if v0.ptr + written ≥ (v0.boundary : Int)
              then v0.ptr + written - v0.boundary else v0.ptr + written }))) := by
  unfold advance_body at h
  by_cases hneg : volumio.ptr < 0
  · rw [if_pos hneg] at h
    simp only [Option.some.injEq, Prod.mk.injEq] at h
    exact Or.inl ⟨h.1.symm, h.2.1.symm, h.2.2.symm, Or.inl hneg⟩
  · rw [if_neg hneg] at h
    simp only [] at h
    by_cases hbuf : (io.buffer_size : Int) - (io.avail (to_ulong volumio.ptr) io.appl_ptr : Int) > 0
    · rw [if_pos hbuf] at h
      right
      refine ⟨by omega, hbuf, ?_⟩
      have fin : ∀ (written : Int) (v0 : snd_pcm_volumiofifo_t) (wa : World σ),
          (if written < 0 then some (written, { v0 with ptr := -EPIPE }, wa)
            else if v0.ptr + written ≥ (v0.boundary : Int)
              then some ((0 : Int), { v0 with ptr := v0.ptr + written - v0.boundary }, wa)
              else some ((0 : Int), { v0 with ptr := v0.ptr + written }, wa)) = some (r, v, w1) →
          wa = w1 ∧ ((written < 0 ∧ r = written ∧ v = { v0 with ptr := -EPIPE }) ∨
            (0 ≤ written ∧ r = 0 ∧
              v = { v0 with ptr := if v0.ptr + written ≥ (v0.boundary : Int)
                then v0.ptr + written - v0.boundary else v0.ptr + written })) := by
        intro written v0 wa hh
        by_cases hw : written < 0
        · rw [if_pos hw] at hh
          simp only [Option.some.injEq, Prod.mk.injEq] at hh
          exact ⟨hh.2.2, Or.inl ⟨hw, hh.1.symm, hh.2.1.symm⟩⟩
        · rw [if_neg hw] at hh
          by_cases hge : v0.ptr + written ≥ (v0.boundary : Int)
          · rw [if_pos hge] at hh
            simp only [Option.some.injEq, Prod.mk.injEq] at hh
            exact ⟨hh.2.2, Or.inr ⟨by omega, hh.1.symm, by rw [if_pos hge]; exact hh.2.1.symm⟩⟩
          · rw [if_neg hge] at hh
            simp only [Option.some.injEq, Prod.mk.injEq] at hh
            exact ⟨hh.2.2, Or.inr ⟨by omega, hh.1.symm, by rw [if_neg hge]; exact hh.2.1.symm⟩⟩
      by_cases hrun : io.state = snd_pcm_state_t.RUNNING
      · rw [if_pos hrun] at h
        cases hwr : _snd_pcm_volumiofifo_transfer_wrap F fuel io volumio ((io.buffer_size : Int) -
            (io.avail (to_ulong volumio.ptr) io.appl_ptr : Int)).toNat w with
        | none => rw [hwr] at h; simp at h
        | some p =>
          obtain ⟨written, wa⟩ := p
          rw [hwr] at h
          simp only [] at h
          obtain ⟨hwa, hfin⟩ := fin written volumio wa h
          subst hwa
          exact ⟨written, volumio, Or.inl ⟨hrun, rfl, rfl⟩, hfin⟩
      · rw [if_neg hrun] at h
        by_cases hdr : io.state = snd_pcm_state_t.DRAINING ∧ volumio.drained = 0
        · rw [if_pos hdr] at h
          cases hwr : _snd_pcm_volumiofifo_transfer_wrap F fuel io volumio ((io.buffer_size : Int) -
              (io.avail (to_ulong volumio.ptr) io.appl_ptr : Int)).toNat w with
          | none => rw [hwr] at h; simp at h
          | some p =>
            obtain ⟨k, wa⟩ := p
            rw [hwr] at h
            simp only [] at h
            by_cases hk : k = (io.buffer_size : Int) -
                (io.avail (to_ulong volumio.ptr) io.appl_ptr : Int)
            · rw [if_pos hk] at h
              simp only [] at h
              obtain ⟨hwa, hfin⟩ := fin (k - 1) { volumio with drained := 1 } wa h
              subst hwa
              exact ⟨k - 1, _, Or.inr (Or.inl ⟨hdr.1, hdr.2, k, rfl, Or.inl ⟨hk, rfl, rfl⟩⟩), hfin⟩
            · rw [if_neg hk] at h
              simp only [] at h
              obtain ⟨hwa, hfin⟩ := fin k volumio wa h
              subst hwa
              exact ⟨k, _, Or.inr (Or.inl ⟨hdr.1, hdr.2, k, rfl, Or.inr ⟨hk, rfl, rfl⟩⟩), hfin⟩
        · rw [if_neg hdr] at h
          simp only [] at h
          obtain ⟨hwa, hfin⟩ := fin 0 volumio w h
          exact ⟨0, volumio, Or.inr (Or.inr ⟨hrun, hdr, rfl, rfl, hwa.symm⟩), hfin⟩
    · rw [if_neg hbuf] at h
      simp only [Option.some.injEq, Prod.mk.injEq] at h
      exact Or.inl ⟨h.1.symm, h.2.1.symm, h.2.2.symm, Or.inr hbuf⟩

/-- C3. A draining-state call of `_snd_pcm_volumiofifo_advance` with `drained = 0`,
`0 ≤ hw_pointer < boundary` and `b > 0` buffered frames, in which the wraparound transfer
returned `k ≥ 0` frames: the call returns 0; `drained` becomes 1 exactly when `k = b`, and then
`hw_pointer` advances by `b - 1`; when `k < b`, `drained` stays 0 and `hw_pointer` advances by
`k`.  The advance is wrapped by one subtraction of `boundary`, which is reduction modulo
`boundary` when `buffer_size ≤ boundary`.  The frame size and the period size are arbitrary. -/
theorem advance_draining_hold_back {σ : Type} (F : Fifo σ) (io : snd_pcm_ioplug_t)
    (volumio : snd_pcm_volumiofifo_t) (w : World σ)
    (hdr : io.state = snd_pcm_state_t.DRAINING) (hnd : volumio.drained = 0)
    (hp0 : 0 ≤ volumio.ptr) (hpb : volumio.ptr < volumio.boundary) (b : Nat) (hb0 : 0 < b)
    (hbuf : (b : Int) = (io.buffer_size : Int) - (io.avail (to_ulong volumio.ptr) io.appl_ptr : Int))
    (fuel : Nat) (k : Int) (w1 : World σ)
    (hwrap : _snd_pcm_volumiofifo_transfer_wrap F fuel io volumio b w = some (k, w1))
    (hk : 0 ≤ k) :
    ∃ v, _snd_pcm_volumiofifo_advance F fuel io volumio w = some (0, v, w1) ∧
      (v.drained = 1 ↔ k = b) ∧
      (k = b → v = { volumio with drained := 1, ptr :=
          if volumio.ptr + (b - 1) ≥ (volumio.boundary : Int)
          then volumio.ptr + (b - 1) - volumio.boundary else volumio.ptr + (b - 1) }) ∧
      (k < b → v = { volumio with ptr :=
          if volumio.ptr + k ≥ (volumio.boundary : Int)
          then volumio.ptr + k - volumio.boundary else volumio.ptr + k }) ∧
      (io.buffer_size ≤ volumio.boundary →
        (k = b → v.ptr = (volumio.ptr + (b - 1)) % (volumio.boundary : Int)) ∧
        (k < b → v.ptr = (volumio.ptr + k) % (volumio.boundary : Int))) := by
  have hb0i : (b : Int) > 0 := by exact_mod_cast hb0
  have hadv : _snd_pcm_volumiofifo_advance F fuel io volumio w = some (0,
      (if k = (b : Int) then { volumio with drained := 1, ptr :=
          if volumio.ptr + (b - 1) ≥ (volumio.boundary : Int)
          then volumio.ptr + (b - 1) - volumio.boundary else volumio.ptr + (b - 1) }
        else { volumio with ptr :=
          if volumio.ptr + k ≥ (volumio.boundary : Int)
          then volumio.ptr + k - volumio.boundary else volumio.ptr + k }), w1) := by
    unfold _snd_pcm_volumiofifo_advance
    rw [hdr]
    simp only []
    unfold advance_body
    rw [if_neg (by omega)]
    simp only [← hbuf, hdr, Int.toNat_ofNat, if_pos hb0i]
    rw [if_neg (show ¬ snd_pcm_state_t.DRAINING = snd_pcm_state_t.RUNNING by decide),
      if_pos ⟨trivial, hnd⟩, hwrap]
    simp only []
    by_cases hkb : k = (b : Int)
    · rw [if_pos hkb, if_pos hkb]
      simp only []
      rw [if_neg (by omega), hkb]
      split <;> rfl
    · rw [if_neg hkb, if_neg hkb]
      simp only []
      rw [if_neg (by omega)]
      split <;> rfl
  refine ⟨_, hadv, ?_, ?_, ?_, ?_⟩
  · by_cases hkb : k = (b : Int)
    · simp [hkb]
    · simp [hkb, hnd]
  · intro hkb; rw [if_pos hkb]
  · intro hkb; rw [if_neg (by omega)]
  · intro hbs
    have hble : (b : Int) ≤ io.buffer_size := by omega
    have hbs1 : (io.buffer_size : Int) ≤ volumio.boundary := by exact_mod_cast hbs
    constructor
    · intro hkb
      rw [if_pos hkb]
      exact wrap_once_eq_mod volumio.ptr (b - 1) volumio.boundary hp0 hpb (by omega) (by omega)
    · intro hkb
      rw [if_neg (by omega)]
      exact wrap_once_eq_mod volumio.ptr k volumio.boundary hp0 hpb hk (by omega)

/-- Witness of C3: draining with 200 frames buffered at `hw_pointer = 4000` and a pipe with
room: all 200 frames are written, `drained` becomes 1 and the pointer is 4199. -/
theorem advance_draining_hold_back_witness :
    (demo_io snd_pcm_state_t.DRAINING 4200).state = snd_pcm_state_t.DRAINING ∧
    (demo_session 4000 0).drained = 0 ∧
    ((200 : Nat) : Int) = ((demo_io snd_pcm_state_t.DRAINING 4200).buffer_size : Int) -
      ((demo_io snd_pcm_state_t.DRAINING 4200).avail (to_ulong (demo_session 4000 0).ptr)
        (demo_io snd_pcm_state_t.DRAINING 4200).appl_ptr : Int) ∧
    _snd_pcm_volumiofifo_transfer_wrap (limited_fifo EAGAIN) 20000
      (demo_io snd_pcm_state_t.DRAINING 4200) (demo_session 4000 0) 200 ⟨100000, []⟩
      = some (200, ⟨99200, [⟨buf_ptr.area 16000, 96, [⟨0, 384, io_result.done 384⟩], 96⟩,
           ⟨buf_ptr.area 0, 104, [⟨0, 416, io_result.done 416⟩], 104⟩]⟩) ∧
    _snd_pcm_volumiofifo_advance (limited_fifo EAGAIN) 20000
      (demo_io snd_pcm_state_t.DRAINING 4200) (demo_session 4000 0) ⟨100000, []⟩
      = some (0, demo_session 4199 1,
          ⟨99200, [⟨buf_ptr.area 16000, 96, [⟨0, 384, io_result.done 384⟩], 96⟩,
           ⟨buf_ptr.area 0, 104, [⟨0, 416, io_result.done 416⟩], 104⟩]⟩) ∧
    ∃ v, _snd_pcm_volumiofifo_advance (limited_fifo EAGAIN) 20000
        (demo_io snd_pcm_state_t.DRAINING 4200) (demo_session 4000 0) ⟨100000, []⟩
        = some (0, v, ⟨99200, [⟨buf_ptr.area 16000, 96, [⟨0, 384, io_result.done 384⟩], 96⟩,
           ⟨buf_ptr.area 0, 104, [⟨0, 416, io_result.done 416⟩], 104⟩]⟩) ∧
      (v.drained = 1 ↔ (200 : Int) = (200 : Nat)) ∧
      ((200 : Int) = (200 : Nat) → v = { demo_session 4000 0 with drained := 1, ptr :=
          if (demo_session 4000 0).ptr + ((200 : Nat) - 1) ≥ ((demo_session 4000 0).boundary : Int)
          then (demo_session 4000 0).ptr + ((200 : Nat) - 1) - (demo_session 4000 0).boundary
          else (demo_session 4000 0).ptr + ((200 : Nat) - 1) }) ∧
      ((200 : Int) < (200 : Nat) → v = { demo_session 4000 0 with ptr :=
          if (demo_session 4000 0).ptr + 200 ≥ ((demo_session 4000 0).boundary : Int)
          then (demo_session 4000 0).ptr + 200 - (demo_session 4000 0).boundary
          else (demo_session 4000 0).ptr + 200 }) ∧
      ((demo_io snd_pcm_state_t.DRAINING 4200).buffer_size ≤ (demo_session 4000 0).boundary →
        ((200 : Int) = (200 : Nat) → v.ptr = ((demo_session 4000 0).ptr + ((200 : Nat) - 1))
          % ((demo_session 4000 0).boundary : Int)) ∧
        ((200 : Int) < (200 : Nat) → v.ptr = ((demo_session 4000 0).ptr + 200)
          % ((demo_session 4000 0).boundary : Int))) :=
  ⟨rfl, rfl, by decide, by decide, by decide,
    advance_draining_hold_back (limited_fifo EAGAIN) (demo_io snd_pcm_state_t.DRAINING 4200)
      (demo_session 4000 0) ⟨100000, []⟩ rfl rfl (by decide) (by decide) 200 (by decide)
      (by decide) 20000 200 _ (by decide) (by decide)⟩

theorem advance_body_range {σ : Type} (F : Fifo σ) (fuel : Nat) (io : snd_pcm_ioplug_t)
    (volumio : snd_pcm_volumiofifo_t) (w : World σ) (hbound : F.bounded)
    (hfb : 0 < io.frame_bytes) (hbs : io.buffer_size ≤ volumio.boundary)
    (hrange : volumio.ptr < 0 ∨ (0 ≤ volumio.ptr ∧ volumio.ptr < volumio.boundary))
    (r : Int) (v : snd_pcm_volumiofifo_t) (w1 : World σ)
    (h : advance_body F fuel io volumio w = some (r, v, w1)) :
    v.boundary = volumio.boundary ∧ (v.ptr < 0 ∨ (0 ≤ v.ptr ∧ v.ptr < v.boundary)) := by
  rcases advance_body_cases F fuel io volumio w r v w1 h with
    ⟨_, hv, _, _⟩ | ⟨hp0, hbuf, written, v0, hsrc, hfin⟩
  · rw [hv]; exact ⟨rfl, hrange⟩
  · have hpb : volumio.ptr < volumio.boundary := by omega
    have hbs1 : (io.buffer_size : Int) ≤ volumio.boundary := by exact_mod_cast hbs
    have hle : ∀ k wa, _snd_pcm_volumiofifo_transfer_wrap F fuel io volumio ((io.buffer_size : Int) -
        (io.avail (to_ulong volumio.ptr) io.appl_ptr : Int)).toNat w = some (k, wa) →
        k ≤ io.buffer_size := by
      intro k wa hk
      obtain ⟨cs, _, _, _, _, hkle, _⟩ :=
        transfer_wrap_summary F io hbound hfb fuel volumio _ w k wa hk
      omega
    have hv0 : v0.boundary = volumio.boundary ∧ v0.ptr = volumio.ptr ∧ written ≤ io.buffer_size := by
      rcases hsrc with ⟨_, hv0, hwr⟩ | ⟨_, _, k, hwr, hk⟩ | ⟨_, _, hw0, hv0, _⟩
      · rw [hv0]; exact ⟨rfl, rfl, hle _ _ hwr⟩
      · have := hle _ _ hwr
        rcases hk with ⟨_, hwk, hv0⟩ | ⟨_, hwk, hv0⟩
        · rw [hv0]; exact ⟨rfl, rfl, by omega⟩
        · rw [hv0]; exact ⟨rfl, rfl, by omega⟩
      · rw [hv0, hw0]; exact ⟨rfl, rfl, by omega⟩
    obtain ⟨hb0, hp1, hwle⟩ := hv0
    rcases hfin with ⟨_, _, hv⟩ | ⟨hw0, _, hv⟩
    · rw [hv]; exact ⟨hb0, Or.inl (by simp [EPIPE])⟩
    · rw [hv]
      refine ⟨hb0, Or.inr ?_⟩
      simp only []
      rw [hb0, hp1]
      split <;> constructor <;> omega

theorem advance_range {σ : Type} (F : Fifo σ) (fuel : Nat) (io : snd_pcm_ioplug_t)
    (volumio : snd_pcm_volumiofifo_t) (w : World σ) (hbound : F.bounded)
    (hfb : 0 < io.frame_bytes) (hbs : io.buffer_size ≤ volumio.boundary)
    (hrange : volumio.ptr < 0 ∨ (0 ≤ volumio.ptr ∧ volumio.ptr < volumio.boundary))
    (r : Int) (v : snd_pcm_volumiofifo_t) (w1 : World σ)
    (h : _snd_pcm_volumiofifo_advance F fuel io volumio w = some (r, v, w1)) :
    v.boundary = volumio.boundary ∧ (v.ptr < 0 ∨ (0 ≤ v.ptr ∧ v.ptr < v.boundary)) := by
  unfold _snd_pcm_volumiofifo_advance at h
  split at h
  · exact advance_body_range F fuel io volumio w hbound hfb hbs hrange r v w1 h
  · exact advance_body_range F fuel io volumio w hbound hfb hbs hrange r v w1 h
  · exact advance_body_range F fuel io { volumio with ptr := -EPIPE } w hbound hfb hbs
      (Or.inl (by simp [EPIPE])) r v w1 h
  · simp only [Option.some.injEq, Prod.mk.injEq] at h
    rw [← h.2.1]; exact ⟨rfl, hrange⟩

theorem advance_body_terminates {σ : Type} (F : Fifo σ) (fuel : Nat) (io : snd_pcm_ioplug_t)
    (volumio : snd_pcm_volumiofifo_t) (w : World σ) (hp : F.progress) (hfb : 0 < io.frame_bytes)
    (hpipe : io.frame_bytes ≤ F.PIPE_BUF) (hfuel : io.buffer_size * io.frame_bytes < fuel) :
    ∃ x, advance_body F fuel io volumio w = some x := by
  have hwr : ∃ x, _snd_pcm_volumiofifo_transfer_wrap F fuel io volumio ((io.buffer_size : Int) -
      (io.avail (to_ulong volumio.ptr) io.appl_ptr : Int)).toNat w = some x :=
    transfer_wrap_terminates F io hp hfb hpipe fuel volumio _ w (by omega) hfuel
  obtain ⟨⟨k, wa⟩, hk⟩ := hwr
  unfold advance_body
  by_cases h1 : volumio.ptr < 0
  · rw [if_pos h1]; exact ⟨_, rfl⟩
  · rw [if_neg h1]
    simp only []
    by_cases h2 : (io.buffer_size : Int) - (io.avail (to_ulong volumio.ptr) io.appl_ptr : Int) > 0
    · rw [if_pos h2, hk]
      simp only []
      split_ifs <;> simp only [] <;> split_ifs <;> exact ⟨_, rfl⟩
    · rw [if_neg h2]; exact ⟨_, rfl⟩

theorem advance_terminates {σ : Type} (F : Fifo σ) (fuel : Nat) (io : snd_pcm_ioplug_t)
    (volumio : snd_pcm_volumiofifo_t) (w : World σ) (hp : F.progress) (hfb : 0 < io.frame_bytes)
    (hpipe : io.frame_bytes ≤ F.PIPE_BUF) (hfuel : io.buffer_size * io.frame_bytes < fuel) :
    ∃ x, _snd_pcm_volumiofifo_advance F fuel io volumio w = some x := by
  unfold _snd_pcm_volumiofifo_advance
  split
  · exact advance_body_terminates F fuel io volumio w hp hfb hpipe hfuel
  · exact advance_body_terminates F fuel io volumio w hp hfb hpipe hfuel
  · exact advance_body_terminates F fuel io _ w hp hfb hpipe hfuel
  · exact ⟨_, rfl⟩

theorem advance_of_neg {σ : Type} (F : Fifo σ) (fuel : Nat) (io : snd_pcm_ioplug_t)
    (volumio : snd_pcm_volumiofifo_t) (w : World σ) (hneg : volumio.ptr < 0) :
    ∃ v, _snd_pcm_volumiofifo_advance F fuel io volumio w = some (0, v, w) ∧ v.ptr < 0 := by
  have hE : (-EPIPE : Int) < 0 := by simp [EPIPE]
  unfold _snd_pcm_volumiofifo_advance
  split
  · exact ⟨volumio, by unfold advance_body; rw [if_pos hneg], hneg⟩
  · exact ⟨volumio, by unfold advance_body; rw [if_pos hneg], hneg⟩
  · exact ⟨{ volumio with ptr := -EPIPE }, by unfold advance_body; rw [if_pos hE], hE⟩
  · exact ⟨volumio, rfl, hneg⟩

/-- Every way the position query can finish. -/
theorem pointer_cases {σ : Type} (F : Fifo σ) (fuel : Nat) (io : snd_pcm_ioplug_t)
    (volumio : snd_pcm_volumiofifo_t) (w : World σ) (r : Int) (v : snd_pcm_volumiofifo_t)
    (w1 : World σ) (h : snd_pcm_volumiofifo_pointer F fuel io volumio w = some (r, v, w1)) :
    (∃ c : Int, c < 0 ∧ r = c ∧ v = { volumio with ptr := c } ∧ w1 = w) ∨
    (r = volumio.ptr ∧ v = volumio ∧ w1 = w) ∨
    (∃ e va, _snd_pcm_volumiofifo_advance F fuel io volumio w = some (e, va, w1) ∧
      ((e < 0 ∧ r = -EPIPE ∧ v = { va with ptr := -EPIPE }) ∨ (0 ≤ e ∧ r = va.ptr ∧ v = va))) := by
  have hE : (-EPIPE : Int) < 0 := by simp [EPIPE]
  have hB : (-EBADFD : Int) < 0 := by simp [EBADFD]
  have fin : ∀ (c : Int), c < 0 →
      some (c, ({ volumio with ptr := c } : snd_pcm_volumiofifo_t), w) = some (r, v, w1) →
      ∃ c : Int, c < 0 ∧ r = c ∧ v = { volumio with ptr := c } ∧ w1 = w := by
    intro c hc hh
    simp only [Option.some.injEq, Prod.mk.injEq] at hh
    exact ⟨c, hc, hh.1.symm, hh.2.1.symm, hh.2.2.symm⟩
  unfold snd_pcm_volumiofifo_pointer at h
  by_cases h1 : volumio.fifo_out_fd = -1 ∨ volumio.fifo_in_fd = -1
  · rw [if_pos h1] at h; exact Or.inl (fin _ hB h)
  rw [if_neg h1] at h
  by_cases h2 : io.state = snd_pcm_state_t.XRUN
  · rw [if_pos h2] at h; exact Or.inl (fin _ hE h)
  rw [if_neg h2] at h
  by_cases h3 : io.state = snd_pcm_state_t.DRAINING ∧ volumio.drained = 1
  · rw [if_pos h3] at h
    simp only [] at h
    by_cases h4 : (F.poll w.fifo).1 < 0
    · rw [if_pos h4] at h; exact Or.inl (fin _ hE h)
    rw [if_neg h4] at h
    by_cases h5 : (F.poll w.fifo).2 &&& POLLIN = 0
    · rw [if_pos h5] at h; exact Or.inl (fin _ hE h)
    rw [if_neg h5] at h
    simp only [Option.some.injEq, Prod.mk.injEq] at h
    exact Or.inr (Or.inl ⟨h.1.symm, h.2.1.symm, h.2.2.symm⟩)
  rw [if_neg h3] at h
  by_cases h6 : io.state = snd_pcm_state_t.RUNNING ∨ io.state = snd_pcm_state_t.DRAINING
  · rw [if_pos h6] at h
    cases ha : _snd_pcm_volumiofifo_advance F fuel io volumio w with
    | none => rw [ha] at h; simp at h
    | some x =>
      obtain ⟨e, va, wa⟩ := x
      rw [ha] at h
      simp only [] at h
      right; right
      by_cases he : e < 0
      · rw [if_pos he] at h
        simp only [Option.some.injEq, Prod.mk.injEq] at h
        obtain ⟨h7, h8, h9⟩ := h
        subst h9
        exact ⟨e, va, rfl, Or.inl ⟨he, h7.symm, h8.symm⟩⟩
      · rw [if_neg he] at h
        simp only [Option.some.injEq, Prod.mk.injEq] at h
        obtain ⟨h7, h8, h9⟩ := h
        subst h9
        exact ⟨e, va, rfl, Or.inr ⟨by omega, h7.symm, h8.symm⟩⟩
  · rw [if_neg h6] at h
    simp only [Option.some.injEq, Prod.mk.injEq] at h
    exact Or.inr (Or.inl ⟨h.1.symm, h.2.1.symm, h.2.2.symm⟩)

theorem pointer_terminates {σ : Type} (F : Fifo σ) (fuel : Nat) (io : snd_pcm_ioplug_t)
    (volumio : snd_pcm_volumiofifo_t) (w : World σ)
    (ha : ∃ x, _snd_pcm_volumiofifo_advance F fuel io volumio w = some x) :
    ∃ x, snd_pcm_volumiofifo_pointer F fuel io volumio w = some x := by
  obtain ⟨⟨e, va, wa⟩, hx⟩ := ha
  unfold snd_pcm_volumiofifo_pointer
  rw [hx]
  simp only []
  split_ifs <;> exact ⟨_, rfl⟩

/-- C6. Range invariant of the hardware pointer.  With `buffer_size ≤ boundary` and
`hw_pointer` either negative or in `[0, boundary)` before the call, whenever
`_snd_pcm_volumiofifo_advance` or the position query returns (any host state, any value of
`avail`, any sink whose writes never report more than requested) `boundary` is unchanged and
`hw_pointer` is again negative or in `[0, boundary)`: the single subtraction of `boundary` is
enough.  With a sink that makes progress both calls do return. -/
theorem hw_pointer_range_invariant {σ : Type} (F : Fifo σ) (io : snd_pcm_ioplug_t)
    (volumio : snd_pcm_volumiofifo_t) (w : World σ) (hbound : F.bounded)
    (hfb : 0 < io.frame_bytes) (hbs : io.buffer_size ≤ volumio.boundary)
    (hrange : volumio.ptr < 0 ∨ (0 ≤ volumio.ptr ∧ volumio.ptr < volumio.boundary)) :
    (∀ fuel r v w1, _snd_pcm_volumiofifo_advance F fuel io volumio w = some (r, v, w1) →
      v.boundary = volumio.boundary ∧ (v.ptr < 0 ∨ (0 ≤ v.ptr ∧ v.ptr < v.boundary))) ∧
    (∀ fuel r v w1, snd_pcm_volumiofifo_pointer F fuel io volumio w = some (r, v, w1) →
      v.boundary = volumio.boundary ∧ (v.ptr < 0 ∨ (0 ≤ v.ptr ∧ v.ptr < v.boundary))) ∧
    (F.progress → io.frame_bytes ≤ F.PIPE_BUF → ∀ fuel, io.buffer_size * io.frame_bytes < fuel →
      (∃ x, _snd_pcm_volumiofifo_advance F fuel io volumio w = some x) ∧
      (∃ x, snd_pcm_volumiofifo_pointer F fuel io volumio w = some x)) := by
  refine ⟨fun fuel r v w1 h => advance_range F fuel io volumio w hbound hfb hbs hrange r v w1 h,
    ?_, ?_⟩
  · intro fuel r v w1 h
    rcases pointer_cases F fuel io volumio w r v w1 h with
      ⟨c, hc, _, hv, _⟩ | ⟨_, hv, _⟩ | ⟨e, va, ha, hcase⟩
    · rw [hv]; exact ⟨rfl, Or.inl hc⟩
    · rw [hv]; exact ⟨rfl, hrange⟩
    · obtain ⟨hb1, hr1⟩ := advance_range F fuel io volumio w hbound hfb hbs hrange e va w1 ha
      rcases hcase with ⟨_, _, hv⟩ | ⟨_, _, hv⟩
      · rw [hv]; exact ⟨hb1, Or.inl (by simp [EPIPE])⟩
      · rw [hv]; exact ⟨hb1, hr1⟩
  · intro hp hpipe fuel hfuel
    have ha := advance_terminates F fuel io volumio w hp hfb hpipe hfuel
    exact ⟨ha, pointer_terminates F fuel io volumio w ha⟩

/-- Witness of C6: a running stream at `hw_pointer = 2 ^ 30 - 50` with 200 frames buffered and a
pipe with room; the pointer wraps to 150. -/
theorem hw_pointer_range_invariant_witness :
    (limited_fifo EAGAIN).bounded ∧
    (demo_io snd_pcm_state_t.RUNNING 150).buffer_size ≤ (demo_session (2 ^ 30 - 50) 0).boundary ∧
    (0 ≤ (demo_session (2 ^ 30 - 50) 0).ptr ∧
      (demo_session (2 ^ 30 - 50) 0).ptr < (demo_session (2 ^ 30 - 50) 0).boundary) ∧
    ((_snd_pcm_volumiofifo_advance (limited_fifo EAGAIN) 20000
        (demo_io snd_pcm_state_t.RUNNING 150) (demo_session (2 ^ 30 - 50) 0) ⟨100000, []⟩).map
      (fun x => (x.1, x.2.1))) = some (0, demo_session 150 0) ∧
    (demo_session 150 0).boundary = (demo_session (2 ^ 30 - 50) 0).boundary ∧
    ((demo_session 150 0).ptr < 0 ∨
      (0 ≤ (demo_session 150 0).ptr ∧ (demo_session 150 0).ptr < (demo_session 150 0).boundary)) :=
  ⟨limited_fifo_bounded EAGAIN, by decide, by decide, by decide,
    (hw_pointer_range_invariant (limited_fifo EAGAIN) (demo_io snd_pcm_state_t.RUNNING 150)
      (demo_session (2 ^ 30 - 50) 0) ⟨100000, []⟩ (limited_fifo_bounded EAGAIN) (by decide)
      (by decide) (Or.inr (by decide))).1 20000 0 (demo_session 150 0)
      ⟨99200, [⟨buf_ptr.area 16184, 50, [⟨0, 200, io_result.done 200⟩], 50⟩,
        ⟨buf_ptr.area 0, 150, [⟨0, 600, io_result.done 600⟩], 150⟩]⟩ (by decide)⟩

/-- C4. A position query in draining state with `drained = 1`, both sink descriptors valid and
the zero-timeout probe of the read side succeeding: when the probe reports `POLLIN` the session
(and so `hw_pointer`, the held-back value) is left as it was and the query returns `hw_pointer`;
when it does not, `hw_pointer` becomes `-EPIPE` and that negative value is returned.  In both
cases the world is unchanged: no chunking-writer call and no `write` is made.  Since the
readable case returns the state it started from, every further such query answers the same. -/
theorem pointer_waits_for_empty_fifo {σ : Type} (F : Fifo σ) (fuel : Nat) (io : snd_pcm_ioplug_t)
    (volumio : snd_pcm_volumiofifo_t) (w : World σ)
    (hdr : io.state = snd_pcm_state_t.DRAINING) (hd : volumio.drained = 1)
    (hout : volumio.fifo_out_fd ≠ -1) (hin : volumio.fifo_in_fd ≠ -1)
    (hpoll : 0 ≤ (F.poll w.fifo).1) :
    ((F.poll w.fifo).2 &&& POLLIN ≠ 0 →
      snd_pcm_volumiofifo_pointer F fuel io volumio w = some (volumio.ptr, volumio, w)) ∧
    ((F.poll w.fifo).2 &&& POLLIN = 0 →
      snd_pcm_volumiofifo_pointer F fuel io volumio w
        = some (-EPIPE, { volumio with ptr := -EPIPE }, w)) ∧
    (-EPIPE : Int) < 0 := by
  have h1 : ¬ (volumio.fifo_out_fd = -1 ∨ volumio.fifo_in_fd = -1) := by
    rintro (h | h)
    · exact hout h
    · exact hin h
  have h2 : ¬ io.state = snd_pcm_state_t.XRUN := by rw [hdr]; decide
  have h3 : io.state = snd_pcm_state_t.DRAINING ∧ volumio.drained = 1 := ⟨hdr, hd⟩
  have h4 : ¬ (F.poll w.fifo).1 < 0 := by omega
  refine ⟨?_, ?_, by simp [EPIPE]⟩
  · intro h5
    unfold snd_pcm_volumiofifo_pointer
    rw [if_neg h1, if_neg h2, if_pos h3]
    simp only []
    rw [if_neg h4, if_neg h5]
  · intro h5
    unfold snd_pcm_volumiofifo_pointer
    rw [if_neg h1, if_neg h2, if_pos h3]
    simp only []
    rw [if_neg h4, if_pos h5]

/-- Witness of C4: draining with `drained = 1` and the pointer held at 4199; the read side of
`limited_fifo` always reports `POLLIN`, so the query returns 4199 and changes nothing. -/
theorem pointer_waits_for_empty_fifo_witness :
    (demo_io snd_pcm_state_t.DRAINING 4200).state = snd_pcm_state_t.DRAINING ∧
    (demo_session 4199 1).drained = 1 ∧
    (demo_session 4199 1).fifo_out_fd ≠ -1 ∧ (demo_session 4199 1).fifo_in_fd ≠ -1 ∧
    0 ≤ ((limited_fifo EAGAIN).poll (⟨0, []⟩ : World Nat).fifo).1 ∧
    ((limited_fifo EAGAIN).poll (⟨0, []⟩ : World Nat).fifo).2 &&& POLLIN ≠ 0 ∧
    snd_pcm_volumiofifo_pointer (limited_fifo EAGAIN) 20000
      (demo_io snd_pcm_state_t.DRAINING 4200) (demo_session 4199 1) ⟨0, []⟩
      = some ((demo_session 4199 1).ptr, demo_session 4199 1, ⟨0, []⟩) :=
  ⟨rfl, rfl, by decide, by decide, by decide, by decide,
    (pointer_waits_for_empty_fifo (limited_fifo EAGAIN) 20000
      (demo_io snd_pcm_state_t.DRAINING 4200) (demo_session 4199 1) ⟨0, []⟩ rfl rfl
      (by decide) (by decide) (by decide)).1 (by decide)⟩

theorem start_cases {σ : Type} (F : Fifo σ) (E : Env) (fuel : Nat) (io : snd_pcm_ioplug_t)
    (volumio : snd_pcm_volumiofifo_t) (w : World σ) (r : Int) (io1 : snd_pcm_ioplug_t)
    (v : snd_pcm_volumiofifo_t) (w1 : World σ)
    (h : snd_pcm_volumiofifo_start F E fuel io volumio w = some (r, io1, v, w1)) :
    v = volumio ∨ ∃ wa, _snd_pcm_volumiofifo_advance F fuel
      { io with state := snd_pcm_state_t.RUNNING } volumio wa = some (r, v, w1) := by
  unfold snd_pcm_volumiofifo_start at h
  simp only [] at h
  by_cases h1 : E.set_state = 0
  · rw [if_pos h1] at h
    by_cases h2 : volumio.lead_in_frames > 0
    · rw [if_pos h2] at h
      by_cases h3 : E.set_silence = 0
      · rw [if_pos h3] at h
        split at h
        · simp at h
        · rename_i x wa _
          split at h
          · simp at h
          · rename_i e va wb ha
            simp only [Option.some.injEq, Prod.mk.injEq] at h
            obtain ⟨h4, _, h5, h6⟩ := h
            subst h4; subst h5; subst h6
            exact Or.inr ⟨wa, ha⟩
      · rw [if_neg h3] at h
        simp only [Option.some.injEq, Prod.mk.injEq] at h
        exact Or.inl h.2.2.1.symm
    · rw [if_neg h2] at h
      split at h
      · simp at h
      · rename_i e va wb ha
        simp only [Option.some.injEq, Prod.mk.injEq] at h
        obtain ⟨h4, _, h5, h6⟩ := h
        subst h4; subst h5; subst h6
        exact Or.inr ⟨w, ha⟩
  · rw [if_neg h1] at h
    simp only [Option.some.injEq, Prod.mk.injEq] at h
    exact Or.inl h.2.2.1.symm

theorem stop_session {σ : Type} (F : Fifo σ) (E : Env) (fuel : Nat) (io : snd_pcm_ioplug_t)
    (volumio : snd_pcm_volumiofifo_t) (w : World σ) (r : Int) (v : snd_pcm_volumiofifo_t)
    (w1 : World σ) (h : snd_pcm_volumiofifo_stop F E fuel io volumio w = some (r, v, w1)) :
    v = volumio := by
  unfold snd_pcm_volumiofifo_stop at h
  simp only [] at h
  split at h
  · simp at h
  · split at h <;> simp only [Option.some.injEq, Prod.mk.injEq] at h <;> exact h.2.1.symm

/-- C5. The overrun sentinel is sticky.  From a session with `hw_pointer < 0`, in every host
state and with every sink and host environment, each callback other than `prepare`
(`advance`, the transfer callback, `start`, `stop`, the position query, `poll_descriptors`,
`poll_revents`) that returns leaves `hw_pointer` negative; all of them except `stop` (whose
drain-read loop depends on the read side) do return once the fuel covers the lead-in write of
`start`.  `prepare` stores the host's hardware pointer, which is not negative. -/
theorem overrun_sentinel_sticky {σ : Type} (F : Fifo σ) (E : Env) (fuel : Nat) (op : callback)
    (io : snd_pcm_ioplug_t) (volumio : snd_pcm_volumiofifo_t) (w : World σ)
    (hneg : volumio.ptr < 0) :
    (∀ v, session_after F E fuel op io volumio w = some v → v.ptr < 0) ∧
    (op ≠ callback.stop → F.progress → 0 < io.frame_bytes → io.frame_bytes ≤ F.PIPE_BUF →
      io.period_size * io.frame_bytes < fuel → ∃ v, session_after F E fuel op io volumio w = some v) ∧
    0 ≤ (snd_pcm_volumiofifo_prepare E io volumio).2.ptr := by
  refine ⟨?_, ?_, ?_⟩
  · intro v h
    cases op with
    | advance =>
      obtain ⟨v1, ha, hv1⟩ := advance_of_neg F fuel io volumio w hneg
      simp only [session_after, ha, Option.map_some', Option.some.injEq] at h
      rw [← h]; exact hv1
    | transfer size =>
      obtain ⟨v1, ha, hv1⟩ := advance_of_neg F fuel io volumio w hneg
      simp only [session_after, snd_pcm_volumiofifo_transfer, ha, Option.map_some',
        Option.some.injEq] at h
      rw [← h]; exact hv1
    | start =>
      simp only [session_after] at h
      cases hs : snd_pcm_volumiofifo_start F E fuel io volumio w with
      | none => rw [hs] at h; simp at h
      | some x =>
        obtain ⟨r, io1, v1, w1⟩ := x
        rw [hs] at h
        simp only [Option.map_some', Option.some.injEq] at h
        subst h
        rcases start_cases F E fuel io volumio w r io1 v1 w1 hs with hv | ⟨wa, ha⟩
        · rw [hv]; exact hneg
        · obtain ⟨v2, ha2, hv2⟩ := advance_of_neg F fuel
            { io with state := snd_pcm_state_t.RUNNING } volumio wa hneg
          rw [ha2] at ha
          simp only [Option.some.injEq, Prod.mk.injEq] at ha
          rw [← ha.2.1]; exact hv2
    | stop =>
      simp only [session_after] at h
      cases hs : snd_pcm_volumiofifo_stop F E fuel io volumio w with
      | none => rw [hs] at h; simp at h
      | some x =>
        obtain ⟨r, v1, w1⟩ := x
        rw [hs] at h
        simp only [Option.map_some', Option.some.injEq] at h
        subst h
        rw [stop_session F E fuel io volumio w r v1 w1 hs]; exact hneg
    | pointer =>
      simp only [session_after] at h
      cases hs : snd_pcm_volumiofifo_pointer F fuel io volumio w with
      | none => rw [hs] at h; simp at h
      | some x =>
        obtain ⟨r, v1, w1⟩ := x
        rw [hs] at h
        simp only [Option.map_some', Option.some.injEq] at h
        subst h
        rcases pointer_cases F fuel io volumio w r v1 w1 hs with
          ⟨c, hc, _, hv, _⟩ | ⟨_, hv, _⟩ | ⟨e, va, ha, hcase⟩
        · rw [hv]; exact hc
        · rw [hv]; exact hneg
        · obtain ⟨v2, ha2, hv2⟩ := advance_of_neg F fuel io volumio w hneg
          rw [ha2] at ha
          simp only [Option.some.injEq, Prod.mk.injEq] at ha
          rcases hcase with ⟨_, _, hv⟩ | ⟨_, _, hv⟩
          · rw [hv]; simp [EPIPE]
          · rw [hv, ← ha.2.1]; exact hv2
    | poll_descriptors pfds nfds =>
      simp only [session_after, Option.some.injEq] at h
      rw [← h]; exact hneg
    | poll_revents pfds nfds revents =>
      simp only [session_after, Option.some.injEq] at h
      rw [← h]; exact hneg
  · intro hop hp hfb hpipe hfuel
    cases op with
    | advance =>
      obtain ⟨v1, ha, _⟩ := advance_of_neg F fuel io volumio w hneg
      exact ⟨v1, by simp [session_after, ha]⟩
    | transfer size =>
      obtain ⟨v1, ha, _⟩ := advance_of_neg F fuel io volumio w hneg
      exact ⟨v1, by simp [session_after, snd_pcm_volumiofifo_transfer, ha]⟩
    | start =>
      have hadv : ∀ wa, ∃ v1, _snd_pcm_volumiofifo_advance F fuel
          { io with state := snd_pcm_state_t.RUNNING } volumio wa = some (0, v1, wa) := fun wa =>
        (advance_of_neg F fuel _ volumio wa hneg).imp fun _ hx => hx.1
      obtain ⟨⟨x, wa⟩, ht⟩ := transfer_terminates F { io with state := snd_pcm_state_t.RUNNING }
        hp hfb hpipe fuel
        (buf_ptr.local_buf (snd_pcm_frames_to_bytes { io with state := snd_pcm_state_t.RUNNING }
          volumio.lead_in_frames).toNat (io.period_size * io.channels)) io.period_size w hfuel
      obtain ⟨v1, h1⟩ := hadv w
      obtain ⟨v2, h2⟩ := hadv wa
      simp only [session_after, snd_pcm_volumiofifo_start]
      split_ifs
      · rw [ht]; simp only []; rw [h2]; exact ⟨_, rfl⟩
      · exact ⟨_, rfl⟩
      · rw [h1]; exact ⟨_, rfl⟩
      · exact ⟨_, rfl⟩
    | stop => exact absurd rfl hop
    | pointer =>
      obtain ⟨v1, ha, _⟩ := advance_of_neg F fuel io volumio w hneg
      obtain ⟨x, hx⟩ := pointer_terminates F fuel io volumio w ⟨_, ha⟩
      exact ⟨x.2.1, by simp [session_after, hx]⟩
    | poll_descriptors pfds nfds => exact ⟨volumio, rfl⟩
    | poll_revents pfds nfds revents => exact ⟨volumio, rfl⟩
  · unfold snd_pcm_volumiofifo_prepare
    simp only []
    split_ifs <;> simp

/-- Witness of C5: a running session latched at `-EPIPE` with 200 frames buffered; the position
query returns `-EPIPE` and leaves the session as it was. -/
theorem overrun_sentinel_sticky_witness :
    (demo_session (-32) 0).ptr < 0 ∧
    session_after (limited_fifo EAGAIN) ok_env 20000 callback.pointer
      (demo_io snd_pcm_state_t.RUNNING 200) (demo_session (-32) 0) ⟨100000, []⟩
      = some (demo_session (-32) 0) ∧
    (demo_session (-32) 0).ptr < 0 :=
  ⟨by decide, by decide,
    (overrun_sentinel_sticky (limited_fifo EAGAIN) ok_env 20000 callback.pointer
      (demo_io snd_pcm_state_t.RUNNING 200) (demo_session (-32) 0) ⟨100000, []⟩
      (by decide)).1 (demo_session (-32) 0) (by decide)⟩

theorem to_ulong_natCast (n : Nat) : to_ulong (n : Int) = n := by
  unfold to_ulong
  rw [if_neg (by omega)]
  exact Int.toNat_ofNat n

theorem to_int_of_range (x : Int) (h0 : -2 ^ 31 ≤ x) (h1 : x < 2 ^ 31) : to_int x = x := by
  unfold to_int
  norm_num at h0 h1 ⊢
  rw [Int.emod_eq_of_lt (by omega) (by omega)]
  omega

theorem to_int_natCast (n : Nat) (h : n < 2 ^ 31) : to_int (n : Int) = n := by
  apply to_int_of_range
  · have h0 : (0 : Int) ≤ (n : Int) := Int.natCast_nonneg n
    norm_num
    omega
  · exact_mod_cast h

theorem poll_revents_running (E : Env) (io : snd_pcm_ioplug_t)
    (volumio : snd_pcm_volumiofifo_t) (pfds : Nat → pollfd)
    (hrd : io.state = snd_pcm_state_t.RUNNING ∨ io.state = snd_pcm_state_t.DRAINING)
    (hfd : (pfds 0).fd = volumio.fifo_out_fd ∨ (pfds 0).fd = volumio.timer_fd)
    (hsync : E.hwsync.1 = 0) (havail : io.avail E.hwsync.2 io.appl_ptr < 2 ^ 31) (r0 : Nat) :
    snd_pcm_volumiofifo_poll_revents E io volumio pfds 1 r0 =
      if io.avail E.hwsync.2 io.appl_ptr ≥ io.period_size then (0, POLLOUT)
      else if 0 < io.avail E.hwsync.2 io.appl_ptr then (0, 0)
      else (0, r0) := by
  have h1 : ¬ ((1 : Nat) ≠ 1 ∨ ((pfds 0).fd ≠ volumio.fifo_out_fd ∧ (pfds 0).fd ≠ volumio.timer_fd)) := by
    rintro (h | ⟨h2, h3⟩)
    · exact h rfl
    · rcases hfd with h | h
      · exact h2 h
      · exact h3 h
  unfold snd_pcm_volumiofifo_poll_revents
  rw [if_neg h1]
  have herr : (match io.state with
      | snd_pcm_state_t.RUNNING =>
        if E.hwsync.1 = 0 then to_int (io.avail E.hwsync.2 io.appl_ptr : Int) else E.hwsync.1
      | snd_pcm_state_t.DRAINING =>
        if E.hwsync.1 = 0 then to_int (io.avail E.hwsync.2 io.appl_ptr : Int) else E.hwsync.1
      | _ => to_int (io.period_size : Int)) = (io.avail E.hwsync.2 io.appl_ptr : Int) := by
    rcases hrd with h | h <;> rw [h] <;> simp only [] <;> rw [if_pos hsync] <;>
      exact to_int_natCast _ havail
  simp only [herr, to_ulong_natCast]
  by_cases ha : io.avail E.hwsync.2 io.appl_ptr ≥ io.period_size
  · rw [if_pos ha, if_pos ha]
  · rw [if_neg ha, if_neg ha]
    by_cases hp : 0 < io.avail E.hwsync.2 io.appl_ptr
    · rw [if_pos hp, if_pos (by exact_mod_cast hp)]
    · rw [if_neg hp, if_neg (by omega)]
      have : io.avail E.hwsync.2 io.appl_ptr = 0 := by omega
      rw [this]; rfl


/-- C8 fails on the code when no frame is available.  `snd_pcm_volumiofifo_poll_revents` with
one recognised descriptor, in running or draining state, when `snd_pcm_hwsync` succeeds and
`a < 2^31` frames are available, for a call that finds `r0` in the output location: if
`a ≥ period_size` it returns 0 and stores `POLLOUT`; if `0 < a < period_size` it returns 0 and
stores 0 (no event); if `a = 0 < period_size` it returns 0 and stores nothing, so the output
keeps `r0`.  Hence the call returns 0 with `POLLOUT` in the output exactly when
`a ≥ period_size`, or `a = 0` and the location already held `POLLOUT`. -/
theorem poll_revents_period_gate (E : Env) (io : snd_pcm_ioplug_t)
    (volumio : snd_pcm_volumiofifo_t) (pfds : Nat → pollfd)
    (hrd : io.state = snd_pcm_state_t.RUNNING ∨ io.state = snd_pcm_state_t.DRAINING)
    (hfd : (pfds 0).fd = volumio.fifo_out_fd ∨ (pfds 0).fd = volumio.timer_fd)
    (hsync : E.hwsync.1 = 0) (a : Nat) (ha : a = io.avail E.hwsync.2 io.appl_ptr)
    (hrange : a < 2 ^ 31) (r0 : Nat) :
    (io.period_size ≤ a →
      snd_pcm_volumiofifo_poll_revents E io volumio pfds 1 r0 = (0, POLLOUT)) ∧
    (0 < a → a < io.period_size →
      snd_pcm_volumiofifo_poll_revents E io volumio pfds 1 r0 = (0, 0)) ∧
    (a = 0 → 0 < io.period_size →
      snd_pcm_volumiofifo_poll_revents E io volumio pfds 1 r0 = (0, r0)) ∧
    (snd_pcm_volumiofifo_poll_revents E io volumio pfds 1 r0 = (0, POLLOUT) ↔
      io.period_size ≤ a ∨ (a = 0 ∧ r0 = POLLOUT)) := by
  have hev := poll_revents_running E io volumio pfds hrd hfd hsync (by rw [← ha]; exact hrange) r0
  rw [← ha] at hev
  have hready : io.period_size ≤ a →
      snd_pcm_volumiofifo_poll_revents E io volumio pfds 1 r0 = (0, POLLOUT) := by
    intro h
    rw [hev, if_pos h]
  have hsome : 0 < a → a < io.period_size →
      snd_pcm_volumiofifo_poll_revents E io volumio pfds 1 r0 = (0, 0) := by
    intro h0 hlt
    rw [hev, if_neg (by omega), if_pos h0]
  have hnone : a = 0 → 0 < io.period_size →
      snd_pcm_volumiofifo_poll_revents E io volumio pfds 1 r0 = (0, r0) := by
    intro h0 hlt
    rw [hev, if_neg (by omega), if_neg (by omega)]
  refine ⟨hready, hsome, hnone, ?_, ?_⟩
  · intro h
    by_cases hge : io.period_size ≤ a
    · exact Or.inl hge
    · right
      by_cases h0 : 0 < a
      · rw [hsome h0 (by omega)] at h
        simp only [Prod.mk.injEq, POLLOUT] at h
        omega
      · rw [hnone (by omega) (by omega)] at h
        simp only [Prod.mk.injEq] at h
        exact ⟨by omega, h.2⟩
  · rintro (h | ⟨h0, hr⟩)
    · exact hready h
    · by_cases hge : io.period_size ≤ a
      · exact hready hge
      · rw [hnone h0 (by omega), hr]

/-- Failing input of C8: draining state, `period_size = 1024`, `snd_pcm_hwsync` succeeding with
the pointer at 1000 and the application pointer at 5096 in a buffer of 4096 frames, so that no
frame is available; the output location holds `POLLOUT` before the call.  The call returns 0 and
the output still holds `POLLOUT`, although `a < period_size`.  With 600 available frames the
call stores 0, with 1500 it stores `POLLOUT`. -/
theorem poll_revents_period_gate_witness :
    ({ ok_env with hwsync := (0, 1000) } : Env).hwsync.1 = 0 ∧
    (0 : Nat) = (demo_io snd_pcm_state_t.DRAINING 5096).avail
      ({ ok_env with hwsync := (0, 1000) } : Env).hwsync.2
      (demo_io snd_pcm_state_t.DRAINING 5096).appl_ptr ∧
    ¬ (demo_io snd_pcm_state_t.DRAINING 5096).period_size ≤ 0 ∧
    snd_pcm_volumiofifo_poll_revents { ok_env with hwsync := (0, 1000) }
      (demo_io snd_pcm_state_t.DRAINING 5096) (demo_session 0 0)
      (fun _ => ⟨5, POLLOUT, POLLOUT⟩) 1 POLLOUT = (0, POLLOUT) ∧
    snd_pcm_volumiofifo_poll_revents ok_env (demo_io snd_pcm_state_t.RUNNING 3496)
      (demo_session 0 0) (fun _ => ⟨5, POLLOUT, POLLOUT⟩) 1 POLLOUT = (0, 0) ∧
    snd_pcm_volumiofifo_poll_revents ok_env (demo_io snd_pcm_state_t.RUNNING 2596)
      (demo_session 0 0) (fun _ => ⟨5, POLLOUT, POLLOUT⟩) 1 0 = (0, POLLOUT) :=
  ⟨rfl, by decide, by decide,
    (poll_revents_period_gate { ok_env with hwsync := (0, 1000) }
      (demo_io snd_pcm_state_t.DRAINING 5096) (demo_session 0 0)
      (fun _ => ⟨5, POLLOUT, POLLOUT⟩) (Or.inr rfl) (Or.inl rfl) rfl 0 (by decide) (by decide)
      POLLOUT).2.2.1 rfl (by decide),
    by decide, by decide⟩

/-- C9 fails as stated: in prepared state, with the descriptor carrying no event
(`pfds[0].revents = 0`), the call reports `POLLOUT`. -/
theorem poll_revents_not_pass_through :
    (snd_pcm_volumiofifo_poll_revents ok_env (demo_io snd_pcm_state_t.PREPARED 0)
      (demo_session 0 0) (fun _ => ⟨5, POLLOUT, 0⟩) 1 0) = (0, POLLOUT) ∧
    (snd_pcm_volumiofifo_poll_revents ok_env (demo_io snd_pcm_state_t.PREPARED 0)
      (demo_session 0 0) (fun _ => ⟨5, POLLOUT, 0⟩) 1 0).2 ≠ (⟨5, POLLOUT, 0⟩ : pollfd).revents := by
  decide

/-- C9 as amended. `snd_pcm_volumiofifo_poll_revents` with one recognised descriptor in a host
state other than running or draining, for a period of fewer than `2^31` frames (the range of
the `int` that receives `io->period_size`), returns 0 and reports `POLLOUT`, whatever raw event
the descriptor carries and whatever the output location held: `pfds[0].revents` is not
consulted. -/
theorem poll_revents_other_states_ready (E : Env) (io : snd_pcm_ioplug_t)
    (volumio : snd_pcm_volumiofifo_t) (pfds : Nat → pollfd) (r0 : Nat)
    (hrun : io.state ≠ snd_pcm_state_t.RUNNING) (hdr : io.state ≠ snd_pcm_state_t.DRAINING)
    (hfd : (pfds 0).fd = volumio.fifo_out_fd ∨ (pfds 0).fd = volumio.timer_fd)
    (hperiod : io.period_size < 2 ^ 31) :
    snd_pcm_volumiofifo_poll_revents E io volumio pfds 1 r0 = (0, POLLOUT) := by
  have h1 : ¬ ((1 : Nat) ≠ 1 ∨ ((pfds 0).fd ≠ volumio.fifo_out_fd ∧ (pfds 0).fd ≠ volumio.timer_fd)) := by
    rintro (h | ⟨h2, h3⟩)
    · exact h rfl
    · rcases hfd with h | h
      · exact h2 h
      · exact h3 h
  unfold snd_pcm_volumiofifo_poll_revents
  rw [if_neg h1]
  have herr : (match io.state with
      | snd_pcm_state_t.RUNNING =>
        if E.hwsync.1 = 0 then to_int (io.avail E.hwsync.2 io.appl_ptr : Int) else E.hwsync.1
      | snd_pcm_state_t.DRAINING =>
        if E.hwsync.1 = 0 then to_int (io.avail E.hwsync.2 io.appl_ptr : Int) else E.hwsync.1
      | _ => to_int (io.period_size : Int)) = (io.period_size : Int) := by
    split
    · rename_i h; exact absurd h hrun
    · rename_i h; exact absurd h hdr
    · exact to_int_natCast _ hperiod
  simp only [herr, to_int_natCast _ hperiod, to_ulong_natCast]
  rw [if_pos (le_refl _)]

/-- Witness of C9 as amended: prepared state, the descriptor carrying no event. -/
theorem poll_revents_other_states_ready_witness :
    (demo_io snd_pcm_state_t.PREPARED 0).state ≠ snd_pcm_state_t.RUNNING ∧
    (demo_io snd_pcm_state_t.PREPARED 0).state ≠ snd_pcm_state_t.DRAINING ∧
    (demo_io snd_pcm_state_t.PREPARED 0).period_size < 2 ^ 31 ∧
    snd_pcm_volumiofifo_poll_revents ok_env (demo_io snd_pcm_state_t.PREPARED 0)
      (demo_session 0 0) (fun _ => ⟨5, POLLOUT, 0⟩) 1 0 = (0, POLLOUT) :=
  ⟨by decide, by decide, by decide,
    poll_revents_other_states_ready ok_env (demo_io snd_pcm_state_t.PREPARED 0)
      (demo_session 0 0) (fun _ => ⟨5, POLLOUT, 0⟩) 0 (by decide) (by decide) (Or.inl rfl)
      (by decide)⟩

/-- C10. `snd_pcm_volumiofifo_poll_descriptors` with `nfds = 1` returns 1 and writes entry 0 of
the array only: the timer descriptor watched for `POLLIN` when the state is draining and
`drained = 1` (provided arming the timer succeeded), the write side of the fifo watched for
`POLLOUT` in every other case; `revents` of the entry is 0.
`snd_pcm_volumiofifo_poll_descriptors_count` is 1. -/
theorem poll_descriptors_single_entry (E : Env) (io : snd_pcm_ioplug_t)
    (volumio : snd_pcm_volumiofifo_t) (pfds : Nat → pollfd)
    (harm : io.state = snd_pcm_state_t.DRAINING ∧ volumio.drained = 1 →
      _snd_pcm_volumiofifo_set_timer E volumio 1 = 0) :
    (snd_pcm_volumiofifo_poll_descriptors E io volumio pfds 1).1 = 1 ∧
    (snd_pcm_volumiofifo_poll_descriptors E io volumio pfds 1).2 0 =
      (if io.state = snd_pcm_state_t.DRAINING ∧ volumio.drained = 1
        then ⟨volumio.timer_fd, POLLIN, 0⟩ else ⟨volumio.fifo_out_fd, POLLOUT, 0⟩) ∧
    (∀ i, i ≠ 0 → (snd_pcm_volumiofifo_poll_descriptors E io volumio pfds 1).2 i = pfds i) ∧
    snd_pcm_volumiofifo_poll_descriptors_count io volumio = 1 := by
  unfold snd_pcm_volumiofifo_poll_descriptors
  rw [if_pos rfl]
  by_cases hd : io.state = snd_pcm_state_t.DRAINING ∧ volumio.drained = 1
  · rw [if_pos hd, if_pos hd]
    simp only []
    rw [if_pos (harm hd)]
    refine ⟨rfl, by simp, ?_, rfl⟩
    intro i hi
    simp [Function.update, hi]
  · rw [if_neg hd, if_neg hd]
    refine ⟨rfl, by simp, ?_, rfl⟩
    intro i hi
    simp [Function.update, hi]

/-- Witness of C10: draining with `drained = 1` and a timer that arms. -/
theorem poll_descriptors_single_entry_witness :
    _snd_pcm_volumiofifo_set_timer ok_env (demo_session 4199 1) 1 = 0 ∧
    (snd_pcm_volumiofifo_poll_descriptors ok_env (demo_io snd_pcm_state_t.DRAINING 4200)
      (demo_session 4199 1) (fun _ => ⟨0, 0, 9⟩) 1).1 = 1 ∧
    (snd_pcm_volumiofifo_poll_descriptors ok_env (demo_io snd_pcm_state_t.DRAINING 4200)
      (demo_session 4199 1) (fun _ => ⟨0, 0, 9⟩) 1).2 0 =
      (if (demo_io snd_pcm_state_t.DRAINING 4200).state = snd_pcm_state_t.DRAINING ∧
          (demo_session 4199 1).drained = 1
        then ⟨(demo_session 4199 1).timer_fd, POLLIN, 0⟩
        else ⟨(demo_session 4199 1).fifo_out_fd, POLLOUT, 0⟩) ∧
    (∀ i, i ≠ 0 → (snd_pcm_volumiofifo_poll_descriptors ok_env
      (demo_io snd_pcm_state_t.DRAINING 4200) (demo_session 4199 1) (fun _ => ⟨0, 0, 9⟩) 1).2 i
        = (fun _ => (⟨0, 0, 9⟩ : pollfd)) i) ∧
    snd_pcm_volumiofifo_poll_descriptors_count (demo_io snd_pcm_state_t.DRAINING 4200)
      (demo_session 4199 1) = 1 :=
  ⟨rfl, poll_descriptors_single_entry ok_env (demo_io snd_pcm_state_t.DRAINING 4200)
    (demo_session 4199 1) (fun _ => ⟨0, 0, 9⟩) (fun _ => rfl)⟩

/-- C11 fails on the code: with the write side invalid (`fifo_out_fd = -1`) and the library and
timer calls succeeding, `snd_pcm_volumiofifo_prepare` returns 0, not `-EBADFD`: the error code
it sets first is overwritten by the result of `snd_pcm_sw_params_current`. -/
theorem prepare_bad_descriptor_returns_success :
    ({ demo_session 0 1 with fifo_out_fd := -1 } : snd_pcm_volumiofifo_t).fifo_out_fd = -1 ∧
    (snd_pcm_volumiofifo_prepare ok_env (demo_io snd_pcm_state_t.SETUP 0)
      { demo_session 0 1 with fifo_out_fd := -1 }).1 = 0 ∧
    (snd_pcm_volumiofifo_prepare ok_env (demo_io snd_pcm_state_t.SETUP 0)
      { demo_session 0 1 with fifo_out_fd := -1 }).1 ≠ -EBADFD := by
  decide

/-- C12 fails on the code: with `lead_in_frames = 64`, 4-byte stereo frames and
`period_size = 1024`, `snd_pcm_volumiofifo_start` allocates the 256 bytes of 64 frames, but asks
for 2048 samples (1024 frames) of silence and hands the chunking writer 1024 frames, of which
the sink takes 4096 bytes before the first advance. -/
theorem start_lead_in_uses_period_size :
    ({ demo_session 0 0 with lead_in_frames := 64 } : snd_pcm_volumiofifo_t).lead_in_frames = 64 ∧
    (demo_io snd_pcm_state_t.PREPARED 0).period_size = 1024 ∧
    (snd_pcm_volumiofifo_start (limited_fifo EAGAIN) ok_env 20000
      (demo_io snd_pcm_state_t.PREPARED 0) { demo_session 0 0 with lead_in_frames := 64 }
      ⟨100000, []⟩).map (fun x => x.2.2.2.calls)
      = some [⟨buf_ptr.local_buf 256 2048, 1024, [⟨0, 4096, io_result.done 4096⟩], 1024⟩] := by
  decide

/-- C15. `_snd_pcm_volumiofifo_advance` in a host state that is neither running, draining nor
xrun returns 0 and leaves the session and the world as they were (no chunking-writer call, no
`write`, `hw_pointer` and `drained` unchanged); in xrun state it returns 0 with `hw_pointer`
set to `-EPIPE`, everything else in the session and the world untouched.  Both for any fuel. -/
theorem advance_idle_and_xrun {σ : Type} (F : Fifo σ) (fuel : Nat) (io : snd_pcm_ioplug_t)
    (volumio : snd_pcm_volumiofifo_t) (w : World σ)
    (hst : io.state ≠ snd_pcm_state_t.RUNNING ∧ io.state ≠ snd_pcm_state_t.DRAINING) :
    (io.state ≠ snd_pcm_state_t.XRUN →
      _snd_pcm_volumiofifo_advance F fuel io volumio w = some (0, volumio, w)) ∧
    (io.state = snd_pcm_state_t.XRUN →
      _snd_pcm_volumiofifo_advance F fuel io volumio w
        = some (0, { volumio with ptr := -EPIPE }, w)) := by
  obtain ⟨h1, h2⟩ := hst
  constructor
  · intro h3
    unfold _snd_pcm_volumiofifo_advance
    split
    · rename_i h; exact absurd h h1
    · rename_i h; exact absurd h h2
    · rename_i h; exact absurd h h3
    · rfl
  · intro h3
    unfold _snd_pcm_volumiofifo_advance
    rw [h3]
    simp only []
    unfold advance_body
    rw [if_pos (by simp [EPIPE])]

/-- Witness of C15: a paused stream with 200 frames buffered is left alone; the same stream in
xrun state gets the sentinel. -/
theorem advance_idle_and_xrun_witness :
    ((demo_io snd_pcm_state_t.PAUSED 4200).state ≠ snd_pcm_state_t.RUNNING ∧
      (demo_io snd_pcm_state_t.PAUSED 4200).state ≠ snd_pcm_state_t.DRAINING) ∧
    _snd_pcm_volumiofifo_advance (limited_fifo EAGAIN) 20000
      (demo_io snd_pcm_state_t.PAUSED 4200) (demo_session 4000 0) ⟨100000, []⟩
      = some (0, demo_session 4000 0, ⟨100000, []⟩) ∧
    _snd_pcm_volumiofifo_advance (limited_fifo EAGAIN) 20000
      (demo_io snd_pcm_state_t.XRUN 4200) (demo_session 4000 0) ⟨100000, []⟩
      = some (0, { demo_session 4000 0 with ptr := -EPIPE }, ⟨100000, []⟩) :=
  ⟨by decide,
    (advance_idle_and_xrun (limited_fifo EAGAIN) 20000 (demo_io snd_pcm_state_t.PAUSED 4200)
      (demo_session 4000 0) ⟨100000, []⟩ (by decide)).1 (by decide),
    (advance_idle_and_xrun (limited_fifo EAGAIN) 20000 (demo_io snd_pcm_state_t.XRUN 4200)
      (demo_session 4000 0) ⟨100000, []⟩ (by decide)).2 rfl⟩

/-- C16. `_snd_pcm_volumiofifo_advance` in running state, or in draining state with
`drained = 0`, with `hw_pointer ≥ 0` and `b > 0` frames buffered, when the wraparound transfer
returns a negative code `e`: `hw_pointer` becomes `-EPIPE`, nothing else in the session changes
(`drained` is not set) and `e` is returned.  The transfer callback then returns `e` instead of
the requested size, and the position query returns a negative value (`-EPIPE`, or `-EBADFD`
when a sink descriptor is invalid), both when it makes the failing advance itself and when it
is made later on the latched session. -/
theorem advance_transfer_failure_latches {σ : Type} (F : Fifo σ) (fuel : Nat)
    (io : snd_pcm_ioplug_t) (volumio : snd_pcm_volumiofifo_t) (w : World σ)
    (hst : io.state = snd_pcm_state_t.RUNNING ∨
      (io.state = snd_pcm_state_t.DRAINING ∧ volumio.drained = 0))
    (hp0 : 0 ≤ volumio.ptr) (b : Nat) (hb0 : 0 < b)
    (hbuf : (b : Int) = (io.buffer_size : Int) - (io.avail (to_ulong volumio.ptr) io.appl_ptr : Int))
    (e : Int) (w1 : World σ)
    (hwrap : _snd_pcm_volumiofifo_transfer_wrap F fuel io volumio b w = some (e, w1))
    (he : e < 0) (size : Nat) :
    _snd_pcm_volumiofifo_advance F fuel io volumio w
      = some (e, { volumio with ptr := -EPIPE }, w1) ∧
    snd_pcm_volumiofifo_transfer F fuel io volumio size w
      = some (e, { volumio with ptr := -EPIPE }, w1) ∧
    (∃ r v w2, snd_pcm_volumiofifo_pointer F fuel io volumio w = some (r, v, w2) ∧ r < 0 ∧
      v.ptr = r ∧ (r = -EPIPE ∨ r = -EBADFD)) ∧
    (∀ fuel2 io2 w2 r v w3, snd_pcm_volumiofifo_pointer F fuel2 io2
      { volumio with ptr := -EPIPE } w2 = some (r, v, w3) → r < 0) := by
  have hb0i : (b : Int) > 0 := by exact_mod_cast hb0
  have hne : e ≠ (b : Int) := by omega
  have hadv : _snd_pcm_volumiofifo_advance F fuel io volumio w
      = some (e, { volumio with ptr := -EPIPE }, w1) := by
    have hbody : advance_body F fuel io volumio w
        = some (e, { volumio with ptr := -EPIPE }, w1) := by
      unfold advance_body
      rw [if_neg (by omega)]
      simp only [← hbuf, Int.toNat_ofNat, if_pos hb0i, hwrap]
      rcases hst with h | ⟨h, hd⟩
      · rw [if_pos h]
        simp only []
        rw [if_pos he]
      · rw [if_neg (by rw [h]; decide), if_pos ⟨h, hd⟩, if_neg hne]
        simp only []
        rw [if_pos he]
    unfold _snd_pcm_volumiofifo_advance
    rcases hst with h | ⟨h, _⟩ <;> rw [h] <;> exact hbody
  refine ⟨hadv, ?_, ?_, ?_⟩
  · unfold snd_pcm_volumiofifo_transfer
    rw [hadv]
    simp only []
    rw [if_neg (by omega)]
  · have hE : (-EPIPE : Int) < 0 := by simp [EPIPE]
    have hB : (-EBADFD : Int) < 0 := by simp [EBADFD]
    unfold snd_pcm_volumiofifo_pointer
    by_cases h1 : volumio.fifo_out_fd = -1 ∨ volumio.fifo_in_fd = -1
    · rw [if_pos h1]
      exact ⟨_, _, _, rfl, hB, rfl, Or.inr rfl⟩
    · rw [if_neg h1]
      have h2 : ¬ io.state = snd_pcm_state_t.XRUN := by
        rcases hst with h | ⟨h, _⟩ <;> rw [h] <;> decide
      have h3 : ¬ (io.state = snd_pcm_state_t.DRAINING ∧ volumio.drained = 1) := by
        rcases hst with h | ⟨_, hd⟩
        · rw [h]; simp
        · rw [hd]; simp
      have h4 : io.state = snd_pcm_state_t.RUNNING ∨ io.state = snd_pcm_state_t.DRAINING := by
        rcases hst with h | ⟨h, _⟩
        · exact Or.inl h
        · exact Or.inr h
      rw [if_neg h2, if_neg h3, if_pos h4, hadv]
      simp only []
      rw [if_pos he]
      exact ⟨_, _, _, rfl, hE, rfl, Or.inl rfl⟩
  · intro fuel2 io2 w2 r v w3 hq
    have hE : (-EPIPE : Int) < 0 := by simp [EPIPE]
    rcases pointer_cases F fuel2 io2 _ w2 r v w3 hq with
      ⟨c, hc, hr, _, _⟩ | ⟨hr, _, _⟩ | ⟨e2, va, ha, hcase⟩
    · omega
    · rw [hr]; exact hE
    · obtain ⟨v2, ha2, hv2⟩ := advance_of_neg F fuel2 io2
        { volumio with ptr := -EPIPE } w2 hE
      rw [ha2] at ha
      simp only [Option.some.injEq, Prod.mk.injEq] at ha
      rcases hcase with ⟨_, hr, _⟩ | ⟨_, hr, _⟩
      · rw [hr]; exact hE
      · rw [hr, ← ha.2.1]; exact hv2

/-- Witness of C16: a running stream with 200 frames buffered and a sink whose first `write`
fails with `EPIPE`: advance and the transfer callback return -32 and the pointer is latched. -/
theorem advance_transfer_failure_latches_witness :
    ((200 : Nat) : Int) = ((demo_io snd_pcm_state_t.RUNNING 4200).buffer_size : Int) -
      ((demo_io snd_pcm_state_t.RUNNING 4200).avail (to_ulong (demo_session 4000 0).ptr)
        (demo_io snd_pcm_state_t.RUNNING 4200).appl_ptr : Int) ∧
    _snd_pcm_volumiofifo_transfer_wrap (limited_fifo EPIPE) 20000
      (demo_io snd_pcm_state_t.RUNNING 4200) (demo_session 4000 0) 200 ⟨0, []⟩
      = some (-32, ⟨0, [⟨buf_ptr.area 16000, 96, [⟨0, 384, io_result.failed 32⟩], -32⟩]⟩) ∧
    _snd_pcm_volumiofifo_advance (limited_fifo EPIPE) 20000
      (demo_io snd_pcm_state_t.RUNNING 4200) (demo_session 4000 0) ⟨0, []⟩
      = some (-32, { demo_session 4000 0 with ptr := -EPIPE },
          ⟨0, [⟨buf_ptr.area 16000, 96, [⟨0, 384, io_result.failed 32⟩], -32⟩]⟩) ∧
    snd_pcm_volumiofifo_transfer (limited_fifo EPIPE) 20000
      (demo_io snd_pcm_state_t.RUNNING 4200) (demo_session 4000 0) 1024 ⟨0, []⟩
      = some (-32, { demo_session 4000 0 with ptr := -EPIPE },
          ⟨0, [⟨buf_ptr.area 16000, 96, [⟨0, 384, io_result.failed 32⟩], -32⟩]⟩) ∧
    (∃ r v w2, snd_pcm_volumiofifo_pointer (limited_fifo EPIPE) 20000
        (demo_io snd_pcm_state_t.RUNNING 4200) (demo_session 4000 0) ⟨0, []⟩ = some (r, v, w2) ∧
      r < 0 ∧ v.ptr = r ∧ (r = -EPIPE ∨ r = -EBADFD)) ∧
    (∀ fuel2 io2 w2 r v w3, snd_pcm_volumiofifo_pointer (limited_fifo EPIPE) fuel2 io2
      { demo_session 4000 0 with ptr := -EPIPE } w2 = some (r, v, w3) → r < 0) :=
  ⟨by decide, by decide,
    advance_transfer_failure_latches (limited_fifo EPIPE) 20000
      (demo_io snd_pcm_state_t.RUNNING 4200) (demo_session 4000 0) ⟨0, []⟩ (Or.inl rfl)
      (by decide) 200 (by decide) (by decide) (-32)
      ⟨0, [⟨buf_ptr.area 16000, 96, [⟨0, 384, io_result.failed 32⟩], -32⟩]⟩ (by decide)
      (by decide) 1024⟩

theorem transfer_logged {σ : Type} (F : Fifo σ) (fuel : Nat) (io : snd_pcm_ioplug_t)
    (buf : buf_ptr) (size : Nat) (w : World σ) (ret : Int) (w1 : World σ)
    (h : _snd_pcm_volumiofifo_transfer F fuel io buf size w = some (ret, w1)) :
    ∃ evs, w1.calls = w.calls ++ [⟨buf, size, evs, ret⟩] := by
  unfold _snd_pcm_volumiofifo_transfer at h
  simp only [] at h
  split at h
  · simp at h
  · rename_i written s1 evs _
    simp only [Option.some.injEq, Prod.mk.injEq] at h
    obtain ⟨hr, hw⟩ := h
    subst hr; subst hw
    exact ⟨evs, rfl⟩

/-- C17 fails as stated: `buffer_size = 4096`, `hw_pointer = 4000`, 200 frames requested, a sink
that takes the 384 bytes of the tail and then fails with `EPIPE`.  The second chunking-writer
call returns -32, and the wraparound transfer returns 96, the frames of the tail. -/
theorem wraparound_second_failure_not_propagated :
    _snd_pcm_volumiofifo_transfer_wrap (limited_fifo EPIPE) 20000
      (demo_io snd_pcm_state_t.RUNNING 4200) (demo_session 4000 0) 200 ⟨384, []⟩
      = some (96, ⟨0, [⟨buf_ptr.area 16000, 96, [⟨0, 384, io_result.done 384⟩], 96⟩,
          ⟨buf_ptr.area 0, 104, [⟨0, 416, io_result.failed 32⟩], -32⟩]⟩) ∧
    (96 : Int) ≠ -32 := by
  decide

/-- C17 as amended. Result of `_snd_pcm_volumiofifo_transfer_wrap`, for every request and every
sink, whenever it returns.  A request that does not cross the end of the buffer makes one
chunking-writer call and returns its result, negative code included.  A crossing request makes
the tail call; when that did not return the whole tail, its result (a smaller count or a negative
code) is returned; when it did, the head call is made and the result is the sum of the two
counts if the head call returned a count, and the tail count alone if the head call returned a
negative code, which is not propagated. -/
theorem wraparound_transfer_result {σ : Type} (F : Fifo σ) (fuel : Nat) (io : snd_pcm_ioplug_t)
    (volumio : snd_pcm_volumiofifo_t) (size : Nat) (w : World σ) (ret : Int) (w1 : World σ)
    (h : _snd_pcm_volumiofifo_transfer_wrap F fuel io volumio size w = some (ret, w1)) :
    (¬ to_ulong volumio.ptr % io.buffer_size + size > io.buffer_size →
      ∃ c, w1.calls = w.calls ++ [c] ∧ c.size = size ∧ ret = c.ret) ∧
    (to_ulong volumio.ptr % io.buffer_size + size > io.buffer_size →
      ∃ c1, c1.size = io.buffer_size - to_ulong volumio.ptr % io.buffer_size ∧
        ((c1.ret ≠ (c1.size : Int) ∧ w1.calls = w.calls ++ [c1] ∧ ret = c1.ret) ∨
          (c1.ret = (c1.size : Int) ∧ ∃ c2, w1.calls = w.calls ++ [c1, c2] ∧
            c2.size = size - c1.size ∧
            (0 ≤ c2.ret → ret = c1.ret + c2.ret) ∧ (c2.ret < 0 → ret = c1.ret)))) := by
  unfold _snd_pcm_volumiofifo_transfer_wrap at h
  simp only [] at h
  constructor
  · intro hc
    rw [if_neg hc] at h
    obtain ⟨evs, hl⟩ := transfer_logged F fuel io _ size w ret w1 h
    exact ⟨_, hl, rfl, rfl⟩
  · intro hc
    rw [if_pos hc] at h
    split at h
    · simp at h
    · rename_i r1 wa h1
      obtain ⟨evs, hl⟩ := transfer_logged F fuel io _ _ w r1 wa h1
      refine ⟨⟨buf_ptr.area ((io.area_first + io.area_step *
        (to_ulong volumio.ptr % io.buffer_size)) / 8),
        io.buffer_size - to_ulong volumio.ptr % io.buffer_size, evs, r1⟩, rfl, ?_⟩
      split at h
      · rename_i heq
        split at h
        · simp at h
        · rename_i r2 wb h2
          obtain ⟨evs2, hl2⟩ := transfer_logged F fuel io _ _ wa r2 wb h2
          right
          refine ⟨heq, ⟨buf_ptr.area (io.area_first / 8),
            size - (io.buffer_size - to_ulong volumio.ptr % io.buffer_size),
            evs2, r2⟩, ?_, rfl, ?_, ?_⟩
          · have hw : wb = w1 := by
              split at h <;> simp only [Option.some.injEq, Prod.mk.injEq] at h <;> exact h.2
            rw [← hw, hl2, hl]; simp
          · intro h0
            rw [if_pos h0] at h
            simp only [Option.some.injEq, Prod.mk.injEq] at h
            simp only []
            rw [← h.1, heq]; ring
          · intro h0
            have h0r : r2 < 0 := h0
            rw [if_neg (by omega)] at h
            simp only [Option.some.injEq, Prod.mk.injEq] at h
            simp only []
            rw [← h.1, heq]
      · rename_i hne
        simp only [Option.some.injEq, Prod.mk.injEq] at h
        left
        exact ⟨hne, by rw [← h.2, hl], h.1.symm⟩

/-- Witness of C17 as amended: a crossing request whose head call fails with `EPIPE`. -/
theorem wraparound_transfer_result_witness :
    to_ulong (demo_session 4000 0).ptr % (demo_io snd_pcm_state_t.RUNNING 4200).buffer_size + 200
      > (demo_io snd_pcm_state_t.RUNNING 4200).buffer_size ∧
    ∃ c1, c1.size = (demo_io snd_pcm_state_t.RUNNING 4200).buffer_size -
        to_ulong (demo_session 4000 0).ptr % (demo_io snd_pcm_state_t.RUNNING 4200).buffer_size ∧
      ((c1.ret ≠ (c1.size : Int) ∧
          [(⟨buf_ptr.area 16000, 96, [⟨0, 384, io_result.done 384⟩], 96⟩ : transfer_call),
            ⟨buf_ptr.area 0, 104, [⟨0, 416, io_result.failed 32⟩], -32⟩] = [] ++ [c1] ∧
          (96 : Int) = c1.ret) ∨
        (c1.ret = (c1.size : Int) ∧ ∃ c2,
          [(⟨buf_ptr.area 16000, 96, [⟨0, 384, io_result.done 384⟩], 96⟩ : transfer_call),
            ⟨buf_ptr.area 0, 104, [⟨0, 416, io_result.failed 32⟩], -32⟩] = [] ++ [c1, c2] ∧
          c2.size = 200 - c1.size ∧
          (0 ≤ c2.ret → (96 : Int) = c1.ret + c2.ret) ∧ (c2.ret < 0 → (96 : Int) = c1.ret))) :=
  ⟨by decide,
    (wraparound_transfer_result (limited_fifo EPIPE) 20000
      (demo_io snd_pcm_state_t.RUNNING 4200) (demo_session 4000 0) 200 ⟨384, []⟩ 96
      ⟨0, [⟨buf_ptr.area 16000, 96, [⟨0, 384, io_result.done 384⟩], 96⟩,
        ⟨buf_ptr.area 0, 104, [⟨0, 416, io_result.failed 32⟩], -32⟩]⟩ (by decide)).2 (by decide)⟩

/-- C18 fails on the code: in running state, with `snd_pcm_hwsync` failing with `-EPIPE` and
`period_size = 1024`, `snd_pcm_volumiofifo_poll_revents` returns 0 and stores `POLLOUT`: in
`err >= io->period_size` the negative `int` is converted to `unsigned long`. -/
theorem poll_revents_hwsync_error_reports_ready :
    ({ ok_env with hwsync := (-EPIPE, 0) } : Env).hwsync.1 < 0 ∧
    snd_pcm_volumiofifo_poll_revents { ok_env with hwsync := (-EPIPE, 0) }
      (demo_io snd_pcm_state_t.RUNNING 4200) (demo_session 4000 0)
      (fun _ => ⟨5, POLLOUT, POLLOUT⟩) 1 0 = (0, POLLOUT) := by
  decide

/-- C19. After `snd_pcm_volumiofifo_prepare`, whatever the session held before and whatever the
library and timer calls return: `drained = 0` and `hw_pointer` is the host's `hw_ptr`; when
`snd_pcm_sw_params_current` and `snd_pcm_sw_params_get_boundary` succeed, `boundary` is the
host's boundary; the three descriptors and the configuration fields are the ones the session
had. -/
theorem prepare_resets_position (E : Env) (io : snd_pcm_ioplug_t)
    (volumio : snd_pcm_volumiofifo_t) :
    (snd_pcm_volumiofifo_prepare E io volumio).2.drained = 0 ∧
    (snd_pcm_volumiofifo_prepare E io volumio).2.ptr = (io.hw_ptr : Int) ∧
    (E.sw_params_current = 0 → E.get_boundary.1 = 0 →
      (snd_pcm_volumiofifo_prepare E io volumio).2.boundary = E.get_boundary.2) ∧
    (snd_pcm_volumiofifo_prepare E io volumio).2.fifo_out_fd = volumio.fifo_out_fd ∧
    (snd_pcm_volumiofifo_prepare E io volumio).2.fifo_in_fd = volumio.fifo_in_fd ∧
    (snd_pcm_volumiofifo_prepare E io volumio).2.timer_fd = volumio.timer_fd ∧
    (snd_pcm_volumiofifo_prepare E io volumio).2.debug = volumio.debug ∧
    (snd_pcm_volumiofifo_prepare E io volumio).2.clear_on_drop = volumio.clear_on_drop ∧
    (snd_pcm_volumiofifo_prepare E io volumio).2.lead_in_frames = volumio.lead_in_frames := by
  unfold snd_pcm_volumiofifo_prepare
  simp only []
  by_cases h1 : E.sw_params_current = 0
  · rw [if_pos h1]
    by_cases h2 : E.get_boundary.1 = 0
    · rw [if_pos h2]
      exact ⟨rfl, rfl, fun _ _ => rfl, rfl, rfl, rfl, rfl, rfl, rfl⟩
    · rw [if_neg h2]
      exact ⟨rfl, rfl, fun _ _ => rfl, rfl, rfl, rfl, rfl, rfl, rfl⟩
  · rw [if_neg h1]
    exact ⟨rfl, rfl, fun h => absurd h h1, rfl, rfl, rfl, rfl, rfl, rfl⟩

/-- Witness of C19: a session latched at `-EPIPE` with `drained = 1` is reset by `prepare`. -/
theorem prepare_resets_position_witness :
    (snd_pcm_volumiofifo_prepare ok_env (demo_io snd_pcm_state_t.SETUP 0) (demo_session (-32) 1)).2
      = { demo_session 0 0 with boundary := 2 ^ 30 } ∧
    (snd_pcm_volumiofifo_prepare ok_env (demo_io snd_pcm_state_t.SETUP 0)
      (demo_session (-32) 1)).2.drained = 0 :=
  ⟨by decide,
    (prepare_resets_position ok_env (demo_io snd_pcm_state_t.SETUP 0) (demo_session (-32) 1)).1⟩

theorem transfer_loop_chunked {σ : Type} (F : Fifo σ) (io : snd_pcm_ioplug_t)
    (sb chunk : Int) (hchunk : 0 ≤ chunk) :
    ∀ (fuel : Nat) (s : σ) (wb written : Int) (evs : List write_event) (ret : Int) (s1 : σ)
      (evs1 : List write_event),
      wb ≤ sb → (accepted_bytes evs : Int) = wb →
      (∀ pre ev post, evs = pre ++ ev :: post →
        ev.off = (accepted_bytes pre : Int) ∧
        (ev.count : Int) = min chunk (sb - (accepted_bytes pre : Int))) →
      transfer_loop F io sb chunk fuel s wb written evs = some (ret, s1, evs1) →
      ∀ pre ev post, evs1 = pre ++ ev :: post →
        ev.off = (accepted_bytes pre : Int) ∧
        (ev.count : Int) = min chunk (sb - (accepted_bytes pre : Int)) := by
  intro fuel
  induction fuel with
  | zero => intro s wb written evs ret s1 evs1 _ _ _ h; simp [transfer_loop] at h
  | succ fuel ih =>
    intro s wb written evs ret s1 evs1 hle hacc hP h
    unfold transfer_loop at h
    simp only [] at h
    have hcount : ((if sb - wb > chunk then chunk else sb - wb).toNat : Int)
        = min chunk (sb - wb) := by
      rw [min_def]
      split <;> split <;> omega
    generalize (if sb - wb > chunk then chunk else sb - wb).toNat = count at h hcount
    have hsnoc : ∀ r0, ∀ pre ev post,
        evs ++ [(⟨wb, count, r0⟩ : write_event)] = pre ++ ev :: post →
        ev.off = (accepted_bytes pre : Int) ∧
        (ev.count : Int) = min chunk (sb - (accepted_bytes pre : Int)) := by
      intro r0 pre ev post heq
      rcases List.eq_nil_or_concat post with hp | ⟨post1, x, hp⟩
      · subst hp
        have := List.append_inj' heq rfl
        obtain ⟨h1, h2⟩ := this
        simp only [List.cons.injEq, and_true] at h2
        subst h1; subst h2
        simp only []
        rw [hacc]
        exact ⟨rfl, hcount⟩
      · subst hp
        have heq2 : evs ++ [(⟨wb, count, r0⟩ : write_event)] = (pre ++ ev :: post1) ++ [x] := by
          rw [heq]; simp
        have := List.append_inj' heq2 rfl
        exact hP pre ev post1 this.1
    rcases hw : F.write s count with ⟨r, s2⟩
    rw [hw] at h
    cases r with
    | failed e =>
      simp only [] at h
      have hev : evs1 = evs ++ [(⟨wb, count, io_result.failed e⟩ : write_event)] := by
        split at h
        · simp only [Option.some.injEq, Prod.mk.injEq] at h; exact h.2.2.symm
        · split at h <;> simp only [Option.some.injEq, Prod.mk.injEq] at h <;> exact h.2.2.symm
      rw [hev]
      exact hsnoc _
    | done n =>
      simp only [] at h
      split at h
      · rename_i hlt
        refine ih s2 (wb + n) _ _ ret s1 evs1 (by omega) ?_ (hsnoc _) h
        rw [accepted_bytes_append]
        simp only [accepted_bytes]
        push_cast
        omega
      · simp only [Option.some.injEq, Prod.mk.injEq] at h
        rw [← h.2.2]
        exact hsnoc _

/-- C20. For a frame of `f` bytes, `1 ≤ f ≤ PIPE_BUF` (with `PIPE_BUF < 2^31`),
`_snd_pcm_volumiofifo_chunk_size` is `c = PIPE_BUF - PIPE_BUF mod f`, a positive multiple of `f`
with `PIPE_BUF - f < c ≤ PIPE_BUF`, inside the range of the `int` that holds it.  For a sink
whose `write` never reports more than it was asked for and a request whose byte count fits the
`int` variables of the source (`size * f < 2^31`), in every finished chunking-writer call each
`write` starts where the bytes accepted so far end and asks for `min c (bytes still to write)`
bytes, so for at most `c` and at most `PIPE_BUF` bytes; the bytes still to write are never
negative and the write ends below `2^31`. -/
theorem chunk_size_bounds_every_write {σ : Type} (F : Fifo σ) (io : snd_pcm_ioplug_t)
    (hf1 : 1 ≤ io.frame_bytes) (hf2 : io.frame_bytes ≤ F.PIPE_BUF) (hb : F.bounded)
    (hpipe : F.PIPE_BUF < 2 ^ 31) :
    _snd_pcm_volumiofifo_chunk_size F io
      = (F.PIPE_BUF : Int) - (F.PIPE_BUF : Int) % (io.frame_bytes : Int) ∧
    0 < _snd_pcm_volumiofifo_chunk_size F io ∧
    (io.frame_bytes : Int) ∣ _snd_pcm_volumiofifo_chunk_size F io ∧
    (F.PIPE_BUF : Int) - io.frame_bytes < _snd_pcm_volumiofifo_chunk_size F io ∧
    _snd_pcm_volumiofifo_chunk_size F io ≤ F.PIPE_BUF ∧
    _snd_pcm_volumiofifo_chunk_size F io < 2 ^ 31 ∧
    ∀ fuel buf size w ret w1, size * io.frame_bytes < 2 ^ 31 →
      _snd_pcm_volumiofifo_transfer F fuel io buf size w = some (ret, w1) →
      ∃ evs, w1.calls = w.calls ++ [⟨buf, size, evs, ret⟩] ∧
        ∀ pre ev post, evs = pre ++ ev :: post →
          ev.off = (accepted_bytes pre : Int) ∧
          (ev.count : Int) = min (_snd_pcm_volumiofifo_chunk_size F io)
            ((size : Int) * io.frame_bytes - (accepted_bytes pre : Int)) ∧
          (ev.count : Int) ≤ _snd_pcm_volumiofifo_chunk_size F io ∧
          ev.count ≤ F.PIPE_BUF ∧
          (accepted_bytes pre : Int) ≤ (size : Int) * io.frame_bytes ∧
          ev.off + ev.count < 2 ^ 31 := by
  have hfb : (0 : Int) < io.frame_bytes := by exact_mod_cast hf1
  have hc : _snd_pcm_volumiofifo_chunk_size F io
      = (F.PIPE_BUF : Int) - (F.PIPE_BUF : Int) % (io.frame_bytes : Int) := by
    simp [_snd_pcm_volumiofifo_chunk_size, snd_pcm_frames_to_bytes]
  have hmod0 : 0 ≤ (F.PIPE_BUF : Int) % (io.frame_bytes : Int) := Int.emod_nonneg _ (by omega)
  have hmodlt : (F.PIPE_BUF : Int) % (io.frame_bytes : Int) < io.frame_bytes :=
    Int.emod_lt_of_pos _ hfb
  have hle : (io.frame_bytes : Int) ≤ F.PIPE_BUF := by exact_mod_cast hf2
  have hcle : _snd_pcm_volumiofifo_chunk_size F io ≤ F.PIPE_BUF := by rw [hc]; omega
  have hp : (F.PIPE_BUF : Int) < 2 ^ 31 := by exact_mod_cast hpipe
  refine ⟨hc, by rw [hc]; omega, ?_, by rw [hc]; omega, hcle, lt_of_le_of_lt hcle hp, ?_⟩
  · rw [hc]
    refine ⟨(F.PIPE_BUF : Int) / (io.frame_bytes : Int), ?_⟩
    have := Int.ediv_add_emod (F.PIPE_BUF : Int) (io.frame_bytes : Int)
    omega
  · intro fuel buf size w ret w1 hsize h
    have hsz : ((size : Int) * io.frame_bytes) < 2 ^ 31 := by exact_mod_cast hsize
    unfold _snd_pcm_volumiofifo_transfer at h
    simp only [] at h
    split at h
    · simp at h
    · rename_i written s1 evs hl
      simp only [Option.some.injEq, Prod.mk.injEq] at h
      obtain ⟨hr, hw⟩ := h
      subst hr; subst hw
      refine ⟨evs, rfl, ?_⟩
      intro pre ev post hev
      have hsb : (0 : Int) ≤ snd_pcm_frames_to_bytes io size := by
        simp only [snd_pcm_frames_to_bytes]; positivity
      obtain ⟨h1, h2⟩ := transfer_loop_chunked F io (snd_pcm_frames_to_bytes io size)
        (_snd_pcm_volumiofifo_chunk_size F io) (by rw [hc]; omega) fuel w.fifo 0 0 [] written s1
        evs hsb (by simp [accepted_bytes]) (by intro pre ev post h0; simp at h0) hl pre ev post hev
      have hpost := transfer_loop_spec F io hb (snd_pcm_frames_to_bytes io size)
        (_snd_pcm_volumiofifo_chunk_size F io) fuel w.fifo 0 0 [] written s1 evs (le_refl _)
        hsb (by simp [accepted_bytes]) (by simp) rfl (by simp [accepted_offsets, accepted_bytes])
        (by simp) hl
      have hmem : ev ∈ evs := by rw [hev]; simp
      obtain ⟨h3, h4⟩ := hpost.2.2.1 ev hmem
      simp only [snd_pcm_frames_to_bytes] at h2 h4
      have hcnt0 : (0 : Int) ≤ (ev.count : Int) := Int.natCast_nonneg _
      refine ⟨h1, h2, ?_, ?_, ?_, ?_⟩
      · rw [h2]; exact min_le_left _ _
      · have : (ev.count : Int) ≤ F.PIPE_BUF := by
          rw [h2]; exact le_trans (min_le_left _ _) hcle
        exact_mod_cast this
      · rw [← h1]; omega
      · exact lt_of_le_of_lt h4 hsz

/-- Witness of C20: 4-byte frames and `PIPE_BUF = 4096` give `c = 4096`; a call for 2000 frames
(8000 bytes) on a pipe with room issues writes of 4096 and 3904 bytes. -/
theorem chunk_size_bounds_every_write_witness :
    1 ≤ (demo_io snd_pcm_state_t.RUNNING 0).frame_bytes ∧
    (demo_io snd_pcm_state_t.RUNNING 0).frame_bytes ≤ (limited_fifo EAGAIN).PIPE_BUF ∧
    (limited_fifo EAGAIN).bounded ∧
    (limited_fifo EAGAIN).PIPE_BUF < 2 ^ 31 ∧
    2000 * (demo_io snd_pcm_state_t.RUNNING 0).frame_bytes < 2 ^ 31 ∧
    _snd_pcm_volumiofifo_chunk_size (limited_fifo EAGAIN) (demo_io snd_pcm_state_t.RUNNING 0)
      = 4096 ∧
    _snd_pcm_volumiofifo_transfer (limited_fifo EAGAIN) 20000 (demo_io snd_pcm_state_t.RUNNING 0)
      (buf_ptr.area 0) 2000 ⟨100000, []⟩
      = some (2000, ⟨92000, [⟨buf_ptr.area 0, 2000,
          [⟨0, 4096, io_result.done 4096⟩, ⟨4096, 3904, io_result.done 3904⟩], 2000⟩]⟩) ∧
    ∃ evs, [(⟨buf_ptr.area 0, 2000,
          [⟨0, 4096, io_result.done 4096⟩, ⟨4096, 3904, io_result.done 3904⟩], 2000⟩ :
            transfer_call)]
        = [] ++ [⟨buf_ptr.area 0, 2000, evs, 2000⟩] ∧
      ∀ pre ev post, evs = pre ++ ev :: post →
        ev.off = (accepted_bytes pre : Int) ∧
        (ev.count : Int) = min (_snd_pcm_volumiofifo_chunk_size (limited_fifo EAGAIN)
            (demo_io snd_pcm_state_t.RUNNING 0))
          (((2000 : Nat) : Int) * (demo_io snd_pcm_state_t.RUNNING 0).frame_bytes
            - (accepted_bytes pre : Int)) ∧
        (ev.count : Int) ≤ _snd_pcm_volumiofifo_chunk_size (limited_fifo EAGAIN)
          (demo_io snd_pcm_state_t.RUNNING 0) ∧
        ev.count ≤ (limited_fifo EAGAIN).PIPE_BUF ∧
        (accepted_bytes pre : Int)
          ≤ ((2000 : Nat) : Int) * (demo_io snd_pcm_state_t.RUNNING 0).frame_bytes ∧
        ev.off + ev.count < 2 ^ 31 :=
  ⟨by decide, by decide, limited_fifo_bounded EAGAIN, by decide, by decide, by decide, by decide,
    (chunk_size_bounds_every_write (limited_fifo EAGAIN) (demo_io snd_pcm_state_t.RUNNING 0)
      (by decide) (by decide) (limited_fifo_bounded EAGAIN) (by decide)).2.2.2.2.2.2
      20000 (buf_ptr.area 0) 2000 ⟨100000, []⟩ 2000
      ⟨92000, [⟨buf_ptr.area 0, 2000,
        [⟨0, 4096, io_result.done 4096⟩, ⟨4096, 3904, io_result.done 3904⟩], 2000⟩]⟩
      (by decide) (by decide)⟩

theorem close_fd_invalid (closed : List Int) :
    snd_pcm_volumiofifo_close_fd (-1) closed = (-1, closed) := by
  simp [snd_pcm_volumiofifo_close_fd]

theorem close_of_released (volumio : snd_pcm_volumiofifo_t) (closed : List Int)
    (h1 : volumio.fifo_out_fd = -1) (h2 : volumio.fifo_in_fd = -1) (h3 : volumio.timer_fd = -1) :
    snd_pcm_volumiofifo_close volumio closed = (0, volumio, closed) := by
  obtain ⟨d, c, l, fo, fi, ft, p, b, dr⟩ := volumio
  simp only [] at h1 h2 h3
  subst h1; subst h2; subst h3
  simp [snd_pcm_volumiofifo_close, close_fd_invalid]

theorem open_error_path_spec (err : Int) (volumio : snd_pcm_volumiofifo_t) (io_pcm : Bool)
    (st : parse_state) (opened : List Int) :
    (open_error_path err volumio io_pcm st opened).err = err ∧
    (open_error_path err volumio io_pcm st opened).pcm = false ∧
    (open_error_path err volumio io_pcm st opened).opened = opened ∧
    (open_error_path err volumio io_pcm st opened).closed
      = [volumio.fifo_out_fd, volumio.fifo_in_fd, volumio.timer_fd].filter (fun fd => fd ≠ -1) ∧
    (open_error_path err volumio io_pcm st opened).volumio
      = some { volumio with fifo_out_fd := -1, fifo_in_fd := -1, timer_fd := -1 } := by
  have hclose : ∀ c, snd_pcm_volumiofifo_close
      { volumio with fifo_out_fd := -1, fifo_in_fd := -1, timer_fd := -1 } c
      = (0, { volumio with fifo_out_fd := -1, fifo_in_fd := -1, timer_fd := -1 }, c) :=
    fun c => close_of_released _ c rfl rfl rfl
  have hfilter : (snd_pcm_volumiofifo_close_fd volumio.timer_fd
      (snd_pcm_volumiofifo_close_fd volumio.fifo_in_fd
        (snd_pcm_volumiofifo_close_fd volumio.fifo_out_fd []).2).2).2
      = [volumio.fifo_out_fd, volumio.fifo_in_fd, volumio.timer_fd].filter (fun fd => fd ≠ -1) := by
    simp only [snd_pcm_volumiofifo_close_fd, List.filter]
    by_cases h1 : volumio.fifo_out_fd = -1 <;> by_cases h2 : volumio.fifo_in_fd = -1 <;>
      by_cases h3 : volumio.timer_fd = -1 <;> simp [h1, h2, h3]
  unfold open_error_path
  cases io_pcm with
  | false =>
    simp only [Bool.false_eq_true, if_false]
    refine ⟨?_, ?_, ?_, ?_, ?_⟩ <;> trivial
  | true =>
    simp only [if_true]
    have h1 : (snd_pcm_volumiofifo_close_fd volumio.fifo_out_fd []).1 = -1 := rfl
    have h2 : (snd_pcm_volumiofifo_close_fd volumio.fifo_in_fd
        (snd_pcm_volumiofifo_close_fd volumio.fifo_out_fd []).2).1 = -1 := rfl
    have h3 : (snd_pcm_volumiofifo_close_fd volumio.timer_fd
        (snd_pcm_volumiofifo_close_fd volumio.fifo_in_fd
          (snd_pcm_volumiofifo_close_fd volumio.fifo_out_fd []).2).2).1 = -1 := rfl
    simp only [h1, h2, h3, hclose]
    refine ⟨?_, ?_, ?_, ?_, ?_⟩ <;> trivial


theorem open_register_failure (E : open_env) (st : parse_state)
    (volumio : snd_pcm_volumiofifo_t) (opened : List Int)
    (hf : (open_register E st volumio opened).pcm = false) :
    ∃ err p, open_register E st volumio opened = open_error_path err volumio p st opened := by
  unfold open_register at hf ⊢
  by_cases h0 : E.ioplug_create < 0
  · rw [if_pos h0]; exact ⟨_, _, rfl⟩
  rw [if_neg h0] at hf ⊢
  by_cases h1 : E.set_param 0 < 0
  · rw [if_pos h1]; exact ⟨_, _, rfl⟩
  rw [if_neg h1] at hf ⊢
  by_cases h2 : E.set_param 1 < 0
  · rw [if_pos h2]; exact ⟨_, _, rfl⟩
  rw [if_neg h2] at hf ⊢
  by_cases h3 : E.set_param 2 < 0
  · rw [if_pos h3]; exact ⟨_, _, rfl⟩
  rw [if_neg h3] at hf ⊢
  by_cases h4 : E.set_param 3 < 0
  · rw [if_pos h4]; exact ⟨_, _, rfl⟩
  rw [if_neg h4] at hf ⊢
  by_cases h5 : E.set_param 4 < 0
  · rw [if_pos h5]; exact ⟨_, _, rfl⟩
  rw [if_neg h5] at hf ⊢
  by_cases h6 : E.set_param 5 < 0
  · rw [if_pos h6]; exact ⟨_, _, rfl⟩
  rw [if_neg h6] at hf
  exact absurd hf (by simp)

/-- A failed run of the part from `calloc` on has closed what it opened and left every slot of
the record, if there is one, at `-1`. -/
theorem open_acquire_failure (E : open_env) (st : parse_state) (name : String)
    (hf : (open_acquire E st name).pcm = false) :
    (open_acquire E st name).closed.Perm (open_acquire E st name).opened ∧
    ∀ v, (open_acquire E st name).volumio = some v →
      v.fifo_out_fd = -1 ∧ v.fifo_in_fd = -1 ∧ v.timer_fd = -1 := by
  have hne : ∀ n : Nat, ((n : Int) = -1) = False := fun n => by
    rw [eq_iff_iff, iff_false]; omega
  have key : ∀ (err : Int) (v : snd_pcm_volumiofifo_t) (p : Bool) (opened : List Int),
      ([v.fifo_out_fd, v.fifo_in_fd, v.timer_fd].filter (fun fd => fd ≠ -1)).Perm opened →
      (open_error_path err v p st opened).closed.Perm (open_error_path err v p st opened).opened ∧
      ∀ v1, (open_error_path err v p st opened).volumio = some v1 →
        v1.fifo_out_fd = -1 ∧ v1.fifo_in_fd = -1 ∧ v1.timer_fd = -1 := by
    intro err v p opened hperm
    obtain ⟨_, _, h3, h4, h5⟩ := open_error_path_spec err v p st opened
    rw [h3, h4, h5]
    refine ⟨hperm, ?_⟩
    intro v1 hv1
    simp only [Option.some.injEq] at hv1
    rw [← hv1]
    exact ⟨rfl, rfl, rfl⟩
  unfold open_acquire at hf ⊢
  cases h1 : E.calloc_ok with
  | false =>
    simp only [if_true]
    exact ⟨List.Perm.refl _, by intro v hv; simp at hv⟩
  | true =>
    simp only [h1, Bool.true_eq_false, if_false] at hf ⊢
    cases h2 : E.strdup_ok with
    | false =>
      simp only [if_true]
      exact key _ _ _ _ (by simp)
    | true =>
      simp only [h2, Bool.true_eq_false, if_false] at hf ⊢
      cases hin : E.open_in with
      | failed e =>
        simp only []
        exact key _ _ _ _ (by simp)
      | fd fin =>
        simp only [hin] at hf
        simp only []
        cases hout : E.open_out with
        | failed e =>
          simp only []
          exact key _ _ _ _ (by simp [hne])
        | fd fout =>
          simp only [hout] at hf
          simp only []
          cases ht : E.timerfd_create with
          | failed e =>
            simp only []
            exact key _ _ _ _ (by simp [hne]; exact List.Perm.swap _ _ _)
          | fd ft =>
            simp only [ht] at hf
            simp only []
            obtain ⟨err, p, heq⟩ := open_register_failure E st _ _ hf
            rw [heq]
            exact key _ _ _ _ (by simp [hne]; exact List.Perm.swap _ _ _)

/-- A failed run of the constructor has closed what it opened and left every slot of the
record, if there is one, at `-1`. -/
theorem open_failure {E : open_env} {stream : snd_pcm_stream_t} {conf : List conf_entry}
    (hf : (_snd_pcm_volumiofifo_open E stream conf).pcm = false) :
    (_snd_pcm_volumiofifo_open E stream conf).closed.Perm
      (_snd_pcm_volumiofifo_open E stream conf).opened ∧
    ∀ v, (_snd_pcm_volumiofifo_open E stream conf).volumio = some v →
      v.fifo_out_fd = -1 ∧ v.fifo_in_fd = -1 ∧ v.timer_fd = -1 := by
  unfold _snd_pcm_volumiofifo_open at hf ⊢
  simp only [] at hf ⊢
  split
  · exact ⟨List.Perm.refl _, by intro v hv; simp at hv⟩
  · rename_i hs
    rw [if_neg hs] at hf
    split
    · exact ⟨List.Perm.refl _, by intro v hv; simp at hv⟩
    · rename_i st1 hp
      rw [hp] at hf
      simp only [] at hf
      split
      · exact ⟨List.Perm.refl _, by intro v hv; simp at hv⟩
      · rename_i name hn
        rw [hn] at hf
        simp only [] at hf
        split
        · exact ⟨List.Perm.refl _, by intro v hv; simp at hv⟩
        · rename_i st2 hu
          rw [hu] at hf
          simp only [] at hf
          exact open_acquire_failure E st2 name hf

/-- C13. Handle release is idempotent.  `snd_pcm_volumiofifo_close_fd` leaves the slot at `-1`,
closes nothing when the slot held `-1` and closes the descriptor once otherwise; applied a
second time it closes nothing.  `snd_pcm_volumiofifo_close` closes the valid ones among the
write side, the read side and the timer, once each, closes nothing on a session whose three
slots are `-1`, and closes nothing when applied again.  Every failed run of the constructor has
closed each descriptor it opened exactly once, and the close callback applied to the record it
leaves closes nothing more. -/
theorem handle_release_idempotent :
    (∀ fd closed, (snd_pcm_volumiofifo_close_fd fd closed).1 = -1 ∧
      (fd = -1 → (snd_pcm_volumiofifo_close_fd fd closed).2 = closed) ∧
      (fd ≠ -1 → (snd_pcm_volumiofifo_close_fd fd closed).2 = closed ++ [fd])) ∧
    (∀ fd closed, snd_pcm_volumiofifo_close_fd (snd_pcm_volumiofifo_close_fd fd closed).1
        (snd_pcm_volumiofifo_close_fd fd closed).2
      = (-1, (snd_pcm_volumiofifo_close_fd fd closed).2)) ∧
    (∀ volumio closed, volumio.fifo_out_fd = -1 → volumio.fifo_in_fd = -1 →
      volumio.timer_fd = -1 → snd_pcm_volumiofifo_close volumio closed = (0, volumio, closed)) ∧
    (∀ volumio closed,
      (snd_pcm_volumiofifo_close volumio closed).2.2 = closed ++
        [volumio.fifo_out_fd, volumio.fifo_in_fd, volumio.timer_fd].filter (fun fd => fd ≠ -1) ∧
      snd_pcm_volumiofifo_close (snd_pcm_volumiofifo_close volumio closed).2.1
          (snd_pcm_volumiofifo_close volumio closed).2.2
        = (0, (snd_pcm_volumiofifo_close volumio closed).2.1,
            (snd_pcm_volumiofifo_close volumio closed).2.2)) ∧
    (∀ E stream conf, (_snd_pcm_volumiofifo_open E stream conf).pcm = false →
      (_snd_pcm_volumiofifo_open E stream conf).closed.Perm
        (_snd_pcm_volumiofifo_open E stream conf).opened ∧
      ∀ v, (_snd_pcm_volumiofifo_open E stream conf).volumio = some v →
        snd_pcm_volumiofifo_close v (_snd_pcm_volumiofifo_open E stream conf).closed
          = (0, v, (_snd_pcm_volumiofifo_open E stream conf).closed)) := by
  refine ⟨?_, ?_, close_of_released, ?_, ?_⟩
  · intro fd closed
    refine ⟨rfl, ?_, ?_⟩
    · intro h; simp [snd_pcm_volumiofifo_close_fd, h]
    · intro h; simp [snd_pcm_volumiofifo_close_fd, h]
  · intro fd closed
    exact close_fd_invalid _
  · intro volumio closed
    constructor
    · simp only [snd_pcm_volumiofifo_close, snd_pcm_volumiofifo_close_fd, List.filter]
      by_cases h1 : volumio.fifo_out_fd = -1 <;> by_cases h2 : volumio.fifo_in_fd = -1 <;>
        by_cases h3 : volumio.timer_fd = -1 <;> simp [h1, h2, h3]
    · exact close_of_released _ _ rfl rfl rfl
  · intro E stream conf hf
    obtain ⟨hperm, hslots⟩ := open_failure hf
    refine ⟨hperm, ?_⟩
    intro v hv
    obtain ⟨h1, h2, h3⟩ := hslots v hv
    exact close_of_released v _ h1 h2 h3


/-- Witness of C13: creating the timer fails with `EMFILE` after both sides of the fifo were
opened as 5 and 6; the run closes 6 and 5 and a later close closes nothing. -/
theorem handle_release_idempotent_witness :
    (_snd_pcm_volumiofifo_open { ok_open_env with timerfd_create := fd_result.failed 24 }
      snd_pcm_stream_t.PLAYBACK [⟨some "fifo", conf_value.string "/tmp/snapfifo"⟩]).pcm = false ∧
    (_snd_pcm_volumiofifo_open { ok_open_env with timerfd_create := fd_result.failed 24 }
      snd_pcm_stream_t.PLAYBACK [⟨some "fifo", conf_value.string "/tmp/snapfifo"⟩]).err = -24 ∧
    (_snd_pcm_volumiofifo_open { ok_open_env with timerfd_create := fd_result.failed 24 }
      snd_pcm_stream_t.PLAYBACK [⟨some "fifo", conf_value.string "/tmp/snapfifo"⟩]).opened
      = [5, 6] ∧
    (_snd_pcm_volumiofifo_open { ok_open_env with timerfd_create := fd_result.failed 24 }
      snd_pcm_stream_t.PLAYBACK [⟨some "fifo", conf_value.string "/tmp/snapfifo"⟩]).closed
      = [6, 5] ∧
    (_snd_pcm_volumiofifo_open { ok_open_env with timerfd_create := fd_result.failed 24 }
      snd_pcm_stream_t.PLAYBACK [⟨some "fifo", conf_value.string "/tmp/snapfifo"⟩]).closed.Perm
      (_snd_pcm_volumiofifo_open { ok_open_env with timerfd_create := fd_result.failed 24 }
        snd_pcm_stream_t.PLAYBACK [⟨some "fifo", conf_value.string "/tmp/snapfifo"⟩]).opened :=
  ⟨by decide, by decide, by decide, by decide,
    (handle_release_idempotent.2.2.2.2 { ok_open_env with timerfd_create := fd_result.failed 24 }
      snd_pcm_stream_t.PLAYBACK [⟨some "fifo", conf_value.string "/tmp/snapfifo"⟩]
      (by decide)).1⟩

theorem open_error_path_parsed (err : Int) (volumio : snd_pcm_volumiofifo_t) (io_pcm : Bool)
    (st : parse_state) (opened : List Int) :
    (open_error_path err volumio io_pcm st opened).parsed = st := by
  unfold open_error_path
  cases io_pcm <;> rfl

theorem open_register_cases (E : open_env) (st : parse_state)
    (volumio : snd_pcm_volumiofifo_t) (opened : List Int) :
    open_register E st volumio opened = ⟨0, some volumio, true, st, opened, []⟩ ∨
    ∃ err p, open_register E st volumio opened = open_error_path err volumio p st opened := by
  unfold open_register
  split_ifs
  all_goals first
    | exact Or.inl rfl
    | exact Or.inr ⟨_, _, rfl⟩

/-- Whatever record a run of the part from `calloc` on leaves, its `debug` is the parsed value
clamped into `0..127` and its `lead_in_frames` the parsed value. -/
theorem open_acquire_fields (E : open_env) (st : parse_state) (name : String)
    (v : snd_pcm_volumiofifo_t) (h : (open_acquire E st name).volumio = some v) :
    (open_acquire E st name).parsed = st ∧
    v.debug = (if st.debug ≤ 0 then 0 else if st.debug ≥ 127 then 127 else st.debug) ∧
    v.lead_in_frames = to_ulong st.lead_in_frames ∧ v.clear_on_drop = st.clear_on_drop := by
  have key : ∀ (err : Int) (v0 : snd_pcm_volumiofifo_t) (p : Bool) (opened : List Int),
      v0.debug = (if st.debug ≤ 0 then 0 else if st.debug ≥ 127 then 127 else st.debug) →
      v0.lead_in_frames = to_ulong st.lead_in_frames → v0.clear_on_drop = st.clear_on_drop →
      (open_error_path err v0 p st opened).volumio = some v →
      (open_error_path err v0 p st opened).parsed = st ∧
      v.debug = (if st.debug ≤ 0 then 0 else if st.debug ≥ 127 then 127 else st.debug) ∧
      v.lead_in_frames = to_ulong st.lead_in_frames ∧ v.clear_on_drop = st.clear_on_drop := by
    intro err v0 p opened h1 h2 h3 hv
    rw [(open_error_path_spec err v0 p st opened).2.2.2.2] at hv
    simp only [Option.some.injEq] at hv
    rw [← hv]
    exact ⟨open_error_path_parsed _ _ _ _ _, h1, h2, h3⟩
  unfold open_acquire at h ⊢
  cases h1 : E.calloc_ok with
  | false => simp [h1] at h
  | true =>
    simp only [h1, Bool.true_eq_false, if_false] at h ⊢
    cases h2 : E.strdup_ok with
    | false =>
      simp only [h2, if_true] at h ⊢
      exact key _ _ _ _ rfl rfl rfl h
    | true =>
      simp only [h2, Bool.true_eq_false, if_false] at h ⊢
      cases hin : E.open_in with
      | failed e =>
        simp only [hin] at h
        simp only []
        exact key _ _ _ _ rfl rfl rfl h
      | fd fin =>
        simp only [hin] at h
        simp only []
        cases hout : E.open_out with
        | failed e =>
          simp only [hout] at h
          simp only []
          exact key _ _ _ _ rfl rfl rfl h
        | fd fout =>
          simp only [hout] at h
          simp only []
          cases ht : E.timerfd_create with
          | failed e =>
            simp only [ht] at h
            simp only []
            exact key _ _ _ _ rfl rfl rfl h
          | fd ft =>
            simp only [ht] at h
            simp only []
            rcases open_register_cases E st _ _ with heq | ⟨err, p, heq⟩
            · rw [heq] at h ⊢
              simp only [Option.some.injEq] at h
              rw [← h]
              exact ⟨rfl, rfl, rfl, rfl⟩
            · rw [heq] at h ⊢
              exact key _ _ _ _ rfl rfl rfl h

theorem open_cases (E : open_env) (stream : snd_pcm_stream_t) (conf : List conf_entry) :
    (_snd_pcm_volumiofifo_open E stream conf).volumio = none ∨
    ∃ st name, _snd_pcm_volumiofifo_open E stream conf = open_acquire E st name := by
  unfold _snd_pcm_volumiofifo_open
  simp only []
  split
  · exact Or.inl rfl
  · split
    · exact Or.inl rfl
    · split
      · exact Or.inl rfl
      · split
        · exact Or.inl rfl
        · exact Or.inr ⟨_, _, rfl⟩

theorem open_fields {E : open_env} {stream : snd_pcm_stream_t} {conf : List conf_entry}
    {v : snd_pcm_volumiofifo_t} (h : (_snd_pcm_volumiofifo_open E stream conf).volumio = some v) :
    v.debug = (if (_snd_pcm_volumiofifo_open E stream conf).parsed.debug ≤ 0 then 0
      else if (_snd_pcm_volumiofifo_open E stream conf).parsed.debug ≥ 127 then 127
      else (_snd_pcm_volumiofifo_open E stream conf).parsed.debug) ∧
    v.lead_in_frames = to_ulong (_snd_pcm_volumiofifo_open E stream conf).parsed.lead_in_frames := by
  rcases open_cases E stream conf with hn | ⟨st, name, heq⟩
  · rw [hn] at h; simp at h
  · rw [heq] at h ⊢
    obtain ⟨h1, h2, h3, _⟩ := open_acquire_fields E st name v h
    rw [h1]
    exact ⟨h2, h3⟩


/-- C14 fails as stated: with `debug = 200` and `lead_in_frames = 20000` in the configuration
and every system call succeeding, the constructor returns 0 with the three descriptors open;
the session stores `debug = 127` and `lead_in_frames = 20000`. -/
theorem open_accepts_out_of_range_options :
    (_snd_pcm_volumiofifo_open ok_open_env snd_pcm_stream_t.PLAYBACK
      [⟨some "fifo", conf_value.string "/tmp/snapfifo"⟩, ⟨some "debug", conf_value.integer 200⟩,
        ⟨some "lead_in_frames", conf_value.integer 20000⟩]).err = 0 ∧
    (_snd_pcm_volumiofifo_open ok_open_env snd_pcm_stream_t.PLAYBACK
      [⟨some "fifo", conf_value.string "/tmp/snapfifo"⟩, ⟨some "debug", conf_value.integer 200⟩,
        ⟨some "lead_in_frames", conf_value.integer 20000⟩]).pcm = true ∧
    (_snd_pcm_volumiofifo_open ok_open_env snd_pcm_stream_t.PLAYBACK
      [⟨some "fifo", conf_value.string "/tmp/snapfifo"⟩, ⟨some "debug", conf_value.integer 200⟩,
        ⟨some "lead_in_frames", conf_value.integer 20000⟩]).opened = [5, 6, 7] ∧
    (_snd_pcm_volumiofifo_open ok_open_env snd_pcm_stream_t.PLAYBACK
      [⟨some "fifo", conf_value.string "/tmp/snapfifo"⟩, ⟨some "debug", conf_value.integer 200⟩,
        ⟨some "lead_in_frames", conf_value.integer 20000⟩]).volumio.map
      (fun v => (v.debug, v.lead_in_frames)) = some (127, 20000) := by
  decide

/-- C14 as amended. An out-of-range `debug` value does not end construction: the configuration
loop accepts a `debug` entry with any integer value and goes on, and every session record the
constructor allocates stores the parsed `debug` clamped into `0..127` (0 for values `≤ 0`, 127
for values `≥ 127`). -/
theorem debug_level_clamped :
    (∀ format_value st d,
      parse_entry format_value st ⟨some "debug", conf_value.integer d⟩
        = ({ st with debug := d }, none)) ∧
    (∀ E stream conf v, (_snd_pcm_volumiofifo_open E stream conf).volumio = some v →
      v.debug = (if (_snd_pcm_volumiofifo_open E stream conf).parsed.debug ≤ 0 then 0
        else if (_snd_pcm_volumiofifo_open E stream conf).parsed.debug ≥ 127 then 127
        else (_snd_pcm_volumiofifo_open E stream conf).parsed.debug) ∧
      0 ≤ v.debug ∧ v.debug ≤ 127) := by
  constructor
  · intro format_value st d
    simp [parse_entry, snd_config_get_integer]
  · intro E stream conf v h
    obtain ⟨h1, _⟩ := open_fields h
    refine ⟨h1, ?_, ?_⟩
    · rw [h1]; split_ifs <;> omega
    · rw [h1]; split_ifs <;> omega

/-- Witness of C14 as amended: `debug = -3` is stored as 0. -/
theorem debug_level_clamped_witness :
    (_snd_pcm_volumiofifo_open ok_open_env snd_pcm_stream_t.PLAYBACK
      [⟨some "debug", conf_value.integer (-3)⟩,
        ⟨some "fifo", conf_value.string "/tmp/snapfifo"⟩]).volumio
      = some ⟨0, 1, 0, 6, 5, 7, 0, 0, 0⟩ ∧
    (0 : Int) ≤ (⟨0, 1, 0, 6, 5, 7, 0, 0, 0⟩ : snd_pcm_volumiofifo_t).debug :=
  ⟨by decide,
    (debug_level_clamped.2 ok_open_env snd_pcm_stream_t.PLAYBACK
      [⟨some "debug", conf_value.integer (-3)⟩, ⟨some "fifo", conf_value.string "/tmp/snapfifo"⟩]
      ⟨0, 1, 0, 6, 5, 7, 0, 0, 0⟩ (by decide)).2.1⟩

/-! ## Theorems: the format array -/

/-- One iteration of the configuration loop keeps `format_count` in `0..63` unless it ends in
`-EINVAL` with `format_count = 64`, and writes `formats[]` only at an index in `0..62`. -/
theorem parse_entry_formats (fv : String → Int) (st : parse_state) (n : conf_entry)
    (h0 : 0 ≤ st.format_count) (h1 : st.format_count ≤ 63)
    (hs : ∀ i ∈ st.stores, 0 ≤ i ∧ i ≤ 62) :
    (∀ i ∈ (parse_entry fv st n).1.stores, 0 ≤ i ∧ i ≤ 62) ∧
    0 ≤ (parse_entry fv st n).1.format_count ∧
    (parse_entry fv st n).1.format_count ≤ 64 ∧
    ((parse_entry fv st n).1.format_count = 64 → (parse_entry fv st n).2 = some (-EINVAL)) := by
  unfold parse_entry
  split
  · exact ⟨hs, h0, by show st.format_count ≤ 64; omega,
        fun h => by exfalso; have h2 : st.format_count = 64 := h; omega⟩
  · split_ifs with c1 c2 c3 c4 c5 c6 c7
    · exact ⟨hs, h0, by show st.format_count ≤ 64; omega,
        fun h => by exfalso; have h2 : st.format_count = 64 := h; omega⟩
    · split <;> exact ⟨hs, h0, by show st.format_count ≤ 64; omega,
        fun h => by exfalso; have h2 : st.format_count = 64 := h; omega⟩
    · split <;> exact ⟨hs, h0, by show st.format_count ≤ 64; omega,
        fun h => by exfalso; have h2 : st.format_count = 64 := h; omega⟩
    · split
      · exact ⟨hs, h0, by show st.format_count ≤ 64; omega,
        fun h => by exfalso; have h2 : st.format_count = 64 := h; omega⟩
      · split_ifs <;> exact ⟨hs, h0, by show st.format_count ≤ 64; omega,
        fun h => by exfalso; have h2 : st.format_count = 64 := h; omega⟩
    · simp only []
      split_ifs with d1
      · exact ⟨hs, by show 0 ≤ st.format_count + 1; omega,
          by show st.format_count + 1 ≤ 64; omega, fun _ => rfl⟩
      · have d2 : ¬ st.format_count + 1 > 63 := d1
        split
        · exact ⟨hs, by show 0 ≤ st.format_count + 1; omega,
            by show st.format_count + 1 ≤ 64; omega,
            fun h => by exfalso; have h2 : st.format_count + 1 = 64 := h; omega⟩
        · have hst : ∀ i ∈ st.stores ++ [st.format_count + 1 - 1], 0 ≤ i ∧ i ≤ 62 := by
            intro i hi
            rcases List.mem_append.1 hi with hi | hi
            · exact hs i hi
            · rw [List.mem_singleton] at hi
              omega
          split_ifs
          · exact ⟨hst, by show 0 ≤ st.format_count + 1; omega,
              by show st.format_count + 1 ≤ 64; omega, fun _ => rfl⟩
          · exact ⟨hst, by show 0 ≤ st.format_count + 1; omega,
              by show st.format_count + 1 ≤ 64; omega,
              fun h => by exfalso; have h2 : st.format_count + 1 = 64 := h; omega⟩
    · split <;> exact ⟨hs, h0, by show st.format_count ≤ 64; omega,
        fun h => by exfalso; have h2 : st.format_count = 64 := h; omega⟩
    · split <;> exact ⟨hs, h0, by show st.format_count ≤ 64; omega,
        fun h => by exfalso; have h2 : st.format_count = 64 := h; omega⟩
    · exact ⟨hs, h0, by show st.format_count ≤ 64; omega,
        fun h => by exfalso; have h2 : st.format_count = 64 := h; omega⟩

/-- The configuration loop keeps `format_count` in `0..63` unless it ends in `-EINVAL` with
`format_count = 64`, and writes `formats[]` only at indices in `0..62`. -/
theorem parse_conf_formats (fv : String → Int) (ns : List conf_entry) :
    ∀ st : parse_state, 0 ≤ st.format_count → st.format_count ≤ 63 →
      (∀ i ∈ st.stores, 0 ≤ i ∧ i ≤ 62) →
      (∀ i ∈ (parse_conf fv st ns).1.stores, 0 ≤ i ∧ i ≤ 62) ∧
      0 ≤ (parse_conf fv st ns).1.format_count ∧
      (parse_conf fv st ns).1.format_count ≤ 64 ∧
      ((parse_conf fv st ns).1.format_count = 64 →
        (parse_conf fv st ns).2 = some (-EINVAL)) := by
  induction ns with
  | nil =>
    intro st h0 h1 hs
    exact ⟨hs, h0, by show st.format_count ≤ 64; omega,
      fun h => by exfalso; have h2 : st.format_count = 64 := h; omega⟩
  | cons n ns ih =>
    intro st h0 h1 hs
    have he := parse_entry_formats fv st n h0 h1 hs
    unfold parse_conf
    rcases hp : parse_entry fv st n with ⟨st1, r⟩
    rw [hp] at he
    cases r with
    | some e => exact he
    | none =>
      have h64 : st1.format_count ≤ 63 := by
        have h3 : st1.format_count ≤ 64 := he.2.2.1
        have h4 : st1.format_count = 64 → (none : Option Int) = some (-EINVAL) := he.2.2.2
        by_contra hc
        have h5 : st1.format_count = 64 := by omega
        exact absurd (h4 h5) (by simp)
      exact ih st1 he.2.1 h64 he.1

/-- The assignments `formats[format_count++] = f` for the formats of a list write the indices
`format_count`, `format_count + 1`, … in turn. -/
theorem foldl_store_format (l : List Int) :
    ∀ st : parse_state,
      (l.foldl store_format st).format_count = st.format_count + l.length ∧
      ∀ i ∈ (l.foldl store_format st).stores,
        i ∈ st.stores ∨ (st.format_count ≤ i ∧ i < st.format_count + l.length) := by
  induction l with
  | nil =>
    intro st
    exact ⟨by simp, fun i hi => Or.inl hi⟩
  | cons f l ih =>
    intro st
    rw [List.foldl_cons]
    obtain ⟨hc, hs⟩ := ih (store_format st f)
    have e1 : (store_format st f).format_count = st.format_count + 1 := rfl
    have e2 : (store_format st f).stores = st.stores ++ [st.format_count] := rfl
    refine ⟨by rw [hc, e1, List.length_cons]; push_cast; omega, fun i hi => ?_⟩
    rcases hs i hi with h | h
    · rw [e2] at h
      rcases List.mem_append.1 h with h | h
      · exact Or.inl h
      · rw [List.mem_singleton] at h
        right
        rw [List.length_cons]
        push_cast
        omega
    · right
      rw [e1] at h
      rw [List.length_cons]
      push_cast
      omega

/-- The union with the default formats runs only from a count of at most 25: it writes
`formats[]` at indices up to 58 and leaves a count of at most 59; otherwise the count and the
array are the ones parsing left. -/
theorem union_default_formats_spec (st : parse_state)
    (h0 : 0 ≤ st.format_count) (h1 : st.format_count ≤ 63)
    (hs : ∀ i ∈ st.stores, 0 ≤ i ∧ i ≤ 62) :
    (∀ i ∈ (union_default_formats st).1.stores, 0 ≤ i ∧ i ≤ 62) ∧
    0 ≤ (union_default_formats st).1.format_count ∧
    (union_default_formats st).1.format_count ≤ 63 := by
  unfold union_default_formats
  split_ifs with c1 c2
  · exact ⟨hs, h0, h1⟩
  · obtain ⟨hc, hst⟩ := foldl_store_format default_formats st
    have hl : default_formats.length = 34 := rfl
    rw [hl] at hc hst
    refine ⟨fun i hi => ?_, ?_, ?_⟩
    · rcases hst i hi with h | h
      · exact hs i h
      · push_cast at h
        omega
    · show 0 ≤ (default_formats.foldl store_format st).format_count
      rw [hc]
      push_cast
      omega
    · show (default_formats.foldl store_format st).format_count ≤ 63
      rw [hc]
      push_cast
      omega
  · exact ⟨hs, h0, h1⟩

theorem open_acquire_parsed (E : open_env) (st : parse_state) (name : String) :
    (open_acquire E st name).parsed = st := by
  unfold open_acquire
  cases h1 : E.calloc_ok with
  | false => simp
  | true =>
    simp only [Bool.true_eq_false, if_false]
    cases h2 : E.strdup_ok with
    | false =>
      simp only [if_true]
      exact open_error_path_parsed _ _ _ _ _
    | true =>
      simp only [Bool.true_eq_false, if_false]
      cases hin : E.open_in with
      | failed e => exact open_error_path_parsed _ _ _ _ _
      | fd fin =>
        simp only []
        cases hout : E.open_out with
        | failed e => exact open_error_path_parsed _ _ _ _ _
        | fd fout =>
          simp only []
          cases ht : E.timerfd_create with
          | failed e => exact open_error_path_parsed _ _ _ _ _
          | fd ft =>
            simp only []
            rcases open_register_cases E st
                { debug := if st.debug ≤ 0 then 0 else if st.debug ≥ 127 then 127 else st.debug
                  clear_on_drop := st.clear_on_drop
                  lead_in_frames := to_ulong st.lead_in_frames
                  fifo_out_fd := (fout : Int)
                  fifo_in_fd := (fin : Int)
                  timer_fd := (ft : Int)
                  ptr := 0
                  boundary := 0
                  drained := 0 }
                [(fin : Int), (fout : Int), (ft : Int)] with heq | ⟨err, p, heq⟩
            · exact (congrArg open_outcome.parsed heq).trans rfl
            · exact (congrArg open_outcome.parsed heq).trans (open_error_path_parsed _ _ _ _ _)

/-- C21. For every environment, stream direction and sequence of configuration entries, a run
of the constructor `_snd_pcm_volumiofifo_open` writes `formats[64]` only at indices in `0..62`
(so within `0..63`), during parsing and during the union with the default formats alike; the
final `format_count` is in `0..64`; and either the run fails with `-EINVAL` or the final
`format_count` is at most 63. -/
theorem format_array_writes_in_bounds (E : open_env) (stream : snd_pcm_stream_t)
    (conf : List conf_entry) :
    (∀ i ∈ (_snd_pcm_volumiofifo_open E stream conf).parsed.stores, 0 ≤ i ∧ i ≤ 62) ∧
    0 ≤ (_snd_pcm_volumiofifo_open E stream conf).parsed.format_count ∧
    (_snd_pcm_volumiofifo_open E stream conf).parsed.format_count ≤ 64 ∧
    ((_snd_pcm_volumiofifo_open E stream conf).err = -EINVAL ∨
      (_snd_pcm_volumiofifo_open E stream conf).parsed.format_count ≤ 63) := by
  have hp := parse_conf_formats E.format_value conf
    { debug := 0, fifo_name := none, formats := E.stack_formats, format_count := 0,
      format_append := 0, clear_on_drop := 1, lead_in_frames := 0, stores := [] }
    (le_refl 0) (by show (0 : Int) ≤ 63; omega) (fun i hi => absurd hi (List.not_mem_nil i))
  unfold _snd_pcm_volumiofifo_open
  simp only []
  split
  · exact ⟨fun i hi => absurd hi (List.not_mem_nil i), le_refl 0,
      by show (0 : Int) ≤ 64; omega, Or.inl rfl⟩
  · split
    · rename_i st1 e heq
      rw [heq] at hp
      obtain ⟨h1, h2, h3, h4⟩ := hp
      refine ⟨h1, h2, h3, ?_⟩
      by_cases h64 : st1.format_count = 64
      · have he : some e = some (-EINVAL) := h4 h64
        left
        exact Option.some.inj he
      · right
        have h5 : st1.format_count ≤ 64 := h3
        show st1.format_count ≤ 63
        omega
    · rename_i st1 heq
      rw [heq] at hp
      obtain ⟨h1, h2, h3, h4⟩ := hp
      have h63 : st1.format_count ≤ 63 := by
        have h5 : st1.format_count ≤ 64 := h3
        have h6 : st1.format_count = 64 → (none : Option Int) = some (-EINVAL) := h4
        by_contra hc
        have h7 : st1.format_count = 64 := by omega
        exact absurd (h6 h7) (by simp)
      split
      · exact ⟨h1, h2, h3, Or.inl rfl⟩
      · have hu := union_default_formats_spec st1 h2 h63 h1
        split
        · rename_i st2 e hq
          rw [hq] at hu
          obtain ⟨u1, u2, u3⟩ := hu
          have u4 : st2.format_count ≤ 63 := u3
          exact ⟨u1, u2, by show st2.format_count ≤ 64; omega, Or.inr u3⟩
        · rename_i st2 hq
          rw [hq] at hu
          obtain ⟨u1, u2, u3⟩ := hu
          have u4 : st2.format_count ≤ 63 := u3
          rw [open_acquire_parsed]
          exact ⟨u1, u2, by omega, Or.inr u4⟩

/-- The bounds of C21 are reached on concrete runs with every system call succeeding: 64
`format_*` entries end in `-EINVAL` with `format_count = 64` after writing the indices
`0..62`; 25 entries and `format_append` give a count of 59 with the indices `0..58` written;
26 entries and `format_append` end in `-EINVAL` before the union writes anything. -/
theorem format_array_writes_in_bounds_witness :
    ((_snd_pcm_volumiofifo_open ok_open_env snd_pcm_stream_t.PLAYBACK
        (⟨some "fifo", conf_value.string "/tmp/snapfifo"⟩ :: format_entries 64)).err = -EINVAL ∧
      (_snd_pcm_volumiofifo_open ok_open_env snd_pcm_stream_t.PLAYBACK
        (⟨some "fifo", conf_value.string "/tmp/snapfifo"⟩ ::
          format_entries 64)).parsed.format_count = 64 ∧
      (_snd_pcm_volumiofifo_open ok_open_env snd_pcm_stream_t.PLAYBACK
        (⟨some "fifo", conf_value.string "/tmp/snapfifo"⟩ ::
          format_entries 64)).parsed.stores = (List.range 63).map Int.ofNat) ∧
    ((_snd_pcm_volumiofifo_open ok_open_env snd_pcm_stream_t.PLAYBACK
        (⟨some "fifo", conf_value.string "/tmp/snapfifo"⟩ ::
          ⟨some "format_append", conf_value.string "true"⟩ :: format_entries 25)).err = 0 ∧
      (_snd_pcm_volumiofifo_open ok_open_env snd_pcm_stream_t.PLAYBACK
        (⟨some "fifo", conf_value.string "/tmp/snapfifo"⟩ ::
          ⟨some "format_append", conf_value.string "true"⟩ ::
          format_entries 25)).parsed.format_count = 59 ∧
      (_snd_pcm_volumiofifo_open ok_open_env snd_pcm_stream_t.PLAYBACK
        (⟨some "fifo", conf_value.string "/tmp/snapfifo"⟩ ::
          ⟨some "format_append", conf_value.string "true"⟩ ::
          format_entries 25)).parsed.stores = (List.range 59).map Int.ofNat) ∧
    ((_snd_pcm_volumiofifo_open ok_open_env snd_pcm_stream_t.PLAYBACK
        (⟨some "fifo", conf_value.string "/tmp/snapfifo"⟩ ::
          ⟨some "format_append", conf_value.string "true"⟩ :: format_entries 26)).err = -EINVAL ∧
      (_snd_pcm_volumiofifo_open ok_open_env snd_pcm_stream_t.PLAYBACK
        (⟨some "fifo", conf_value.string "/tmp/snapfifo"⟩ ::
          ⟨some "format_append", conf_value.string "true"⟩ ::
          format_entries 26)).parsed.stores = (List.range 26).map Int.ofNat) ∧
    ((∀ i ∈ (_snd_pcm_volumiofifo_open ok_open_env snd_pcm_stream_t.PLAYBACK
        (⟨some "fifo", conf_value.string "/tmp/snapfifo"⟩ ::
          format_entries 64)).parsed.stores, 0 ≤ i ∧ i ≤ 62) ∧
      0 ≤ (_snd_pcm_volumiofifo_open ok_open_env snd_pcm_stream_t.PLAYBACK
        (⟨some "fifo", conf_value.string "/tmp/snapfifo"⟩ ::
          format_entries 64)).parsed.format_count ∧
      (_snd_pcm_volumiofifo_open ok_open_env snd_pcm_stream_t.PLAYBACK
        (⟨some "fifo", conf_value.string "/tmp/snapfifo"⟩ ::
          format_entries 64)).parsed.format_count ≤ 64 ∧
      ((_snd_pcm_volumiofifo_open ok_open_env snd_pcm_stream_t.PLAYBACK
        (⟨some "fifo", conf_value.string "/tmp/snapfifo"⟩ :: format_entries 64)).err = -EINVAL ∨
        (_snd_pcm_volumiofifo_open ok_open_env snd_pcm_stream_t.PLAYBACK
          (⟨some "fifo", conf_value.string "/tmp/snapfifo"⟩ ::
            format_entries 64)).parsed.format_count ≤ 63)) :=
  ⟨by decide, by decide, by decide,
    format_array_writes_in_bounds ok_open_env snd_pcm_stream_t.PLAYBACK
      (⟨some "fifo", conf_value.string "/tmp/snapfifo"⟩ :: format_entries 64)⟩

/-! ## Theorems: the event left by `poll_revents` -/

/-- C22 fails on the code: in running state, with `snd_pcm_hwsync` returning 0, no room in the
buffer (`snd_pcm_ioplug_avail` is 0) and `period_size = 1024`, neither branch of
`if(err >= io->period_size) … else if(err > 0) …` is taken: `snd_pcm_volumiofifo_poll_revents`
returns 0 and `*revents` keeps whatever it held before the call.  Two calls that differ only in
that prior content (`POLLOUT` and 0) return 0 and deliver different events. -/
theorem poll_revents_zero_avail_keeps_prior_content :
    (demo_io snd_pcm_state_t.RUNNING 4096).avail ok_env.hwsync.2
      (demo_io snd_pcm_state_t.RUNNING 4096).appl_ptr = 0 ∧
    (∀ r0 : Nat,
      snd_pcm_volumiofifo_poll_revents ok_env (demo_io snd_pcm_state_t.RUNNING 4096)
        (demo_session 0 0) (fun _ => ⟨5, POLLOUT, POLLOUT⟩) 1 r0 = (0, r0)) ∧
    snd_pcm_volumiofifo_poll_revents ok_env (demo_io snd_pcm_state_t.RUNNING 4096)
      (demo_session 0 0) (fun _ => ⟨5, POLLOUT, POLLOUT⟩) 1 POLLOUT = (0, POLLOUT) ∧
    snd_pcm_volumiofifo_poll_revents ok_env (demo_io snd_pcm_state_t.RUNNING 4096)
      (demo_session 0 0) (fun _ => ⟨5, POLLOUT, POLLOUT⟩) 1 0 = (0, 0) ∧
    POLLOUT ≠ 0 := by
  refine ⟨by decide, ?_, by decide, by decide, by decide⟩
  intro r0
  rw [poll_revents_running ok_env _ _ _ (Or.inl rfl) (by decide) (by decide) (by decide) r0]
  rw [if_neg (by decide), if_neg (by decide)]

end VolumioFifo
